import Mathlib

/-!
# Reaktoro `SmartEquilibriumSolver`: a shallow embedding

The definitions below embed `Reaktoro/Equilibrium/SmartEquilibriumSolver.cpp`.

Conventions of the embedding.

* A C++ `double` is an exact rational number (`ℚ`) in the embedding of the class.
  The one place where the source itself asks whether a value is finite
  (`conditions.inputValues().allFinite()`) keeps the distinction: an entry of the
  input vector is `some x` (finite) or `none` (NaN or infinite, which is what an
  input that was never set holds).
* The statements that depend on how a `double` compares (rounding, NaN) are made
  on a second embedding of `predict`, the namespace `Fp`, over a type of values
  and operations of which nothing is assumed.
* An index (`Index`, `std::size_t`) is a natural number; the hash works modulo `2 ^ 64`.
* A method that mutates `*this` and its `ChemicalState&` argument returns the
  new values; a thrown exception is an `Except.error` that is returned together
  with the values the objects hold at the throw.
* The `tic`/`toc`/`timeit` macros and the `result.timing` fields measure wall-clock
  time and are left out.
* `Impl.log` is a ghost field: every embedded function appends the calls it makes,
  so that statements about which calls happen can be written down.
-/

namespace Reaktoro

/-! ## Vector helpers (Eigen expressions used by the source) -/

/-- The coefficient-wise difference `a - b` of two vectors. -/
def vsub (a b : List ℚ) : List ℚ := List.zipWith (fun x y => x - y) a b

/-- The coefficient-wise sum `a + b` of two vectors. -/
def vadd (a b : List ℚ) : List ℚ := List.zipWith (fun x y => x + y) a b

/-- The inner product of two vectors. -/
def dot (a b : List ℚ) : ℚ := (List.zipWith (fun x y => x * y) a b).sum

/-- The matrix-vector product, the matrix given by its rows. -/
def matVec (m : List (List ℚ)) (v : List ℚ) : List ℚ := m.map (fun row => dot row v)

/-- Eigen `minCoeff()`: the least coefficient (Eigen leaves the empty vector
undefined; the embedding answers `0` there). -/
def minCoeff : List ℚ → ℚ
  | [] => 0
  | x :: xs => xs.foldl min x

/-- Eigen `sum()`. -/
def sumCoeff (n : List ℚ) : ℚ := n.sum

namespace detail

/-- The function `std::hash<Index>`: the identity on an integer, as a `std::size_t`. -/
def hasher (i : Nat) : Nat := i % 2 ^ 64

/-- One round of the loop of `detail::hash`:
`seed ^= hasher(i) + 0x9e3779b9 + (seed << 6) + (seed >> 2)` on 64-bit words. -/
def combine (seed i : Nat) : Nat :=
  seed ^^^ ((hasher i + 0x9e3779b9 + (seed <<< 6) + (seed >>> 2)) % 2 ^ 64)

/-- The function `detail::hash`: the seed starts at `vec.size()` and absorbs the
elements in order. -/
def hash (vec : List Nat) : Nat := vec.foldl combine (vec.length % 2 ^ 64)

end detail

/-! ## Collaborators that are not part of the embedded file -/

/-- Modelled from the spec: the State object (class `ChemicalState` is declared
outside the embedded file).  It exposes the current discrete structural indices
(`iprimary`, read as `state.equilibrium().indicesPrimarySpecies()`), a
settable-by-index continuous component vector (`n`, read as
`state.speciesAmounts()`), the query it was computed for (`w`, `c`, read as
`state.equilibrium().w()` and `.c()`), the scalar diagnostic quantity of each
unknown (`u`, the species chemical potentials) and temperature and pressure. -/
structure ChemicalState where
  temperature : ℚ
  pressure : ℚ
  n : List ℚ
  iprimary : List Nat
  w : List ℚ
  c : List ℚ
  u : List ℚ
deriving DecidableEq

/-- Modelled from the spec: `state.setSpeciesAmount(i, value, "mol")`, the
settable-by-index access to the component vector. -/
def ChemicalState.setSpeciesAmount (state : ChemicalState) (i : Nat) (value : ℚ) : ChemicalState :=
  { state with n := state.n.set i value }

/-- Modelled from the spec: the Problem conditions object (class
`EquilibriumConditions`).  `inputValues` is the `w` vector as stored (an entry
that is not finite is `none`); the derived vector `c` is the stored
`initialComponentAmounts` when set and is otherwise computed from the state by
`componentAmounts`. -/
structure EquilibriumConditions where
  inputValues : List (Option ℚ)
  initialComponentAmounts : Option (List ℚ)
  componentAmounts : ChemicalState → List ℚ

/-- Eigen `allFinite()` on the input vector. -/
def EquilibriumConditions.allFinite (conditions : EquilibriumConditions) : Bool :=
  conditions.inputValues.all Option.isSome

/-- The expression `conditions.inputValues().cast<double>()`: the input vector as plain
numbers (a non-finite entry has no rational value and reads as `0`; `solve`
never lets such a vector reach `predict`). -/
def EquilibriumConditions.w (conditions : EquilibriumConditions) : List ℚ :=
  conditions.inputValues.map (fun x => x.getD 0)

/-- Modelled from the spec: `conditions.initialComponentAmountsGetOrCompute(state)`,
the derived-values accessor (`c`, computed from `state` on demand). -/
def EquilibriumConditions.initialComponentAmountsGetOrCompute
    (conditions : EquilibriumConditions) (state : ChemicalState) : List ℚ :=
  match conditions.initialComponentAmounts with
  | some c => c
  | none => conditions.componentAmounts state

/-- Modelled from the spec: the sensitivity of the exact solution (class
`EquilibriumSensitivity`): the derivatives of the amounts `n` and of the
diagnostic quantity `u` with respect to `w` and `c`, one row per unknown. -/
structure EquilibriumSensitivity where
  dndw : List (List ℚ)
  dndc : List (List ℚ)
  dudw : List (List ℚ)
  dudc : List (List ℚ)
deriving DecidableEq

/-- The restriction set of the unsupported overloads (class `EquilibriumRestrictions`);
the embedded code never reads it. -/
structure EquilibriumRestrictions where
  cannotReact : List Nat
deriving DecidableEq

/-- The result of an exact solve (class `EquilibriumResult`). -/
structure EquilibriumResult where
  succeeded : Bool
  iterations : Nat
deriving DecidableEq

/-- The options forwarded to the exact solver (`options.learning`); `epsilon` is
the floor value given to negative amounts. -/
structure EquilibriumOptions where
  epsilon : ℚ
deriving DecidableEq

/-- The options read by the embedded code (class `SmartEquilibriumOptions`). -/
structure SmartEquilibriumOptions where
  learning : EquilibriumOptions
  reltol : ℚ
  abstol : ℚ
  reltol_negative_amounts : ℚ
deriving DecidableEq

/-- The field `result.prediction`. -/
structure SmartEquilibriumResultDuringPrediction where
  accepted : Bool
deriving DecidableEq

/-- The field `result.learning`. -/
structure SmartEquilibriumResultDuringLearning where
  solve : EquilibriumResult
deriving DecidableEq

/-- The class `SmartEquilibriumResult` without its timing fields. -/
structure SmartEquilibriumResult where
  prediction : SmartEquilibriumResultDuringPrediction
  learning : SmartEquilibriumResultDuringLearning
deriving DecidableEq

/-- The value-initialised result `{}`. -/
def SmartEquilibriumResult.empty : SmartEquilibriumResult :=
  { prediction := { accepted := false }, learning := { solve := { succeeded := false, iterations := 0 } } }

/-- The Predictor object stored in a record (class `EquilibriumPredictor`): the
three members the embedded code calls. -/
structure EquilibriumPredictor where
  speciesChemicalPotentialReference : Nat → ℚ
  speciesChemicalPotentialPredicted : Nat → List ℚ → List ℚ → ℚ
  predict : ChemicalState → EquilibriumConditions → ChemicalState

/-- Modelled from the spec: the constructor `EquilibriumPredictor(state, sensitivity)`
(§4.3).  The reference value of unknown `i` is its value at the reference point,
the predicted value adds the first-order Taylor term `J_w·Δw + J_c·Δc`, and
`predict` applies the same linear extrapolation to every unknown of the
reference solution for the query `(w, c)`. -/
def EquilibriumPredictor.create (state0 : ChemicalState) (sensitivity0 : EquilibriumSensitivity) :
    EquilibriumPredictor where
  speciesChemicalPotentialReference := fun i => state0.u.getD i 0
  speciesChemicalPotentialPredicted := fun i dw dc =>
    state0.u.getD i 0 + dot (sensitivity0.dudw.getD i []) dw + dot (sensitivity0.dudc.getD i []) dc
  predict := fun state conditions =>
    let w := conditions.w
    let c := conditions.initialComponentAmountsGetOrCompute state
    let dw := vsub w state0.w
    let dc := vsub c state0.c
    { state0 with
      n := vadd (vadd state0.n (matVec sensitivity0.dndw dw)) (matVec sensitivity0.dndc dc)
      u := vadd (vadd state0.u (matVec sensitivity0.dudw dw)) (matVec sensitivity0.dudc dc)
      w := w
      c := c }

/-- What a call `solver.solve(state, sensitivity, conditions)` leaves behind: the
state and sensitivity it wrote and the result it returned, or the error it threw. -/
structure SolveOutcome where
  state : ChemicalState
  sensitivity : EquilibriumSensitivity
  result : Except String EquilibriumResult

/-- The exact Solver collaborator (class `EquilibriumSolver`). -/
structure EquilibriumSolver where
  solve : ChemicalState → EquilibriumSensitivity → EquilibriumConditions → SolveOutcome

/-- Add one to entry `i` of a list of counts (no entry: no change). -/
def bump : List Nat → Nat → List Nat
  | [], _ => []
  | x :: xs, 0 => (x + 1) :: xs
  | x :: xs, i + 1 => x :: bump xs i

/-- The indices `0, …, counts.length - 1` by descending count, ties in insertion
order (a stable insertion sort). -/
def rankByCount (counts : List Nat) : List Nat :=
  List.insertionSort (fun a b => counts.getD b 0 ≤ counts.getD a 0) (List.range counts.length)

/-- Modelled from the spec: the Priority Ranking (class `PriorityQueue`): an
integer usage count per index of `[0..n)`. -/
structure PriorityQueue where
  priorities : List Nat
deriving DecidableEq

/-- Modelled from the spec: `extend()` appends one more index with zero count. -/
def PriorityQueue.extend (q : PriorityQueue) : PriorityQueue :=
  { priorities := q.priorities ++ [0] }

/-- Modelled from the spec: `increment(i)` adds one to the count of index `i`. -/
def PriorityQueue.increment (q : PriorityQueue) (i : Nat) : PriorityQueue :=
  { priorities := bump q.priorities i }

/-- Modelled from the spec: `order()` is the permutation of `[0..n)` sorted by
descending usage count, ties broken by insertion order. -/
def PriorityQueue.order (q : PriorityQueue) : List Nat := rankByCount q.priorities

/-- Modelled from the spec: the Connectivity Graph (class `ClusterConnectivity`):
a square table of edge weights, `rows[from][to]`, over the cluster indices, and
the weights of the edges that leave the sentinel origin `size` (the origin that
stands for no starting cluster). -/
structure ClusterConnectivity where
  rows : List (List Nat)
  sentinel : List Nat
deriving DecidableEq

/-- Modelled from the spec: `extend()` grows both dimensions by one. -/
def ClusterConnectivity.extend (g : ClusterConnectivity) : ClusterConnectivity :=
  { rows := g.rows.map (fun row => row ++ [0]) ++ [List.replicate (g.rows.length + 1) 0]
    sentinel := g.sentinel ++ [0] }

/-- The row of edge weights that leave origin `origin`. -/
def ClusterConnectivity.row (g : ClusterConnectivity) (origin : Nat) : List Nat :=
  match g.rows[origin]? with
  | some row => row
  | none => g.sentinel

/-- Modelled from the spec: `increment(from, to)` adds one to the edge weight. -/
def ClusterConnectivity.increment (g : ClusterConnectivity) (origin dest : Nat) : ClusterConnectivity :=
  if origin < g.rows.length then
    { g with rows := g.rows.modify (fun row => bump row dest) origin }
  else
    { g with sentinel := bump g.sentinel dest }

/-- Modelled from the spec: `order(from)` is the list of destination indices by
descending edge weight from `from`. -/
def ClusterConnectivity.order (g : ClusterConnectivity) (origin : Nat) : List Nat :=
  rankByCount (g.row origin)

/-- Modelled from the spec: `indexfn(items, pred)`, the linear scan that returns
the index of the first item satisfying `pred`, or the number of items. -/
def indexfn {α : Type} (items : List α) (pred : α → Bool) : Nat :=
  match items with
  | [] => 0
  | x :: xs => if pred x then 0 else indexfn xs pred + 1

/-! ## The database -/

/-- The struct `SmartEquilibriumSolver::Record`. -/
structure Record where
  state : ChemicalState
  conditions : EquilibriumConditions
  sensitivity : EquilibriumSensitivity
  predictor : EquilibriumPredictor

/-- The struct `SmartEquilibriumSolver::Cluster`. -/
structure Cluster where
  iprimary : List Nat
  label : Nat
  records : List Record
  priority : PriorityQueue

/-- The default-constructed `Cluster`. -/
def Cluster.empty : Cluster :=
  { iprimary := [], label := 0, records := [], priority := { priorities := [] } }

/-- The struct `SmartEquilibriumSolver::Database`. -/
structure Database where
  clusters : List Cluster
  connectivity : ClusterConnectivity
  priority : PriorityQueue

/-- The default-constructed `Database`. -/
def Database.empty : Database :=
  { clusters := [], connectivity := { rows := [], sentinel := [] }, priority := { priorities := [] } }

/-- A call made while a method runs (ghost). -/
inductive Event where
  | predict
  | learn
  | exactSolve
  | errorTest (jcluster irecord : Nat)
  | taylor (jcluster irecord : Nat)
deriving DecidableEq

/-- The struct `SmartEquilibriumSolver::Impl`, with the ghost call log. -/
structure Impl where
  solver : EquilibriumSolver
  sensitivity : EquilibriumSensitivity
  conditions : EquilibriumConditions
  options : SmartEquilibriumOptions
  result : SmartEquilibriumResult
  database : Database
  log : List Event

/-! ## `Impl::predict` -/

/-- The body of the `for` loop of `pass_error_test` (lines 256-267) with
`numprimary - i = k` for the first iteration still to run: element `k` is
tested, then `k - 1`, down to element `0`.  An early `return false` ends it. -/
def errorLoop (options : SmartEquilibriumOptions) (predictor : EquilibriumPredictor)
    (iprimary : List Nat) (dw dc : List ℚ) : Nat → Bool
  | 0 => true
  | k + 1 =>
    let ispecies := iprimary.getD k 0
    let mu0 := predictor.speciesChemicalPotentialReference ispecies
    let mu1 := predictor.speciesChemicalPotentialPredicted ispecies dw dc
    if |mu1 - mu0| ≥ options.reltol * |mu0| + options.abstol then false
    else errorLoop options predictor iprimary dw dc k

/-- The lambda `pass_error_test` (lines 245-270); `iprimary`, `numprimary`, `w`
and `c` are the locals of `predict` it captures. -/
def pass_error_test (options : SmartEquilibriumOptions) (iprimary : List Nat) (numprimary : Nat)
    (w c : List ℚ) (record : Record) : Bool :=
  let w0 := record.state.w
  let c0 := record.state.c
  let dw := vsub w w0
  let dc := vsub c c0
  errorLoop options record.predictor iprimary dw dc numprimary

/-- The loop of `index_starting_cluster` over `database.priority.order()` (lines 283-285). -/
def scanStartingCluster (clusters : List Cluster) (label : Nat) : List Nat → Option Nat
  | [] => none
  | icluster :: rest =>
    match clusters[icluster]? with
    | some cluster => if cluster.label = label then some icluster else scanStartingCluster clusters label rest
    | none => scanStartingCluster clusters label rest

/-- The lambda `index_starting_cluster` (lines 276-289). -/
def index_starting_cluster (database : Database) (iprimary : List Nat) (label : Nat) : Nat :=
  if iprimary.length = 0 then database.clusters.length
  else
    match scanStartingCluster database.clusters label database.priority.order with
    | some icluster => icluster
    | none => database.clusters.length

/-- The feasibility check of line 345 is `nmin <= options.reltol_negative_amounts * nsum`;
`feasible` is its negation, the case in which the search stops. -/
def feasible (options : SmartEquilibriumOptions) (n : List ℚ) : Bool :=
  !(decide (minCoeff n ≤ options.reltol_negative_amounts * sumCoeff n))

/-- The loop of lines 355-357: every amount `n[i] < 0` is set to `options.learning.epsilon`. -/
def clampNegative (epsilon : ℚ) (state : ChemicalState) : ChemicalState :=
  (List.range state.n.length).foldl
    (fun s i => if s.n.getD i 0 < 0 then s.setSpeciesAmount i epsilon else s) state

/-- What the search loops hand back: the accepted pair `(jcluster, irecord)` if
any, the state as left by the loops, and the calls made (ghost). -/
structure SearchOutcome where
  found : Option (Nat × Nat)
  state : ChemicalState
  log : List Event

/-- The inner loop of `predict` (lines 310-380) over the records of cluster `jcluster`
in the order `records_ordering`.  An index outside `records` is skipped. -/
def recordsLoop (options : SmartEquilibriumOptions) (iprimary : List Nat) (numprimary : Nat)
    (w c : List ℚ) (conditions : EquilibriumConditions) (jcluster : Nat) (records : List Record) :
    List Nat → ChemicalState → SearchOutcome
  | [], state => { found := none, state := state, log := [] }
  | irecord :: rest, state =>
    match records[irecord]? with
    | none => recordsLoop options iprimary numprimary w c conditions jcluster records rest state
    | some record =>
      let success := pass_error_test options iprimary numprimary w c record
      if success then
        let state1 := record.predictor.predict state conditions
        let n := state1.n
        let nmin := minCoeff n
        let nsum := sumCoeff n
        if nmin ≤ options.reltol_negative_amounts * nsum then
          let r := recordsLoop options iprimary numprimary w c conditions jcluster records rest state1
          { r with log := Event.errorTest jcluster irecord :: Event.taylor jcluster irecord :: r.log }
        else
          { found := some (jcluster, irecord)
            state := clampNegative options.learning.epsilon state1
            log := [Event.errorTest jcluster irecord, Event.taylor jcluster irecord] }
      else
        let r := recordsLoop options iprimary numprimary w c conditions jcluster records rest state
        { r with log := Event.errorTest jcluster irecord :: r.log }

/-- The outer loop of `predict` (lines 303-381) over `clusters_ordering`.  An
index outside `database.clusters` is skipped. -/
def clustersLoop (options : SmartEquilibriumOptions) (iprimary : List Nat) (numprimary : Nat)
    (w c : List ℚ) (conditions : EquilibriumConditions) (clusters : List Cluster) :
    List Nat → ChemicalState → SearchOutcome
  | [], state => { found := none, state := state, log := [] }
  | jcluster :: rest, state =>
    match clusters[jcluster]? with
    | none => clustersLoop options iprimary numprimary w c conditions clusters rest state
    | some cluster =>
      let records := cluster.records
      let records_ordering := cluster.priority.order
      let r := recordsLoop options iprimary numprimary w c conditions jcluster records records_ordering state
      match r.found with
      | some _ => r
      | none =>
        let r2 := clustersLoop options iprimary numprimary w c conditions clusters rest r.state
        { r2 with log := r.log ++ r2.log }

/-- The database priority update of lines 365-371 for the accepted pair. -/
def Database.priorityUpdate (database : Database) (icluster jcluster irecord : Nat) : Database :=
  { clusters := database.clusters.modify
      (fun cluster => { cluster with priority := cluster.priority.increment irecord }) jcluster
    connectivity := database.connectivity.increment icluster jcluster
    priority := database.priority.increment jcluster }

/-- The method `Impl::predict` (lines 223-384). -/
def Impl.predict (impl : Impl) (state : ChemicalState) (conditions : EquilibriumConditions) :
    Impl × ChemicalState :=
  let impl := { impl with
    result := { impl.result with prediction := { accepted := false } }
    log := impl.log ++ [Event.predict] }
  if impl.database.clusters.isEmpty then (impl, state)
  else
    let iprimary := state.iprimary
    let numprimary := iprimary.length
    let w := conditions.w
    let c := conditions.initialComponentAmountsGetOrCompute state
    let label := detail.hash iprimary
    let icluster := index_starting_cluster impl.database iprimary label
    let clusters_ordering := impl.database.connectivity.order icluster
    let r := clustersLoop impl.options iprimary numprimary w c conditions impl.database.clusters
      clusters_ordering state
    match r.found with
    | some (jcluster, irecord) =>
      ({ impl with
          database := impl.database.priorityUpdate icluster jcluster irecord
          result := { impl.result with prediction := { accepted := true } }
          log := impl.log ++ r.log }, r.state)
    | none =>
      ({ impl with
          result := { impl.result with prediction := { accepted := false } }
          log := impl.log ++ r.log }, r.state)

/-! ## `Impl::learn` -/

/-- The storage step of `learn` (lines 189-217) for the record `record` whose
primary species are `iprimary`. -/
def Database.store (database : Database) (iprimary : List Nat) (record : Record) : Database :=
  let label := detail.hash iprimary
  let icluster := indexfn database.clusters (fun cluster => decide (cluster.label = label))
  if icluster < database.clusters.length then
    { database with
      clusters := database.clusters.modify
        (fun cluster =>
          { cluster with records := cluster.records ++ [record], priority := cluster.priority.extend })
        icluster }
  else
    let cluster : Cluster :=
      { Cluster.empty with
        iprimary := iprimary
        label := label
        records := Cluster.empty.records ++ [record]
        priority := Cluster.empty.priority.extend }
    { clusters := database.clusters ++ [cluster]
      connectivity := database.connectivity.extend
      priority := database.priority.extend }

/-- The method `Impl::learn` (lines 161-220).  The call of the exact solver
writes `state` and the member `sensitivity`; when it throws, `learn` ends there. -/
def Impl.learn (impl : Impl) (state : ChemicalState) (conditions : EquilibriumConditions) :
    Except String Unit × Impl × ChemicalState :=
  let impl := { impl with log := impl.log ++ [Event.learn, Event.exactSolve] }
  let out := impl.solver.solve state impl.sensitivity conditions
  let state := out.state
  let impl := { impl with sensitivity := out.sensitivity }
  match out.result with
  | Except.error e => (Except.error e, impl, state)
  | Except.ok res =>
    let impl := { impl with result := { impl.result with learning := { solve := res } } }
    let iprimary := state.iprimary
    let predictor := EquilibriumPredictor.create state impl.sensitivity
    let record : Record :=
      { state := state, conditions := conditions, sensitivity := impl.sensitivity, predictor := predictor }
    (Except.ok (), { impl with database := impl.database.store iprimary record }, state)

/-! ## The `solve` methods -/

/-- The text thrown by the overloads that take an `EquilibriumRestrictions`. -/
def msgRestrictions : String :=
  "SmartEquilibriumSolver::solve methods with given EquilibriumRestrictions is currently not supported."

/-- The text thrown by the overloads that take an `EquilibriumSensitivity`. -/
def msgSensitivity : String :=
  "SmartEquilibriumSolver::solve methods with given EquilibriumSensitivity is currently not supported."

/-- The text thrown when an input variable is not finite. -/
def msgInputs : String :=
  "Ensure all input variables have been set in the EquilibriumConditions object."

/-- The statement `result = {}` of line 101. -/
def Impl.resetResult (impl : Impl) : Impl := { impl with result := SmartEquilibriumResult.empty }

/-- The method `Impl::solve(state, conditions)` (lines 96-116). -/
def Impl.solve (impl : Impl) (state : ChemicalState) (conditions : EquilibriumConditions) :
    Except String SmartEquilibriumResult × Impl × ChemicalState :=
  let impl := impl.resetResult
  if !conditions.allFinite then (Except.error msgInputs, impl, state)
  else
    let (impl, state) := impl.predict state conditions
    if !impl.result.prediction.accepted then
      match impl.learn state conditions with
      | (Except.error e, impl, state) => (Except.error e, impl, state)
      | (Except.ok _, impl, state) => (Except.ok impl.result, impl, state)
    else (Except.ok impl.result, impl, state)

/-- The class `SmartEquilibriumSolver`: the owner of the `Impl` object. -/
structure SmartEquilibriumSolver where
  pimpl : Impl

/-- What a public `solve` overload leaves behind: the returned result or the
thrown error, the solver object and the caller's state. -/
abbrev SolveReturn := Except String SmartEquilibriumResult × SmartEquilibriumSolver × ChemicalState

/-- The overload `solve(state, conditions)` (lines 432-435). -/
def SmartEquilibriumSolver.solve (self : SmartEquilibriumSolver) (state : ChemicalState)
    (conditions : EquilibriumConditions) : SolveReturn :=
  let (res, impl, state) := self.pimpl.solve state conditions
  (res, { pimpl := impl }, state)

/-- The overload `solve(state, restrictions)` (lines 426-430). -/
def SmartEquilibriumSolver.solve_restrictions (self : SmartEquilibriumSolver) (state : ChemicalState)
    (_restrictions : EquilibriumRestrictions) : SolveReturn :=
  (Except.error msgRestrictions, self, state)

/-- The overload `solve(state, conditions, restrictions)` (lines 437-441). -/
def SmartEquilibriumSolver.solve_conditions_restrictions (self : SmartEquilibriumSolver)
    (state : ChemicalState) (_conditions : EquilibriumConditions)
    (_restrictions : EquilibriumRestrictions) : SolveReturn :=
  (Except.error msgRestrictions, self, state)

/-- The overload `solve(state, sensitivity)` (lines 443-447); the last component
is the caller's sensitivity object. -/
def SmartEquilibriumSolver.solve_sensitivity (self : SmartEquilibriumSolver) (state : ChemicalState)
    (sensitivity : EquilibriumSensitivity) : SolveReturn × EquilibriumSensitivity :=
  ((Except.error msgSensitivity, self, state), sensitivity)

/-- The overload `solve(state, sensitivity, restrictions)` (lines 449-453). -/
def SmartEquilibriumSolver.solve_sensitivity_restrictions (self : SmartEquilibriumSolver)
    (state : ChemicalState) (sensitivity : EquilibriumSensitivity)
    (_restrictions : EquilibriumRestrictions) : SolveReturn × EquilibriumSensitivity :=
  ((Except.error msgSensitivity, self, state), sensitivity)

/-- The overload `solve(state, sensitivity, conditions)` (lines 455-459). -/
def SmartEquilibriumSolver.solve_sensitivity_conditions (self : SmartEquilibriumSolver)
    (state : ChemicalState) (sensitivity : EquilibriumSensitivity)
    (_conditions : EquilibriumConditions) : SolveReturn × EquilibriumSensitivity :=
  ((Except.error msgSensitivity, self, state), sensitivity)

/-- The overload `solve(state, sensitivity, conditions, restrictions)` (lines 461-465). -/
def SmartEquilibriumSolver.solve_sensitivity_conditions_restrictions (self : SmartEquilibriumSolver)
    (state : ChemicalState) (sensitivity : EquilibriumSensitivity)
    (_conditions : EquilibriumConditions) (_restrictions : EquilibriumRestrictions) :
    SolveReturn × EquilibriumSensitivity :=
  ((Except.error msgSensitivity, self, state), sensitivity)

/-! ## Vocabulary of the statements -/

/-- The events of the search loop: an error test or a Taylor extrapolation. -/
def Event.isSearch : Event → Bool
  | Event.errorTest _ _ => true
  | Event.taylor _ _ => true
  | _ => false

/-- The tolerance test of one element `ispecies` of the index set for a record,
as the specification words it: `|predicted - reference| < reltol * |reference| + abstol`
with the predicted value taken at `(dw, dc) = (w - w0, c - c0)`. -/
def withinTolerance (options : SmartEquilibriumOptions) (w c : List ℚ) (record : Record)
    (ispecies : Nat) : Prop :=
  |record.predictor.speciesChemicalPotentialPredicted ispecies (vsub w record.state.w)
      (vsub c record.state.c) - record.predictor.speciesChemicalPotentialReference ispecies|
    < options.reltol * |record.predictor.speciesChemicalPotentialReference ispecies| + options.abstol

/-- The locals of `predict` that the search loop reads. -/
structure Query where
  options : SmartEquilibriumOptions
  iprimary : List Nat
  w : List ℚ
  c : List ℚ
  conditions : EquilibriumConditions

/-- The locals of `predict` for a call `predict(state, conditions)` (lines 233-242). -/
def Impl.query (impl : Impl) (state : ChemicalState) (conditions : EquilibriumConditions) : Query :=
  { options := impl.options
    iprimary := state.iprimary
    w := conditions.w
    c := conditions.initialComponentAmountsGetOrCompute state
    conditions := conditions }

/-- The index of the starting cluster of a call `predict(state, conditions)` (line 292). -/
def Impl.startCluster (impl : Impl) (state : ChemicalState) : Nat :=
  index_starting_cluster impl.database state.iprimary (detail.hash state.iprimary)

/-- One stop of the search: record `irecord` of cluster `jcluster`. -/
structure Visit where
  jcluster : Nat
  irecord : Nat
  record : Record

/-- The pair `(jcluster, irecord)` of a stop. -/
def Visit.pair (v : Visit) : Nat × Nat := (v.jcluster, v.irecord)

/-- The stops inside one cluster: its records in the order `ordering`. -/
def recordVisits (jcluster : Nat) (records : List Record) : List Nat → List Visit
  | [] => []
  | irecord :: rest =>
    match records[irecord]? with
    | none => recordVisits jcluster records rest
    | some record => { jcluster := jcluster, irecord := irecord, record := record }
        :: recordVisits jcluster records rest

/-- The visitation order: the clusters in the order `ordering`, then the records of
each cluster by that cluster's priority order. -/
def clusterVisits (clusters : List Cluster) : List Nat → List Visit
  | [] => []
  | jcluster :: rest =>
    match clusters[jcluster]? with
    | none => clusterVisits clusters rest
    | some cluster =>
      recordVisits jcluster cluster.records cluster.priority.order ++ clusterVisits clusters rest

/-- The visitation order of a call `predict(state, conditions)`: clusters by
`connectivity.order(startCluster)`, then records by the cluster's priority order. -/
def Impl.visits (impl : Impl) (state : ChemicalState) : List Visit :=
  clusterVisits impl.database.clusters (impl.database.connectivity.order (impl.startCluster state))

/-- The error test of the record of a stop (line 320). -/
def Query.passes (q : Query) (v : Visit) : Bool :=
  pass_error_test q.options q.iprimary q.iprimary.length q.w q.c v.record

/-- The state that the Taylor step of a stop writes when it finds `state` (line 335). -/
def Query.extrapolate (q : Query) (v : Visit) (state : ChemicalState) : ChemicalState :=
  v.record.predictor.predict state q.conditions

/-- A stop is accepted when the search reaches it with the state `state`: its
record passes the error test and its extrapolated state passes the feasibility test. -/
def Query.accepts (q : Query) (v : Visit) (state : ChemicalState) : Bool :=
  q.passes v && feasible q.options (q.extrapolate v state).n

/-- The state after a stop that was not accepted: the extrapolated state if the
record passed the error test, the state as found otherwise. -/
def Query.step (q : Query) (state : ChemicalState) (v : Visit) : ChemicalState :=
  if q.passes v then q.extrapolate v state else state

/-- The state the search holds after the stops `vs` when none of them was accepted. -/
def Query.arrive (q : Query) (vs : List Visit) (state : ChemicalState) : ChemicalState :=
  vs.foldl q.step state

/-- None of the stops `vs` is accepted by a search that starts them with `state`. -/
def Query.noneAccepted (q : Query) : List Visit → ChemicalState → Bool
  | [], _ => true
  | v :: vs, state => !q.accepts v state && Query.noneAccepted q vs (q.step state v)

/-- The pairs whose error test a log records, in order. -/
def errorTests : List Event → List (Nat × Nat)
  | [] => []
  | Event.errorTest j r :: rest => (j, r) :: errorTests rest
  | _ :: rest => errorTests rest

/-- The search loop over a flat list of stops. -/
def flatSearch (q : Query) : List Visit → ChemicalState → SearchOutcome
  | [], state => { found := none, state := state, log := [] }
  | v :: rest, state =>
    if q.passes v then
      if minCoeff (q.extrapolate v state).n ≤ q.options.reltol_negative_amounts * sumCoeff (q.extrapolate v state).n then
        { found := (flatSearch q rest (q.extrapolate v state)).found
          state := (flatSearch q rest (q.extrapolate v state)).state
          log := Event.errorTest v.jcluster v.irecord :: Event.taylor v.jcluster v.irecord
            :: (flatSearch q rest (q.extrapolate v state)).log }
      else
        { found := some (v.jcluster, v.irecord)
          state := clampNegative q.options.learning.epsilon (q.extrapolate v state)
          log := [Event.errorTest v.jcluster v.irecord, Event.taylor v.jcluster v.irecord] }
    else
      { found := (flatSearch q rest state).found
        state := (flatSearch q rest state).state
        log := Event.errorTest v.jcluster v.irecord :: (flatSearch q rest state).log }

/-! ## Concrete instances -/

/-- A state with two species, the second one primary. -/
def demoState : ChemicalState :=
  { temperature := 300, pressure := 1, n := [1, 2], iprimary := [1], w := [300, 1], c := [3], u := [0, 0] }

/-- Conditions whose two inputs are set. -/
def demoConditions : EquilibriumConditions :=
  { inputValues := [some 300, some 1], initialComponentAmounts := some [3], componentAmounts := fun _ => [3] }

/-- Conditions whose second input was never set. -/
def demoConditionsUnset : EquilibriumConditions :=
  { inputValues := [some 300, none], initialComponentAmounts := some [3], componentAmounts := fun _ => [3] }

/-- An exact solver that returns the state it is given. -/
def demoSolver : EquilibriumSolver :=
  { solve := fun state sensitivity _ =>
      { state := state, sensitivity := sensitivity, result := Except.ok { succeeded := true, iterations := 1 } } }

/-- Options with tolerances `reltol = 0`, `abstol = 1`, a negativity tolerance
of `-1/10` and the floor value `1/100`. -/
def demoOptions : SmartEquilibriumOptions :=
  { learning := { epsilon := 1 / 100 }, reltol := 0, abstol := 1, reltol_negative_amounts := -1 / 10 }

/-- A solver object that has not learned anything yet. -/
def demoImpl : Impl :=
  { solver := demoSolver
    sensitivity := { dndw := [], dndc := [], dudw := [], dudc := [] }
    conditions := demoConditions
    options := demoOptions
    result := SmartEquilibriumResult.empty
    database := Database.empty
    log := [] }

/-- A predictor whose predicted value is far from its reference value. -/
def demoPredictorFar : EquilibriumPredictor :=
  { speciesChemicalPotentialReference := fun _ => 0
    speciesChemicalPotentialPredicted := fun _ _ _ => 5
    predict := fun state _ => state }

/-- A predictor within tolerance whose extrapolation has a large negative amount. -/
def demoPredictorNegative : EquilibriumPredictor :=
  { speciesChemicalPotentialReference := fun _ => 0
    speciesChemicalPotentialPredicted := fun _ _ _ => 0
    predict := fun state _ => { state with n := [-1, 2] } }

/-- A predictor within tolerance whose extrapolation has a tiny negative amount. -/
def demoPredictorNear : EquilibriumPredictor :=
  { speciesChemicalPotentialReference := fun _ => 0
    speciesChemicalPotentialPredicted := fun _ _ _ => 0
    predict := fun state _ => { state with n := [-1 / 100, 101 / 100] } }

/-- A record around `demoState` with the given predictor. -/
def demoRecord (predictor : EquilibriumPredictor) : Record :=
  { state := demoState
    conditions := demoConditions
    sensitivity := { dndw := [], dndc := [], dudw := [], dudc := [] }
    predictor := predictor }

/-- A database with two clusters: the first, labelled by the index set `[1]`, holds
a far record and a negative one; the second, labelled by `[0]`, holds a near record. -/
def demoDatabase : Database :=
  { clusters :=
      [ { iprimary := [1], label := detail.hash [1]
          records := [demoRecord demoPredictorFar, demoRecord demoPredictorNegative]
          priority := { priorities := [0, 0] } },
        { iprimary := [0], label := detail.hash [0]
          records := [demoRecord demoPredictorNear]
          priority := { priorities := [0] } } ]
    connectivity := { rows := [[0, 0], [0, 0]], sentinel := [0, 0] }
    priority := { priorities := [0, 0] } }

/-- A solver object that has learned `demoDatabase`. -/
def demoLearned : Impl := { demoImpl with database := demoDatabase }

/-- A predictor within tolerance whose extrapolation has one component at `-1e-12`
and components that sum to `1`. -/
def tinyNegativePredictor : EquilibriumPredictor :=
  { speciesChemicalPotentialReference := fun _ => 0
    speciesChemicalPotentialPredicted := fun _ _ _ => 0
    predict := fun state _ => { state with n := [-1 / 10 ^ 12, 1 + 1 / 10 ^ 12] } }

/-- A database with one cluster, labelled by the index set `[1]`, that holds the
one record `record`. -/
def singleRecordDatabase (record : Record) : Database :=
  { clusters := [ { iprimary := [1], label := detail.hash [1]
                    records := [record]
                    priority := { priorities := [0] } } ]
    connectivity := { rows := [[0]], sentinel := [0] }
    priority := { priorities := [0] } }

/-- A solver object whose database holds one cluster with the one record of
`tinyNegativePredictor`, with the negativity tolerance `tol` and the floor value `1e-16`. -/
def tinyNegativeImpl (tol : ℚ) : Impl :=
  { demoImpl with
    options := { learning := { epsilon := 1 / 10 ^ 16 }, reltol := 0, abstol := 1,
                 reltol_negative_amounts := tol }
    database := singleRecordDatabase (demoRecord tinyNegativePredictor) }

/-- The one stop of the search of `tinyNegativeImpl tol` for `demoState`. -/
def tinyNegativeVisit : Visit :=
  { jcluster := 0, irecord := 0, record := demoRecord tinyNegativePredictor }

/-- The three stops of the search of `demoLearned` for `demoState`. -/
def demoVisitFar : Visit := { jcluster := 0, irecord := 0, record := demoRecord demoPredictorFar }

/-- The second stop. -/
def demoVisitNegative : Visit :=
  { jcluster := 0, irecord := 1, record := demoRecord demoPredictorNegative }

/-- The third stop. -/
def demoVisitNear : Visit := { jcluster := 1, irecord := 0, record := demoRecord demoPredictorNear }

/-! ## Vocabulary of the statements on `learn` and on the database -/

/-- The number of records over all clusters of a database. -/
def Database.totalRecords (database : Database) : Nat :=
  (database.clusters.map (fun cluster => cluster.records.length)).sum

/-- The record that `learn` stores for the state and sensitivity written by the exact
solver (lines 181, 201 and 210). -/
def learnedRecord (state : ChemicalState) (conditions : EquilibriumConditions)
    (sensitivity : EquilibriumSensitivity) : Record :=
  { state := state, conditions := conditions, sensitivity := sensitivity
    predictor := EquilibriumPredictor.create state sensitivity }

/-- The solver objects reachable from one with the empty database by calls of
`learn`, `predict` and `solve`, whatever their arguments. -/
inductive Reachable : Impl → Prop where
  | empty (impl : Impl) (h : impl.database = Database.empty) : Reachable impl
  | learn (impl : Impl) (state : ChemicalState) (conditions : EquilibriumConditions) :
      Reachable impl → Reachable (impl.learn state conditions).2.1
  | predict (impl : Impl) (state : ChemicalState) (conditions : EquilibriumConditions) :
      Reachable impl → Reachable (impl.predict state conditions).1
  | solve (impl : Impl) (state : ChemicalState) (conditions : EquilibriumConditions) :
      Reachable impl → Reachable (impl.solve state conditions).2.1

/-- A database with one cluster that holds one record; `k`, `a`, `b` and `m` are
the usage counts held by the ranking structures. -/
def Database.single (iprimary : List Nat) (label : Nat) (record : Record) (k a b m : Nat) :
    Database :=
  { clusters := [ { iprimary := iprimary, label := label, records := [record]
                    priority := { priorities := [k] } } ]
    connectivity := { rows := [[a]], sentinel := [b] }
    priority := { priorities := [m] } }

/-! ## Further concrete instances -/

/-- A reference state with two species, the second one primary, and non-zero
chemical potentials. -/
def refState : ChemicalState :=
  { temperature := 300, pressure := 1, n := [1, 2], iprimary := [1], w := [300, 1], c := [3],
    u := [-5, -7] }

/-- A sensitivity whose matrices fit `refState`: two unknowns, two inputs, one component. -/
def refSensitivity : EquilibriumSensitivity :=
  { dndw := [[1, 0], [0, 1]], dndc := [[1], [2]], dudw := [[0, 1], [1, 0]], dudc := [[3], [4]] }

/-- The record that `learn` stores for `refState`. -/
def refRecord : Record := learnedRecord refState demoConditions refSensitivity

/-- Options with the tolerances `reltol` and `abstol`, the negativity tolerance
`-1/10` and the floor value `1/100`. -/
def optionsWithTolerances (reltol abstol : ℚ) : SmartEquilibriumOptions :=
  { learning := { epsilon := 1 / 100 }, reltol := reltol, abstol := abstol,
    reltol_negative_amounts := -1 / 10 }

/-- A solver object whose database holds the one record `refRecord`. -/
def refImpl (reltol abstol : ℚ) : Impl :=
  { demoImpl with
    options := optionsWithTolerances reltol abstol
    database := Database.single [1] (detail.hash [1]) refRecord 0 0 0 0 }

/-- The one stop of the search of `refImpl`. -/
def refVisit : Visit := { jcluster := 0, irecord := 0, record := refRecord }

/-- An exact solver that throws. -/
def failingSolver : EquilibriumSolver :=
  { solve := fun state sensitivity _ =>
      { state := state, sensitivity := sensitivity, result := Except.error "no convergence" } }

/-- The solver object `demoLearned` with the exact solver that throws. -/
def failingImpl : Impl := { demoLearned with solver := failingSolver }

/-- The solver object `demoLearned` after other calls: another result and log. -/
def demoLearnedLater : Impl :=
  { demoLearned with
    result := { prediction := { accepted := true }, learning := { solve := { succeeded := true, iterations := 7 } } }
    log := [Event.predict, Event.learn, Event.exactSolve] }

/-! ## Vocabulary of the statements on the sizes of the ranking structures -/

/-- The connectivity graph is square of size `n`: `n` rows of `n` edge weights, and
`n` edge weights that leave the sentinel origin. -/
def ClusterConnectivity.hasSize (g : ClusterConnectivity) (n : Nat) : Prop :=
  g.rows.length = n ∧ g.sentinel.length = n ∧ ∀ row ∈ g.rows, row.length = n

/-- The ranking structures of the database have the size of its list of clusters:
the priority ranking holds one count per cluster, and the connectivity graph is
square of that size. -/
def Database.sizesAgree (db : Database) : Prop :=
  db.priority.priorities.length = db.clusters.length ∧
    db.connectivity.hasSize db.clusters.length

/-- The priority ranking of every cluster holds one count per record of the cluster. -/
def Database.recordSizesAgree (db : Database) : Prop :=
  ∀ cluster ∈ db.clusters, cluster.priority.priorities.length = cluster.records.length

/-- The database `demoDatabase` after three accepted predictions from its second
cluster: the priority order lists the second cluster first. -/
def demoReranked : Database := { demoDatabase with priority := { priorities := [0, 3] } }

/-- The state `demoState` with the empty index set. -/
def emptyKeyState : ChemicalState := { demoState with iprimary := [] }

/-- The state `demoState` with the index sequence `[0, 1]`. -/
def pairState : ChemicalState := { demoState with iprimary := [0, 1] }

/-- The state `demoState` with the same two indices in the other order. -/
def pairStateSwapped : ChemicalState := { demoState with iprimary := [1, 0] }

/-- An exact solver that returns, without throwing, a result that reports failure. -/
def unconvergedSolver : EquilibriumSolver :=
  { solve := fun state sensitivity _ =>
      { state := state, sensitivity := sensitivity
        result := Except.ok { succeeded := false, iterations := 100 } } }

/-- A solver object with the empty database and the exact solver `unconvergedSolver`. -/
def unconvergedImpl : Impl := { demoImpl with solver := unconvergedSolver }

/-- A bound on the seed of `detail::hash` after `k` rounds on indices below `2 ^ 31`,
for a sequence of at most six indices: `6` at the start, and a round takes a seed
`s` to at most `s + (i + 0x9e3779b9 + 64 * s + s / 4)`. -/
def seedBound : Nat → Nat
  | 0 => 6
  | k + 1 => 65 * seedBound k + seedBound k / 4 + 2 ^ 31 + 2654435769

/-! ## `predict` over the arithmetic of `double`

The definitions above read a `double` as a rational number.  Those of this
section read `predict` again over a type `F` of values with the operations that
`predict` applies to them, and assume nothing of these operations: what is proved
of `Fp.Impl.predict` for every `Fp.Arithmetic` holds of binary64 with its
rounding, its infinities and its NaN. -/

namespace Fp

/-- The operations that `predict` applies to values of type `double`: the constant
`0`, `-`, `+`, `*`, `abs`, the comparisons `>=`, `<=` and `<`, and Eigen's
`minCoeff()` and `sum()`. -/
structure Arithmetic (F : Type) where
  zero : F
  sub : F → F → F
  add : F → F → F
  mul : F → F → F
  abs : F → F
  ge : F → F → Bool
  le : F → F → Bool
  lt : F → F → Bool
  minCoeff : List F → F
  sum : List F → F

/-- The part of a `ChemicalState` that `predict` reads and writes: the species
amounts `n`, the indices of the primary species, and the vectors `w` and `c` of
`state.equilibrium()`. -/
structure ChemicalState (F : Type) where
  n : List F
  iprimary : List Nat
  w : List F
  c : List F

/-- The call `state.setSpeciesAmount(i, value, "mol")`. -/
def ChemicalState.setSpeciesAmount {F : Type} (state : ChemicalState F) (i : Nat) (value : F) :
    ChemicalState F :=
  { state with n := state.n.set i value }

/-- The part of an `EquilibriumConditions` that `predict` reads: `inputValues()` and
`initialComponentAmountsGetOrCompute(state)`. -/
structure EquilibriumConditions (F : Type) where
  inputValues : List F
  initialComponentAmountsGetOrCompute : ChemicalState F → List F

/-- The three members of an `EquilibriumPredictor` that `predict` calls. -/
structure EquilibriumPredictor (F : Type) where
  speciesChemicalPotentialReference : Nat → F
  speciesChemicalPotentialPredicted : Nat → List F → List F → F
  predict : ChemicalState F → EquilibriumConditions F → ChemicalState F

/-- The struct `SmartEquilibriumSolver::Record`; the matrices of its sensitivity
are kept as one list, `predict` does not read them. -/
structure Record (F : Type) where
  state : ChemicalState F
  conditions : EquilibriumConditions F
  sensitivity : List (List (List F))
  predictor : EquilibriumPredictor F

/-- The struct `SmartEquilibriumSolver::Cluster`. -/
structure Cluster (F : Type) where
  iprimary : List Nat
  label : Nat
  records : List (Record F)
  priority : PriorityQueue

/-- The struct `SmartEquilibriumSolver::Database`. -/
structure Database (F : Type) where
  clusters : List (Cluster F)
  connectivity : ClusterConnectivity
  priority : PriorityQueue

/-- The options that `predict` reads; `epsilon` is `options.learning.epsilon`. -/
structure SmartEquilibriumOptions (F : Type) where
  epsilon : F
  reltol : F
  abstol : F
  reltol_negative_amounts : F

/-- The members of `Impl` that `predict` reads and writes. -/
structure Impl (F : Type) where
  options : SmartEquilibriumOptions F
  result : SmartEquilibriumResult
  database : Database F

/-- The coefficient-wise difference `a - b` of two vectors. -/
def vsub {F : Type} (A : Arithmetic F) (a b : List F) : List F := List.zipWith A.sub a b

/-- The body of the `for` loop of `pass_error_test` (lines 256-267) with
`numprimary - i = k` for the first iteration still to run; the test of line 265 is
`abs(mu1 - mu0) >= options.reltol*abs(mu0) + options.abstol`. -/
def errorLoop {F : Type} (A : Arithmetic F) (options : SmartEquilibriumOptions F)
    (predictor : EquilibriumPredictor F) (iprimary : List Nat) (dw dc : List F) : Nat → Bool
  | 0 => true
  | k + 1 =>
    let ispecies := iprimary.getD k 0
    let mu0 := predictor.speciesChemicalPotentialReference ispecies
    let mu1 := predictor.speciesChemicalPotentialPredicted ispecies dw dc
    if A.ge (A.abs (A.sub mu1 mu0)) (A.add (A.mul options.reltol (A.abs mu0)) options.abstol)
    then false
    else errorLoop A options predictor iprimary dw dc k

/-- The lambda `pass_error_test` (lines 245-270). -/
def pass_error_test {F : Type} (A : Arithmetic F) (options : SmartEquilibriumOptions F)
    (iprimary : List Nat) (numprimary : Nat) (w c : List F) (record : Record F) : Bool :=
  let w0 := record.state.w
  let c0 := record.state.c
  let dw := vsub A w w0
  let dc := vsub A c c0
  errorLoop A options record.predictor iprimary dw dc numprimary

/-- The loop of `index_starting_cluster` over `database.priority.order()` (lines 283-285). -/
def scanStartingCluster {F : Type} (clusters : List (Cluster F)) (label : Nat) :
    List Nat → Option Nat
  | [] => none
  | icluster :: rest =>
    match clusters[icluster]? with
    | some cluster =>
      if cluster.label = label then some icluster else scanStartingCluster clusters label rest
    | none => scanStartingCluster clusters label rest

/-- The lambda `index_starting_cluster` (lines 276-289). -/
def index_starting_cluster {F : Type} (database : Database F) (iprimary : List Nat)
    (label : Nat) : Nat :=
  if iprimary.length = 0 then database.clusters.length
  else
    match scanStartingCluster database.clusters label database.priority.order with
    | some icluster => icluster
    | none => database.clusters.length

/-- The loop of lines 355-357: every amount with `n[i] < 0` is set to
`options.learning.epsilon`. -/
def clampNegative {F : Type} (A : Arithmetic F) (epsilon : F) (state : ChemicalState F) :
    ChemicalState F :=
  (List.range state.n.length).foldl
    (fun s i =>
      match s.n[i]? with
      | some x => if A.lt x A.zero then s.setSpeciesAmount i epsilon else s
      | none => s)
    state

/-- What the search loops hand back: the accepted pair `(jcluster, irecord)` if
any, and the state as left by the loops. -/
structure SearchOutcome (F : Type) where
  found : Option (Nat × Nat)
  state : ChemicalState F

/-- The inner loop of `predict` (lines 310-380) over the records of cluster `jcluster`
in the order `records_ordering`.  An index outside `records` is skipped. -/
def recordsLoop {F : Type} (A : Arithmetic F) (options : SmartEquilibriumOptions F)
    (iprimary : List Nat) (numprimary : Nat) (w c : List F) (conditions : EquilibriumConditions F)
    (jcluster : Nat) (records : List (Record F)) :
    List Nat → ChemicalState F → SearchOutcome F
  | [], state => { found := none, state := state }
  | irecord :: rest, state =>
    match records[irecord]? with
    | none => recordsLoop A options iprimary numprimary w c conditions jcluster records rest state
    | some record =>
      let success := pass_error_test A options iprimary numprimary w c record
      if success then
        let state1 := record.predictor.predict state conditions
        let n := state1.n
        let nmin := A.minCoeff n
        let nsum := A.sum n
        if A.le nmin (A.mul options.reltol_negative_amounts nsum) then
          recordsLoop A options iprimary numprimary w c conditions jcluster records rest state1
        else
          { found := some (jcluster, irecord)
            state := clampNegative A options.epsilon state1 }
      else
        recordsLoop A options iprimary numprimary w c conditions jcluster records rest state

/-- The outer loop of `predict` (lines 303-381) over `clusters_ordering`.  An
index outside `database.clusters` is skipped. -/
def clustersLoop {F : Type} (A : Arithmetic F) (options : SmartEquilibriumOptions F)
    (iprimary : List Nat) (numprimary : Nat) (w c : List F) (conditions : EquilibriumConditions F)
    (clusters : List (Cluster F)) :
    List Nat → ChemicalState F → SearchOutcome F
  | [], state => { found := none, state := state }
  | jcluster :: rest, state =>
    match clusters[jcluster]? with
    | none => clustersLoop A options iprimary numprimary w c conditions clusters rest state
    | some cluster =>
      let records := cluster.records
      let records_ordering := cluster.priority.order
      let r := recordsLoop A options iprimary numprimary w c conditions jcluster records
        records_ordering state
      match r.found with
      | some _ => r
      | none => clustersLoop A options iprimary numprimary w c conditions clusters rest r.state

/-- The database priority update of lines 365-371 for the accepted pair. -/
def Database.priorityUpdate {F : Type} (database : Database F) (icluster jcluster irecord : Nat) :
    Database F :=
  { clusters := database.clusters.modify
      (fun cluster => { cluster with priority := cluster.priority.increment irecord }) jcluster
    connectivity := database.connectivity.increment icluster jcluster
    priority := database.priority.increment jcluster }

/-- The method `Impl::predict` (lines 223-384). -/
def Impl.predict {F : Type} (A : Arithmetic F) (impl : Impl F) (state : ChemicalState F)
    (conditions : EquilibriumConditions F) : Impl F × ChemicalState F :=
  let impl := { impl with result := { impl.result with prediction := { accepted := false } } }
  if impl.database.clusters.isEmpty then (impl, state)
  else
    let iprimary := state.iprimary
    let numprimary := iprimary.length
    let w := conditions.inputValues
    let c := conditions.initialComponentAmountsGetOrCompute state
    let label := detail.hash iprimary
    let icluster := index_starting_cluster impl.database iprimary label
    let clusters_ordering := impl.database.connectivity.order icluster
    let r := clustersLoop A impl.options iprimary numprimary w c conditions impl.database.clusters
      clusters_ordering state
    match r.found with
    | some (jcluster, irecord) =>
      ({ impl with
          database := impl.database.priorityUpdate icluster jcluster irecord
          result := { impl.result with prediction := { accepted := true } } }, r.state)
    | none =>
      ({ impl with result := { impl.result with prediction := { accepted := false } } }, r.state)

/-- One stop of the search: record `irecord` of cluster `jcluster`. -/
structure Visit (F : Type) where
  jcluster : Nat
  irecord : Nat
  record : Record F

/-- The stops inside one cluster: its records in the order `ordering`. -/
def recordVisits {F : Type} (jcluster : Nat) (records : List (Record F)) :
    List Nat → List (Visit F)
  | [] => []
  | irecord :: rest =>
    match records[irecord]? with
    | none => recordVisits jcluster records rest
    | some record => { jcluster := jcluster, irecord := irecord, record := record }
        :: recordVisits jcluster records rest

/-- The visitation order: the clusters in the order `ordering`, then the records of
each cluster by that cluster's priority order. -/
def clusterVisits {F : Type} (clusters : List (Cluster F)) : List Nat → List (Visit F)
  | [] => []
  | jcluster :: rest =>
    match clusters[jcluster]? with
    | none => clusterVisits clusters rest
    | some cluster =>
      recordVisits jcluster cluster.records cluster.priority.order ++ clusterVisits clusters rest

/-- The index of the starting cluster of a call `predict(state, conditions)` (line 292). -/
def Impl.startCluster {F : Type} (impl : Impl F) (state : ChemicalState F) : Nat :=
  index_starting_cluster impl.database state.iprimary (detail.hash state.iprimary)

/-- The visitation order of a call `predict(state, conditions)`. -/
def Impl.visits {F : Type} (impl : Impl F) (state : ChemicalState F) : List (Visit F) :=
  clusterVisits impl.database.clusters (impl.database.connectivity.order (impl.startCluster state))

/-- The locals of `predict` that the search loop reads. -/
structure Query (F : Type) where
  options : SmartEquilibriumOptions F
  iprimary : List Nat
  w : List F
  c : List F
  conditions : EquilibriumConditions F

/-- The locals of `predict` for a call `predict(state, conditions)` (lines 233-242). -/
def Impl.query {F : Type} (impl : Impl F) (state : ChemicalState F)
    (conditions : EquilibriumConditions F) : Query F :=
  { options := impl.options
    iprimary := state.iprimary
    w := conditions.inputValues
    c := conditions.initialComponentAmountsGetOrCompute state
    conditions := conditions }

/-- The error test of the record of a stop (line 320). -/
def Query.passes {F : Type} (A : Arithmetic F) (q : Query F) (v : Visit F) : Bool :=
  pass_error_test A q.options q.iprimary q.iprimary.length q.w q.c v.record

/-- The state that the Taylor step of a stop writes when it finds `state` (line 335). -/
def Query.extrapolate {F : Type} (q : Query F) (v : Visit F) (state : ChemicalState F) :
    ChemicalState F :=
  v.record.predictor.predict state q.conditions

/-- The test of line 345 on the amounts `n`: `nmin <= options.reltol_negative_amounts * nsum`,
the case in which the search continues. -/
def Query.continues {F : Type} (A : Arithmetic F) (q : Query F) (n : List F) : Bool :=
  A.le (A.minCoeff n) (A.mul q.options.reltol_negative_amounts (A.sum n))

/-- The state after a stop that was not accepted: the extrapolated state if the
record passed the error test, the state as found otherwise. -/
def Query.step {F : Type} (A : Arithmetic F) (q : Query F) (state : ChemicalState F)
    (v : Visit F) : ChemicalState F :=
  if q.passes A v then q.extrapolate v state else state

/-- The state the search holds after the stops `vs` when none of them was accepted. -/
def Query.arrive {F : Type} (A : Arithmetic F) (q : Query F) (vs : List (Visit F))
    (state : ChemicalState F) : ChemicalState F :=
  vs.foldl (q.step A) state

/-- The search over a list of stops, the nested loops of `predict` made flat. -/
def flatSearch {F : Type} (A : Arithmetic F) (q : Query F) :
    List (Visit F) → ChemicalState F → SearchOutcome F
  | [], state => { found := none, state := state }
  | v :: rest, state =>
    if q.passes A v then
      if q.continues A (q.extrapolate v state).n then flatSearch A q rest (q.extrapolate v state)
      else
        { found := some (v.jcluster, v.irecord)
          state := clampNegative A q.options.epsilon (q.extrapolate v state) }
    else flatSearch A q rest state

end Fp

/-! ## Vocabulary and instances of the arithmetic of `double` -/

namespace Fp

/-- The comparison of line 265 for the element `ispecies` of the index set, with the
predicted value taken at `(dw, dc) = (w - w0, c - c0)`:
`abs(mu1 - mu0) >= options.reltol*abs(mu0) + options.abstol`. -/
def exceeds {F : Type} (A : Arithmetic F) (options : SmartEquilibriumOptions F) (w c : List F)
    (record : Record F) (ispecies : Nat) : Bool :=
  A.ge
    (A.abs (A.sub
      (record.predictor.speciesChemicalPotentialPredicted ispecies (vsub A w record.state.w)
        (vsub A c record.state.c))
      (record.predictor.speciesChemicalPotentialReference ispecies)))
    (A.add (A.mul options.reltol (A.abs (record.predictor.speciesChemicalPotentialReference ispecies)))
      options.abstol)

/-- The strict inequality of the specification for the element `ispecies`:
`abs(mu1 - mu0) < options.reltol*abs(mu0) + options.abstol`. -/
def within {F : Type} (A : Arithmetic F) (options : SmartEquilibriumOptions F) (w c : List F)
    (record : Record F) (ispecies : Nat) : Bool :=
  A.lt
    (A.abs (A.sub
      (record.predictor.speciesChemicalPotentialPredicted ispecies (vsub A w record.state.w)
        (vsub A c record.state.c))
      (record.predictor.speciesChemicalPotentialReference ispecies)))
    (A.add (A.mul options.reltol (A.abs (record.predictor.speciesChemicalPotentialReference ispecies)))
      options.abstol)

/-- The exact arithmetic of the rational numbers, the one of the other sections. -/
def rational : Arithmetic ℚ :=
  { zero := 0
    sub := fun a b => a - b
    add := fun a b => a + b
    mul := fun a b => a * b
    abs := fun a => |a|
    ge := fun a b => decide (a ≥ b)
    le := fun a b => decide (a ≤ b)
    lt := fun a b => decide (a < b)
    minCoeff := Reaktoro.minCoeff
    sum := sumCoeff }

/-- A binary operation on values that may be NaN (`none`): NaN if an operand is. -/
def nanLift (f : Int → Int → Int) (a b : Option Int) : Option Int :=
  match a, b with
  | some x, some y => some (f x y)
  | _, _ => none

/-- A comparison of values that may be NaN (`none`): false if an operand is NaN. -/
def nanCompare (r : Int → Int → Bool) (a b : Option Int) : Bool :=
  match a, b with
  | some x, some y => r x y
  | _, _ => false

/-- The values of `double` met in the examples: NaN (`none`) and the integers, on
which `-`, `+`, `*` and `abs` are exact up to `2 ^ 53`.  An operation on NaN gives
NaN and a comparison with NaN is false, as in binary64.  `minCoeff` runs the loop
`if (x < m) m = x`. -/
def withNaN : Arithmetic (Option Int) :=
  { zero := some 0
    sub := nanLift (fun x y => x - y)
    add := nanLift (fun x y => x + y)
    mul := nanLift (fun x y => x * y)
    abs := fun a => a.map (fun x => if x < 0 then -x else x)
    ge := nanCompare (fun x y => decide (y ≤ x))
    le := nanCompare (fun x y => decide (x ≤ y))
    lt := nanCompare (fun x y => decide (x < y))
    minCoeff := fun l =>
      match l with
      | [] => some 0
      | x :: xs => xs.foldl (fun m y => if nanCompare (fun p q => decide (p < q)) y m then y else m) x
    sum := fun l => l.foldl (nanLift (fun x y => x + y)) (some 0) }

/-- Options with `reltol = 0`, `abstol = 1`, the negativity tolerance `-1` and the
floor value `1`. -/
def nanOptions : SmartEquilibriumOptions (Option Int) :=
  { epsilon := some 1, reltol := some 0, abstol := some 1, reltol_negative_amounts := some (-1) }

/-- A state with two species, the first one primary. -/
def nanState : ChemicalState (Option Int) :=
  { n := [some 1, some 2], iprimary := [0], w := [some 300, some 1], c := [some 3] }

/-- Conditions with the inputs of `nanState`. -/
def nanConditions : EquilibriumConditions (Option Int) :=
  { inputValues := [some 300, some 1], initialComponentAmountsGetOrCompute := fun _ => [some 3] }

/-- A predictor whose predicted chemical potential is NaN. -/
def nanPotentialPredictor : EquilibriumPredictor (Option Int) :=
  { speciesChemicalPotentialReference := fun _ => some 0
    speciesChemicalPotentialPredicted := fun _ _ _ => none
    predict := fun state _ => state }

/-- A record around `nanState` whose predicted chemical potential is NaN. -/
def nanPotentialRecord : Record (Option Int) :=
  { state := nanState, conditions := nanConditions, sensitivity := []
    predictor := nanPotentialPredictor }

/-- A predictor within tolerance whose extrapolation has a NaN amount. -/
def nanAmountPredictor : EquilibriumPredictor (Option Int) :=
  { speciesChemicalPotentialReference := fun _ => some 0
    speciesChemicalPotentialPredicted := fun _ _ _ => some 0
    predict := fun state _ => { state with n := [none, some 1] } }

/-- A record around `nanState` whose extrapolation has a NaN amount. -/
def nanAmountRecord : Record (Option Int) :=
  { state := nanState, conditions := nanConditions, sensitivity := []
    predictor := nanAmountPredictor }

/-- A predictor within tolerance whose extrapolation has the amounts `1` and `2`. -/
def finitePredictor : EquilibriumPredictor (Option Int) :=
  { speciesChemicalPotentialReference := fun _ => some 0
    speciesChemicalPotentialPredicted := fun _ _ _ => some 0
    predict := fun state _ => { state with n := [some 1, some 2] } }

/-- A record around `nanState` whose extrapolation has the amounts `1` and `2`. -/
def finiteRecord : Record (Option Int) :=
  { state := nanState, conditions := nanConditions, sensitivity := []
    predictor := finitePredictor }

/-- A solver object whose database holds the one record `record`, in a cluster
for the index set `[0]`. -/
def singleImpl (record : Record (Option Int)) : Impl (Option Int) :=
  { options := nanOptions
    result := SmartEquilibriumResult.empty
    database :=
      { clusters := [ { iprimary := [0], label := detail.hash [0], records := [record]
                        priority := { priorities := [0] } } ]
        connectivity := { rows := [[0]], sentinel := [0] }
        priority := { priorities := [0] } } }

end Fp

/-! ## Lemmas on the search loop -/

theorem recordsLoop_eq_flatSearch (q : Query) (jcluster : Nat) (records : List Record)
    (ordering : List Nat) (state : ChemicalState) :
    recordsLoop q.options q.iprimary q.iprimary.length q.w q.c q.conditions jcluster records ordering state
      = flatSearch q (recordVisits jcluster records ordering) state := by
  induction ordering generalizing state with
  | nil => rfl
  | cons irecord rest ih =>
    unfold recordsLoop recordVisits
    cases hrec : records[irecord]? with
    | none => exact ih state
    | some record =>
      simp only [flatSearch, Query.passes, Query.extrapolate, ih]

theorem flatSearch_append (q : Query) (a b : List Visit) (state : ChemicalState) :
    flatSearch q (a ++ b) state =
      match (flatSearch q a state).found with
      | some _ => flatSearch q a state
      | none =>
        { found := (flatSearch q b (flatSearch q a state).state).found
          state := (flatSearch q b (flatSearch q a state).state).state
          log := (flatSearch q a state).log ++ (flatSearch q b (flatSearch q a state).state).log } := by
  induction a generalizing state with
  | nil => simp [flatSearch]
  | cons v rest ih =>
    rw [List.cons_append]
    simp only [flatSearch]
    split_ifs
    · rw [ih]
      cases h : (flatSearch q rest (q.extrapolate v state)).found <;> simp [h]
    · rfl
    · rw [ih]
      cases h : (flatSearch q rest state).found <;> simp [h]

theorem clustersLoop_eq_flatSearch (q : Query) (clusters : List Cluster)
    (ordering : List Nat) (state : ChemicalState) :
    clustersLoop q.options q.iprimary q.iprimary.length q.w q.c q.conditions clusters ordering state
      = flatSearch q (clusterVisits clusters ordering) state := by
  induction ordering generalizing state with
  | nil => rfl
  | cons jcluster rest ih =>
    unfold clustersLoop clusterVisits
    cases hcl : clusters[jcluster]? with
    | none => exact ih state
    | some cluster =>
      simp only [recordsLoop_eq_flatSearch, flatSearch_append, ih]

theorem arrive_cons (q : Query) (v : Visit) (vs : List Visit) (state : ChemicalState) :
    q.arrive (v :: vs) state = q.arrive vs (q.step state v) := rfl

theorem arrive_append (q : Query) (a b : List Visit) (state : ChemicalState) :
    q.arrive (a ++ b) state = q.arrive b (q.arrive a state) := by
  simp [Query.arrive, List.foldl_append]

theorem noneAccepted_append (q : Query) (a b : List Visit) (state : ChemicalState) :
    q.noneAccepted (a ++ b) state = (q.noneAccepted a state && q.noneAccepted b (q.arrive a state)) := by
  induction a generalizing state with
  | nil => simp [Query.noneAccepted, Query.arrive]
  | cons v rest ih =>
    rw [List.cons_append]
    simp only [Query.noneAccepted, ih, arrive_cons, Bool.and_assoc]

theorem flatSearch_none (q : Query) (vs : List Visit) (state : ChemicalState)
    (h : (flatSearch q vs state).found = none) :
    q.noneAccepted vs state = true ∧ (flatSearch q vs state).state = q.arrive vs state ∧
      errorTests (flatSearch q vs state).log = vs.map Visit.pair := by
  induction vs generalizing state with
  | nil => simp [flatSearch, Query.noneAccepted, Query.arrive, errorTests]
  | cons v rest ih =>
    simp only [flatSearch] at h ⊢
    split_ifs at h ⊢ with hp hf
    · obtain ⟨h1, h2, h3⟩ := ih _ h
      refine ⟨?_, ?_, ?_⟩
      · simp [Query.noneAccepted, Query.accepts, Query.step, feasible, hp, hf, h1]
      · simp [arrive_cons, Query.step, hp, h2]
      · simp [errorTests, h3, Visit.pair]
    · obtain ⟨h1, h2, h3⟩ := ih _ h
      refine ⟨?_, ?_, ?_⟩
      · simp [Query.noneAccepted, Query.accepts, Query.step, hp, h1]
      · simp [arrive_cons, Query.step, hp, h2]
      · simp [errorTests, h3, Visit.pair]

theorem flatSearch_some (q : Query) (vs : List Visit) (state : ChemicalState) (p : Nat × Nat)
    (h : (flatSearch q vs state).found = some p) :
    ∃ pre v post, vs = pre ++ v :: post ∧ q.noneAccepted pre state = true ∧
      q.accepts v (q.arrive pre state) = true ∧ p = v.pair ∧
      (flatSearch q vs state).state
        = clampNegative q.options.learning.epsilon (q.extrapolate v (q.arrive pre state)) ∧
      errorTests (flatSearch q vs state).log = (pre ++ [v]).map Visit.pair := by
  induction vs generalizing state with
  | nil => simp [flatSearch] at h
  | cons v rest ih =>
    simp only [flatSearch] at h ⊢
    split_ifs at h ⊢ with hp hf
    · obtain ⟨pre, u, post, h1, h2, h3, h4, h5, h6⟩ := ih _ h
      refine ⟨v :: pre, u, post, by simp [h1], ?_, ?_, h4, ?_, ?_⟩
      · simp [Query.noneAccepted, Query.accepts, Query.step, feasible, hp, hf, h2]
      · simpa [arrive_cons, Query.step, hp] using h3
      · simpa [arrive_cons, Query.step, hp] using h5
      · simp [errorTests, h6, Visit.pair]
    · refine ⟨[], v, rest, rfl, rfl, ?_, ?_, ?_, ?_⟩
      · simp [Query.accepts, Query.arrive, feasible, hp, hf]
      · simpa [Visit.pair] using h.symm
      · simp [Query.arrive]
      · simp [errorTests, Visit.pair]
    · obtain ⟨pre, u, post, h1, h2, h3, h4, h5, h6⟩ := ih _ h
      refine ⟨v :: pre, u, post, by simp [h1], ?_, ?_, h4, ?_, ?_⟩
      · simp [Query.noneAccepted, Query.accepts, Query.step, hp, h2]
      · simpa [arrive_cons, Query.step, hp] using h3
      · simpa [arrive_cons, Query.step, hp] using h5
      · simp [errorTests, h6, Visit.pair]

theorem flatSearch_found_eq_none_iff (q : Query) (vs : List Visit) (state : ChemicalState) :
    (flatSearch q vs state).found = none ↔ q.noneAccepted vs state = true := by
  constructor
  · intro h
    exact (flatSearch_none q vs state h).1
  · intro h
    cases hf : (flatSearch q vs state).found with
    | none => rfl
    | some p =>
      obtain ⟨pre, v, post, h1, _, h3, _⟩ := flatSearch_some q vs state p hf
      rw [h1, noneAccepted_append] at h
      simp [Query.noneAccepted, h3] at h

theorem noneAccepted_iff (q : Query) (vs : List Visit) (state : ChemicalState) :
    q.noneAccepted vs state = true ↔
      ∀ pre v post, vs = pre ++ v :: post → q.accepts v (q.arrive pre state) = false := by
  constructor
  · intro h pre v post hvs
    rw [hvs, noneAccepted_append] at h
    simp only [Query.noneAccepted, Bool.and_eq_true, Bool.not_eq_true'] at h
    exact h.2.1
  · intro h
    induction vs generalizing state with
    | nil => rfl
    | cons v rest ih =>
      simp only [Query.noneAccepted, Bool.and_eq_true, Bool.not_eq_true']
      refine ⟨h [] v rest rfl, ih _ ?_⟩
      intro pre u post hrest
      exact h (v :: pre) u post (by simp [hrest])

theorem flatSearch_first (q : Query) (pre : List Visit) (v : Visit) (post : List Visit)
    (state : ChemicalState) (hpre : q.noneAccepted pre state = true)
    (hv : q.accepts v (q.arrive pre state) = true) :
    (flatSearch q (pre ++ v :: post) state).found = some v.pair ∧
      (flatSearch q (pre ++ v :: post) state).state
        = clampNegative q.options.learning.epsilon (q.extrapolate v (q.arrive pre state)) := by
  rw [flatSearch_append]
  have hnone := (flatSearch_found_eq_none_iff q pre state).2 hpre
  have hst := (flatSearch_none q pre state hnone).2.1
  simp only [hnone, hst]
  simp only [Query.accepts, Bool.and_eq_true, feasible, Bool.not_eq_true', decide_eq_false_iff_not] at hv
  simp [flatSearch, hv.1, hv.2, Visit.pair]

/-- The reading of `predict` on a database with at least one cluster: the search
loop is the flat search over the visitation order. -/
theorem predict_eq_flatSearch (impl : Impl) (state : ChemicalState) (conditions : EquilibriumConditions)
    (hne : impl.database.clusters ≠ []) :
    impl.predict state conditions =
      match (flatSearch (impl.query state conditions) (impl.visits state) state).found with
      | some (jcluster, irecord) =>
        ({ impl with
            database := impl.database.priorityUpdate (impl.startCluster state) jcluster irecord
            result := { impl.result with prediction := { accepted := true } }
            log := impl.log ++ Event.predict ::
              (flatSearch (impl.query state conditions) (impl.visits state) state).log },
          (flatSearch (impl.query state conditions) (impl.visits state) state).state)
      | none =>
        ({ impl with
            result := { impl.result with prediction := { accepted := false } }
            log := impl.log ++ Event.predict ::
              (flatSearch (impl.query state conditions) (impl.visits state) state).log },
          (flatSearch (impl.query state conditions) (impl.visits state) state).state) := by
  have hloop := clustersLoop_eq_flatSearch (impl.query state conditions) impl.database.clusters
    (impl.database.connectivity.order (impl.startCluster state)) state
  unfold Impl.predict
  simp only [List.isEmpty_iff, hne, if_false, Impl.visits, Impl.query, Impl.startCluster] at hloop ⊢
  simp only [hloop]
  cases (flatSearch _ _ state).found <;> simp

/-! ## Lemmas on the clamping loop -/

theorem clampLoop_spec (epsilon : ℚ) (state : ChemicalState) (m : Nat) (hm : m ≤ state.n.length) :
    ∃ l : List ℚ,
      (List.range m).foldl
        (fun s i => if s.n.getD i 0 < 0 then s.setSpeciesAmount i epsilon else s) state
        = { state with n := l } ∧
      l.length = state.n.length ∧
      ∀ i, l[i]? = if i < m then (state.n[i]?).map (fun x => if x < 0 then epsilon else x)
        else state.n[i]? := by
  induction m with
  | zero => exact ⟨state.n, by simp, rfl, by simp⟩
  | succ m ih =>
    obtain ⟨l, h1, h2, h3⟩ := ih (by omega)
    have hlt : m < state.n.length := by omega
    have hm3 : l[m]? = state.n[m]? := by simpa using h3 m
    have hget : state.n[m]? = some (state.n[m]) := List.getElem?_eq_getElem hlt
    rw [List.range_succ, List.foldl_append, h1]
    simp only [List.foldl_cons, List.foldl_nil, List.getD_eq_getElem?_getD, hm3, hget, Option.getD_some]
    by_cases hneg : state.n[m] < 0
    · refine ⟨l.set m epsilon, by simp [hneg, ChemicalState.setSpeciesAmount], by simp [h2], ?_⟩
      intro i
      rw [List.getElem?_set]
      by_cases him : m = i
      · subst him
        simp [h2, hlt, hget, hneg]
      · have := h3 i
        by_cases hi : i < m
        · simp [him, hi, this, Nat.lt_succ_of_lt hi]
        · have hi2 : ¬ i < m + 1 := by omega
          simp [him, hi, hi2, this]
    · refine ⟨l, by simp [hneg], h2, ?_⟩
      intro i
      by_cases him : i = m
      · subst him
        simp [hm3, hget, hneg]
      · have := h3 i
        by_cases hi : i < m
        · simp [hi, this, Nat.lt_succ_of_lt hi]
        · have hi2 : ¬ i < m + 1 := by omega
          simp [hi, hi2, this]

theorem clampNegative_eq (epsilon : ℚ) (state : ChemicalState) :
    clampNegative epsilon state
      = { state with n := state.n.map (fun x => if x < 0 then epsilon else x) } := by
  obtain ⟨l, h1, h2, h3⟩ := clampLoop_spec epsilon state state.n.length le_rfl
  unfold clampNegative
  rw [h1]
  congr 1
  apply List.ext_getElem?
  intro i
  rw [h3 i]
  by_cases hi : i < state.n.length
  · simp [hi]
  · have : state.n[i]? = none := List.getElem?_eq_none (by omega)
    simp [hi, this]

/-! ## Lemmas on `predict`, `learn` and the error test -/

theorem flatSearch_log_isSearch (q : Query) (vs : List Visit) (state : ChemicalState) :
    ∀ e ∈ (flatSearch q vs state).log, e.isSearch = true := by
  induction vs generalizing state with
  | nil => simp [flatSearch]
  | cons v rest ih =>
    simp only [flatSearch]
    split_ifs
    · intro e he
      simp only [List.mem_cons] at he
      rcases he with rfl | rfl | he
      · rfl
      · rfl
      · exact ih _ e he
    · intro e he
      simp only [List.mem_cons, List.mem_singleton, List.not_mem_nil, or_false] at he
      rcases he with rfl | rfl <;> rfl
    · intro e he
      simp only [List.mem_cons] at he
      rcases he with rfl | he
      · rfl
      · exact ih _ e he

theorem predict_of_empty (impl : Impl) (state : ChemicalState) (conditions : EquilibriumConditions)
    (h : impl.database.clusters = []) :
    impl.predict state conditions =
      ({ impl with
          result := { impl.result with prediction := { accepted := false } }
          log := impl.log ++ [Event.predict] }, state) := by
  unfold Impl.predict
  simp [h]

theorem predict_log (impl : Impl) (state : ChemicalState) (conditions : EquilibriumConditions) :
    ∃ search : List Event, (∀ e ∈ search, e.isSearch = true) ∧
      (impl.predict state conditions).1.log = impl.log ++ Event.predict :: search := by
  by_cases hne : impl.database.clusters = []
  · exact ⟨[], by simp, by rw [predict_of_empty impl state conditions hne]⟩
  · refine ⟨(flatSearch (impl.query state conditions) (impl.visits state) state).log,
      flatSearch_log_isSearch _ _ _, ?_⟩
    rw [predict_eq_flatSearch impl state conditions hne]
    split <;> rfl

theorem map_records_modify_priority (clusters : List Cluster) (j : Nat)
    (g : PriorityQueue → PriorityQueue) :
    (clusters.modify (fun cluster => { cluster with priority := g cluster.priority }) j).map
        Cluster.records = clusters.map Cluster.records := by
  induction clusters generalizing j with
  | nil => simp
  | cons x xs ih =>
    cases j with
    | zero => simp
    | succ j => simp [ih]

theorem predict_records (impl : Impl) (state : ChemicalState) (conditions : EquilibriumConditions) :
    (impl.predict state conditions).1.database.clusters.map Cluster.records
      = impl.database.clusters.map Cluster.records := by
  by_cases hne : impl.database.clusters = []
  · rw [predict_of_empty impl state conditions hne]
  · rw [predict_eq_flatSearch impl state conditions hne]
    split
    · exact map_records_modify_priority _ _ (fun q => q.increment _)
    · rfl

theorem learn_log (impl : Impl) (state : ChemicalState) (conditions : EquilibriumConditions) :
    (impl.learn state conditions).2.1.log = impl.log ++ [Event.learn, Event.exactSolve] := by
  unfold Impl.learn
  simp only
  split <;> rfl

theorem errorLoop_iff (options : SmartEquilibriumOptions) (predictor : EquilibriumPredictor)
    (iprimary : List Nat) (dw dc : List ℚ) (k : Nat) :
    errorLoop options predictor iprimary dw dc k = true ↔
      ∀ j < k,
        |predictor.speciesChemicalPotentialPredicted (iprimary.getD j 0) dw dc
            - predictor.speciesChemicalPotentialReference (iprimary.getD j 0)|
          < options.reltol * |predictor.speciesChemicalPotentialReference (iprimary.getD j 0)|
            + options.abstol := by
  induction k with
  | zero => simp [errorLoop]
  | succ k ih =>
    simp only [errorLoop]
    split_ifs with hge
    · simp only [Bool.false_eq_true, false_iff, not_forall]
      exact ⟨k, Nat.lt_succ_self k, not_lt.mpr hge⟩
    · rw [ih]
      constructor
      · intro h j hj
        rcases Nat.lt_succ_iff_lt_or_eq.mp hj with hlt | rfl
        · exact h j hlt
        · exact not_le.mp hge
      · intro h j hj
        exact h j (Nat.lt_succ_of_lt hj)

/-! ## Lemmas on the visitation order and on the counts -/

theorem errorTests_append (a b : List Event) : errorTests (a ++ b) = errorTests a ++ errorTests b := by
  induction a with
  | nil => rfl
  | cons e rest ih => cases e <;> simp [errorTests, ih]

theorem bump_length (counts : List Nat) (i : Nat) : (bump counts i).length = counts.length := by
  induction counts generalizing i with
  | nil => rfl
  | cons x xs ih => cases i <;> simp [bump, ih]

theorem bump_getD (counts : List Nat) (i k : Nat) :
    (bump counts i).getD k 0 = counts.getD k 0 + (if k = i ∧ i < counts.length then 1 else 0) := by
  induction counts generalizing i k with
  | nil => simp [bump]
  | cons x xs ih =>
    cases i with
    | zero =>
      cases k with
      | zero => simp [bump]
      | succ k => simp [bump]
    | succ i =>
      cases k with
      | zero => simp [bump]
      | succ k => simpa [bump] using ih i k

theorem connectivity_increment_row (g : ClusterConnectivity) (origin dest o k : Nat) :
    ((g.increment origin dest).row o).getD k 0
      = (g.row o).getD k 0
        + (if ((o = origin ∧ origin < g.rows.length) ∨ (g.rows.length ≤ o ∧ g.rows.length ≤ origin))
              ∧ k = dest ∧ dest < (g.row o).length then 1 else 0) := by
  unfold ClusterConnectivity.increment
  by_cases h : origin < g.rows.length
  · simp only [h, if_true, ClusterConnectivity.row, List.getElem?_modify]
    by_cases ho : o < g.rows.length
    · rw [List.getElem?_eq_getElem ho]
      by_cases hoo : origin = o
      · subst hoo
        have := bump_getD g.rows[origin] dest k
        simpa [h] using this
      · have hoo2 : ¬ o = origin := fun e => hoo e.symm
        simp [hoo, hoo2, ho, Nat.not_le.mpr h]
    · rw [List.getElem?_eq_none (Nat.not_lt.mp ho)]
      have hoo : ¬ o = origin := by omega
      simp [hoo, Nat.not_le.mpr h]
  · simp only [h, if_false, ClusterConnectivity.row]
    by_cases ho : o < g.rows.length
    · rw [List.getElem?_eq_getElem ho]
      simp [h, Nat.not_le.mpr ho]
    · rw [List.getElem?_eq_none (Nat.not_lt.mp ho)]
      have := bump_getD g.sentinel dest k
      simpa [h, Nat.not_lt.mp ho, Nat.not_lt.mp h] using this

theorem minCoeff_lower (n : List ℚ) (bound : ℚ) (hne : n ≠ []) (h : ∀ x ∈ n, bound ≤ x) :
    bound ≤ minCoeff n := by
  cases n with
  | nil => exact absurd rfl hne
  | cons x xs =>
    simp only [minCoeff]
    have hx : bound ≤ x := h x (List.mem_cons_self x xs)
    have hxs : ∀ y ∈ xs, bound ≤ y := fun y hy => h y (List.mem_cons_of_mem x hy)
    clear h hne
    induction xs generalizing x with
    | nil => simpa using hx
    | cons y ys ih =>
      simp only [List.foldl_cons]
      exact ih (min x y) (le_min hx (hxs y (List.mem_cons_self y ys)))
        (fun z hz => hxs z (List.mem_cons_of_mem y hz))

theorem minCoeff_le_of_mem (n : List ℚ) (x : ℚ) (hx : x ∈ n) : minCoeff n ≤ x := by
  cases n with
  | nil => cases hx
  | cons y ys =>
    simp only [minCoeff]
    have hfold : ∀ (l : List ℚ) (a : ℚ), l.foldl min a ≤ a ∧ ∀ z ∈ l, l.foldl min a ≤ z := by
      intro l
      induction l with
      | nil => intro a; simp
      | cons b bs ih =>
        intro a
        simp only [List.foldl_cons, List.mem_cons]
        refine ⟨le_trans (ih (min a b)).1 (min_le_left a b), ?_⟩
        rintro z (rfl | hz)
        · exact le_trans (ih (min a z)).1 (min_le_right a z)
        · exact (ih (min a b)).2 z hz
    rcases List.mem_cons.mp hx with rfl | hmem
    · exact (hfold ys x).1
    · exact (hfold ys y).2 x hmem

/-! ## `predict` in terms of the visitation order -/

theorem clusterVisits_nil (ordering : List Nat) : clusterVisits [] ordering = [] := by
  induction ordering with
  | nil => rfl
  | cons j rest ih => simp [clusterVisits, ih]

theorem clusters_ne_nil_of_visits (impl : Impl) (state : ChemicalState)
    (h : impl.visits state ≠ []) : impl.database.clusters ≠ [] := by
  intro hnil
  apply h
  unfold Impl.visits
  rw [hnil]
  exact clusterVisits_nil _

theorem predict_accepted_eq (impl : Impl) (state : ChemicalState) (conditions : EquilibriumConditions)
    (hne : impl.database.clusters ≠ []) :
    (impl.predict state conditions).1.result.prediction.accepted
      = (flatSearch (impl.query state conditions) (impl.visits state) state).found.isSome := by
  rw [predict_eq_flatSearch impl state conditions hne]
  split <;> simp [*]

theorem predict_state_eq (impl : Impl) (state : ChemicalState) (conditions : EquilibriumConditions)
    (hne : impl.database.clusters ≠ []) :
    (impl.predict state conditions).2
      = (flatSearch (impl.query state conditions) (impl.visits state) state).state := by
  rw [predict_eq_flatSearch impl state conditions hne]
  split <;> rfl

theorem predict_log_eq (impl : Impl) (state : ChemicalState) (conditions : EquilibriumConditions)
    (hne : impl.database.clusters ≠ []) :
    (impl.predict state conditions).1.log
      = impl.log ++ Event.predict ::
          (flatSearch (impl.query state conditions) (impl.visits state) state).log := by
  rw [predict_eq_flatSearch impl state conditions hne]
  split <;> rfl

theorem predict_database_of_none (impl : Impl) (state : ChemicalState)
    (conditions : EquilibriumConditions) (hne : impl.database.clusters ≠ [])
    (h : (flatSearch (impl.query state conditions) (impl.visits state) state).found = none) :
    (impl.predict state conditions).1.database = impl.database := by
  rw [predict_eq_flatSearch impl state conditions hne, h]

theorem predict_database_of_some (impl : Impl) (state : ChemicalState)
    (conditions : EquilibriumConditions) (hne : impl.database.clusters ≠ []) (p : Nat × Nat)
    (h : (flatSearch (impl.query state conditions) (impl.visits state) state).found = some p) :
    (impl.predict state conditions).1.database
      = impl.database.priorityUpdate (impl.startCluster state) p.1 p.2 := by
  rw [predict_eq_flatSearch impl state conditions hne, h]

theorem predict_rejected_database (impl : Impl) (state : ChemicalState)
    (conditions : EquilibriumConditions)
    (h : (impl.predict state conditions).1.result.prediction.accepted = false) :
    (impl.predict state conditions).1.database = impl.database := by
  by_cases hne : impl.database.clusters = []
  · rw [predict_of_empty impl state conditions hne]
  · rw [predict_accepted_eq impl state conditions hne] at h
    apply predict_database_of_none impl state conditions hne
    cases hf : (flatSearch (impl.query state conditions) (impl.visits state) state).found with
    | none => rfl
    | some p => simp [hf] at h

theorem predict_accepted_found (impl : Impl) (state : ChemicalState)
    (conditions : EquilibriumConditions)
    (h : (impl.predict state conditions).1.result.prediction.accepted = true) :
    impl.database.clusters ≠ [] ∧
      ∃ p, (flatSearch (impl.query state conditions) (impl.visits state) state).found = some p := by
  have hne : impl.database.clusters ≠ [] := by
    intro hnil
    rw [predict_of_empty impl state conditions hnil] at h
    cases h
  refine ⟨hne, ?_⟩
  rw [predict_accepted_eq impl state conditions hne] at h
  cases hf : (flatSearch (impl.query state conditions) (impl.visits state) state).found with
  | none => simp [hf] at h
  | some p => exact ⟨p, rfl⟩

theorem flatSearch_skip (q : Query) (pre : List Visit) (v : Visit) (post : List Visit)
    (state : ChemicalState) (hpre : q.noneAccepted pre state = true) (hpass : q.passes v = true)
    (hinfeasible : minCoeff (q.extrapolate v (q.arrive pre state)).n
      ≤ q.options.reltol_negative_amounts * sumCoeff (q.extrapolate v (q.arrive pre state)).n) :
    (flatSearch q (pre ++ v :: post) state).found
        = (flatSearch q post (q.extrapolate v (q.arrive pre state))).found ∧
      (flatSearch q (pre ++ v :: post) state).state
        = (flatSearch q post (q.extrapolate v (q.arrive pre state))).state ∧
      errorTests (flatSearch q (pre ++ v :: post) state).log
        = (pre ++ [v]).map Visit.pair
            ++ errorTests (flatSearch q post (q.extrapolate v (q.arrive pre state))).log := by
  have hnone := (flatSearch_found_eq_none_iff q pre state).2 hpre
  obtain ⟨_, hst, hlog⟩ := flatSearch_none q pre state hnone
  rw [flatSearch_append]
  simp only [hnone, hst]
  simp [flatSearch, hpass, hinfeasible, errorTests_append, errorTests, hlog, Visit.pair]

theorem flatSearch_errorTests_head (q : Query) (vs : List Visit) (state : ChemicalState) :
    (vs.take 1).map Visit.pair <+: errorTests (flatSearch q vs state).log := by
  cases vs with
  | nil => simp
  | cons v rest =>
    simp only [flatSearch]
    split_ifs <;> simp [errorTests, Visit.pair]

/-! ## Facts about the concrete instances -/

theorem demo_visits :
    demoLearned.visits demoState = [demoVisitFar, demoVisitNegative] ++ demoVisitNear :: [] := rfl

theorem demo_passes_far :
    (demoLearned.query demoState demoConditions).passes demoVisitFar = false := by
  simp [Query.passes, pass_error_test, errorLoop, Impl.query, demoLearned, demoImpl, demoOptions,
    demoVisitFar, demoRecord, demoPredictorFar, demoState]

theorem demo_passes_negative :
    (demoLearned.query demoState demoConditions).passes demoVisitNegative = true := by
  simp [Query.passes, pass_error_test, errorLoop, Impl.query, demoLearned, demoImpl, demoOptions,
    demoVisitNegative, demoRecord, demoPredictorNegative, demoState]

theorem demo_passes_near :
    (demoLearned.query demoState demoConditions).passes demoVisitNear = true := by
  simp [Query.passes, pass_error_test, errorLoop, Impl.query, demoLearned, demoImpl, demoOptions,
    demoVisitNear, demoRecord, demoPredictorNear, demoState]

theorem demo_arrive :
    (demoLearned.query demoState demoConditions).arrive [demoVisitFar, demoVisitNegative] demoState
      = { demoState with n := [-1, 2] } := by
  simp only [Query.arrive, List.foldl_cons, List.foldl_nil, Query.step, demo_passes_far,
    demo_passes_negative]
  rfl

theorem demo_noneAccepted :
    (demoLearned.query demoState demoConditions).noneAccepted [demoVisitFar, demoVisitNegative]
      demoState = true := by
  simp only [Query.noneAccepted, Query.accepts, Query.step, demo_passes_far, demo_passes_negative]
  simp [feasible, minCoeff, sumCoeff, Query.extrapolate, demoVisitNegative, demoRecord,
    demoPredictorNegative, Impl.query, demoLearned, demoImpl, demoOptions]
  norm_num

theorem demo_accepts_near :
    (demoLearned.query demoState demoConditions).accepts demoVisitNear
      ((demoLearned.query demoState demoConditions).arrive [demoVisitFar, demoVisitNegative] demoState)
      = true := by
  simp only [Query.accepts, demo_passes_near, demo_arrive]
  simp [feasible, minCoeff, sumCoeff, Query.extrapolate, demoVisitNear, demoRecord,
    demoPredictorNear, Impl.query, demoLearned, demoImpl, demoOptions]
  norm_num

theorem demo_accepted :
    (demoLearned.predict demoState demoConditions).1.result.prediction.accepted = true := by
  have hne : demoLearned.database.clusters ≠ [] := by simp [demoLearned, demoDatabase]
  rw [predict_accepted_eq demoLearned demoState demoConditions hne, demo_visits,
    (flatSearch_first _ _ _ _ _ demo_noneAccepted demo_accepts_near).1]
  rfl

theorem tiny_passes (tol : ℚ) :
    ((tinyNegativeImpl tol).query demoState demoConditions).passes tinyNegativeVisit = true := by
  simp [Query.passes, pass_error_test, errorLoop, Impl.query, tinyNegativeImpl, demoImpl,
    tinyNegativeVisit, demoRecord, tinyNegativePredictor, demoState]

theorem tiny_visits_positive :
    (tinyNegativeImpl (1 / 10 ^ 9)).visits demoState = [] ++ tinyNegativeVisit :: [] := rfl

theorem tiny_visits_negative :
    (tinyNegativeImpl (-1 / 10 ^ 9)).visits demoState = [] ++ tinyNegativeVisit :: [] := rfl

theorem tiny_rejected :
    ((tinyNegativeImpl (1 / 10 ^ 9)).predict demoState demoConditions).1.result.prediction.accepted
      = false := by
  have hne : (tinyNegativeImpl (1 / 10 ^ 9)).database.clusters ≠ [] := by
    simp [tinyNegativeImpl, singleRecordDatabase]
  have hnone : ((tinyNegativeImpl (1 / 10 ^ 9)).query demoState demoConditions).noneAccepted
      [tinyNegativeVisit] demoState = true := by
    simp only [Query.noneAccepted, Query.accepts, tiny_passes]
    simp [feasible, minCoeff, sumCoeff, Query.extrapolate, tinyNegativeVisit, demoRecord,
      tinyNegativePredictor, Impl.query, tinyNegativeImpl]
    norm_num
  rw [predict_accepted_eq _ demoState demoConditions hne, tiny_visits_positive, List.nil_append,
    (flatSearch_found_eq_none_iff _ _ _).2 hnone]
  rfl

theorem map_clamp_of_nonneg (epsilon : ℚ) (l : List ℚ) (h : ∀ x ∈ l, 0 ≤ x) :
    l.map (fun x => if x < 0 then epsilon else x) = l := by
  induction l with
  | nil => rfl
  | cons y ys ih =>
    have hy : ¬ y < 0 := not_lt.mpr (h y (List.mem_cons_self y ys))
    simp [hy, ih (fun x hx => h x (List.mem_cons_of_mem y hx))]

/-! ## The claims -/

/-- C1: for conditions whose input values are all finite, `solve(state, conditions)`
runs `predict` exactly once (the log grows by `Event.predict` followed by search
events only) and then runs `learn` if and only if `predict` left
`result.prediction.accepted` false.  When `predict` accepts, `solve` returns what
`predict` left: the exact solver is not invoked (the log ends with the search
events) and the records of every cluster are the ones held before. -/
theorem solve_runs_predict_once_then_learn_iff_rejected (impl : Impl) (state : ChemicalState)
    (conditions : EquilibriumConditions) (hfinite : conditions.allFinite = true) :
    ∃ search : List Event, (∀ e ∈ search, e.isSearch = true) ∧
      (impl.resetResult.predict state conditions).1.log = impl.log ++ Event.predict :: search ∧
      ((impl.resetResult.predict state conditions).1.result.prediction.accepted = true →
        impl.solve state conditions
          = (Except.ok (impl.resetResult.predict state conditions).1.result,
              (impl.resetResult.predict state conditions).1,
              (impl.resetResult.predict state conditions).2) ∧
        (impl.solve state conditions).2.1.log = impl.log ++ Event.predict :: search ∧
        (impl.solve state conditions).2.1.database.clusters.map Cluster.records
          = impl.database.clusters.map Cluster.records) ∧
      ((impl.resetResult.predict state conditions).1.result.prediction.accepted = false →
        (impl.solve state conditions).2
          = ((impl.resetResult.predict state conditions).1.learn
              (impl.resetResult.predict state conditions).2 conditions).2 ∧
        (impl.solve state conditions).2.1.log
          = impl.log ++ Event.predict :: search ++ [Event.learn, Event.exactSolve]) := by
  obtain ⟨search, hsearch, hlog⟩ := predict_log impl.resetResult state conditions
  have hlog2 : (impl.resetResult.predict state conditions).1.log
      = impl.log ++ Event.predict :: search := hlog
  refine ⟨search, hsearch, hlog2, ?_, ?_⟩
  · intro hacc
    have hsolve : impl.solve state conditions
        = (Except.ok (impl.resetResult.predict state conditions).1.result,
            (impl.resetResult.predict state conditions).1,
            (impl.resetResult.predict state conditions).2) := by
      unfold Impl.solve
      simp [hfinite, hacc]
    refine ⟨hsolve, ?_, ?_⟩
    · rw [hsolve]
      exact hlog2
    · rw [hsolve]
      exact predict_records impl.resetResult state conditions
  · intro hrej
    have hsolve : (impl.solve state conditions).2
        = ((impl.resetResult.predict state conditions).1.learn
            (impl.resetResult.predict state conditions).2 conditions).2 := by
      unfold Impl.solve
      simp only [hfinite, hrej, Bool.not_true, Bool.false_eq_true, if_false, Bool.not_false, if_true]
      split <;> simp_all
    refine ⟨hsolve, ?_⟩
    rw [hsolve, learn_log, hlog2]

/-- C1, at a concrete input: a solver with the empty database and finite inputs. -/
theorem solve_runs_predict_once_then_learn_iff_rejected_witness :
    demoConditions.allFinite = true ∧
    ∃ search : List Event, (∀ e ∈ search, e.isSearch = true) ∧
      (demoImpl.resetResult.predict demoState demoConditions).1.log
        = demoImpl.log ++ Event.predict :: search ∧
      ((demoImpl.resetResult.predict demoState demoConditions).1.result.prediction.accepted = true →
        demoImpl.solve demoState demoConditions
          = (Except.ok (demoImpl.resetResult.predict demoState demoConditions).1.result,
              (demoImpl.resetResult.predict demoState demoConditions).1,
              (demoImpl.resetResult.predict demoState demoConditions).2) ∧
        (demoImpl.solve demoState demoConditions).2.1.log = demoImpl.log ++ Event.predict :: search ∧
        (demoImpl.solve demoState demoConditions).2.1.database.clusters.map Cluster.records
          = demoImpl.database.clusters.map Cluster.records) ∧
      ((demoImpl.resetResult.predict demoState demoConditions).1.result.prediction.accepted = false →
        (demoImpl.solve demoState demoConditions).2
          = ((demoImpl.resetResult.predict demoState demoConditions).1.learn
              (demoImpl.resetResult.predict demoState demoConditions).2 demoConditions).2 ∧
        (demoImpl.solve demoState demoConditions).2.1.log
          = demoImpl.log ++ Event.predict :: search ++ [Event.learn, Event.exactSolve]) :=
  ⟨by decide,
    solve_runs_predict_once_then_learn_iff_rejected demoImpl demoState demoConditions (by decide)⟩

/-- C2: for conditions with at least one non-finite input value,
`solve(state, conditions)` throws the error of line 104 before `predict` or
`learn` is run (the log is the one held before), and the database and the state
are the same after the failure as before it. -/
theorem solve_fails_fast_on_nonfinite_input (self : SmartEquilibriumSolver) (state : ChemicalState)
    (conditions : EquilibriumConditions) (hnonfinite : conditions.allFinite = false) :
    (self.solve state conditions).1 = Except.error msgInputs ∧
      (self.solve state conditions).2.1.pimpl.database = self.pimpl.database ∧
      (self.solve state conditions).2.2 = state ∧
      (self.solve state conditions).2.1.pimpl.log = self.pimpl.log := by
  simp [SmartEquilibriumSolver.solve, Impl.solve, hnonfinite, Impl.resetResult]

/-- C2, at a concrete input: the second input was never set. -/
theorem solve_fails_fast_on_nonfinite_input_witness :
    demoConditionsUnset.allFinite = false ∧
      (SmartEquilibriumSolver.solve { pimpl := demoLearned } demoState demoConditionsUnset).1
        = Except.error msgInputs ∧
      (SmartEquilibriumSolver.solve { pimpl := demoLearned } demoState demoConditionsUnset).2.1.pimpl.database
        = demoDatabase ∧
      (SmartEquilibriumSolver.solve { pimpl := demoLearned } demoState demoConditionsUnset).2.2
        = demoState ∧
      (SmartEquilibriumSolver.solve { pimpl := demoLearned } demoState demoConditionsUnset).2.1.pimpl.log
        = [] :=
  ⟨by decide,
    solve_fails_fast_on_nonfinite_input { pimpl := demoLearned } demoState demoConditionsUnset
      (by decide)⟩

/-- C3: each of the six `solve` overloads that take an `EquilibriumRestrictions`
or an `EquilibriumSensitivity` throws its "not supported" error for every input
and leaves the solver object (database, log), the state and the caller's
sensitivity object unchanged. -/
theorem solve_unsupported_overloads_fail (self : SmartEquilibriumSolver) (state : ChemicalState)
    (conditions : EquilibriumConditions) (restrictions : EquilibriumRestrictions)
    (sensitivity : EquilibriumSensitivity) :
    self.solve_restrictions state restrictions = (Except.error msgRestrictions, self, state) ∧
    self.solve_conditions_restrictions state conditions restrictions
      = (Except.error msgRestrictions, self, state) ∧
    self.solve_sensitivity state sensitivity
      = ((Except.error msgSensitivity, self, state), sensitivity) ∧
    self.solve_sensitivity_restrictions state sensitivity restrictions
      = ((Except.error msgSensitivity, self, state), sensitivity) ∧
    self.solve_sensitivity_conditions state sensitivity conditions
      = ((Except.error msgSensitivity, self, state), sensitivity) ∧
    self.solve_sensitivity_conditions_restrictions state sensitivity conditions restrictions
      = ((Except.error msgSensitivity, self, state), sensitivity) ∧
    "not supported".toList <:+: msgRestrictions.toList ∧
    "not supported".toList <:+: msgSensitivity.toList :=
  ⟨rfl, rfl, rfl, rfl, rfl, rfl,
    ⟨"SmartEquilibriumSolver::solve methods with given EquilibriumRestrictions is currently ".toList,
      ".".toList, rfl⟩,
    ⟨"SmartEquilibriumSolver::solve methods with given EquilibriumSensitivity is currently ".toList,
      ".".toList, rfl⟩⟩

/-- C4: on a database with zero clusters `predict` returns `accepted = false`,
evaluates no error test and no extrapolation (the log grows by `Event.predict`
alone), and leaves the state and the database unchanged. -/
theorem predict_empty_database_rejects (impl : Impl) (state : ChemicalState)
    (conditions : EquilibriumConditions) (hempty : impl.database.clusters = []) :
    (impl.predict state conditions).1.result.prediction.accepted = false ∧
      (impl.predict state conditions).1.log = impl.log ++ [Event.predict] ∧
      (impl.predict state conditions).2 = state ∧
      (impl.predict state conditions).1.database = impl.database := by
  rw [predict_of_empty impl state conditions hempty]
  exact ⟨rfl, rfl, rfl, rfl⟩

/-- C4, at a concrete input: the solver that has not learned anything. -/
theorem predict_empty_database_rejects_witness :
    demoImpl.database.clusters = [] ∧
      (demoImpl.predict demoState demoConditions).1.result.prediction.accepted = false ∧
      (demoImpl.predict demoState demoConditions).1.log = demoImpl.log ++ [Event.predict] ∧
      (demoImpl.predict demoState demoConditions).2 = demoState ∧
      (demoImpl.predict demoState demoConditions).1.database = demoImpl.database :=
  ⟨rfl, predict_empty_database_rejects demoImpl demoState demoConditions rfl⟩

/-- C7: when `predict` accepts, the accepted pair is the first stop of the visitation
order that passes both the error test and the feasibility test (no stop before it
is accepted), and the database after the call is the database before it with the
three increments of lines 365-371 applied: the count of the record in its cluster's
priority ranking, the edge `(startCluster, jcluster)` of the connectivity graph and
the count of the cluster in the database priority ranking; an increment adds one to
one count (of a ranking, or of the row of edges that leave the origin, the
sentinel origin having a row of its own) and leaves every other count as it was.
When `predict` rejects, the database is unchanged. -/
theorem predict_accepts_first_and_updates_three_counts (impl : Impl) (state : ChemicalState)
    (conditions : EquilibriumConditions) :
    ((impl.predict state conditions).1.result.prediction.accepted = true →
      ∃ pre v post, impl.visits state = pre ++ v :: post ∧
        (impl.query state conditions).noneAccepted pre state = true ∧
        (impl.query state conditions).accepts v ((impl.query state conditions).arrive pre state)
          = true ∧
        (impl.predict state conditions).1.database.clusters
          = impl.database.clusters.modify
              (fun cluster => { cluster with priority := cluster.priority.increment v.irecord })
              v.jcluster ∧
        (impl.predict state conditions).1.database.connectivity
          = impl.database.connectivity.increment (impl.startCluster state) v.jcluster ∧
        (impl.predict state conditions).1.database.priority
          = impl.database.priority.increment v.jcluster) ∧
    ((impl.predict state conditions).1.result.prediction.accepted = false →
      (impl.predict state conditions).1.database = impl.database) ∧
    (∀ (q : PriorityQueue) (i k : Nat),
      (q.increment i).priorities.getD k 0
        = q.priorities.getD k 0 + (if k = i ∧ i < q.priorities.length then 1 else 0)) ∧
    (∀ (g : ClusterConnectivity) (origin dest o k : Nat),
      ((g.increment origin dest).row o).getD k 0
        = (g.row o).getD k 0
          + (if ((o = origin ∧ origin < g.rows.length)
                  ∨ (g.rows.length ≤ o ∧ g.rows.length ≤ origin))
                ∧ k = dest ∧ dest < (g.row o).length then 1 else 0)) := by
  refine ⟨?_, predict_rejected_database impl state conditions, ?_,
    connectivity_increment_row⟩
  · intro h
    obtain ⟨hne, p, hf⟩ := predict_accepted_found impl state conditions h
    obtain ⟨pre, v, post, h1, h2, h3, h4, _, _⟩ := flatSearch_some _ _ _ p hf
    refine ⟨pre, v, post, h1, h2, h3, ?_⟩
    rw [predict_database_of_some impl state conditions hne p hf, h4]
    exact ⟨rfl, rfl, rfl⟩
  · intro q i k
    exact bump_getD q.priorities i k

/-- C8: a stop that the search reaches (no stop before it is accepted), whose record
passes the error test but whose extrapolated amounts satisfy
`min <= reltol_negative_amounts * sum`, is not accepted: the search goes on from
the extrapolated state with the stops after it, so `predict` accepts exactly when
one of those is accepted; the database is either unchanged or updated for one of
the later stops; and the error tests run are those of the stops before it, its
own, and then that of the next stop of the visitation order, if there is one. -/
theorem predict_infeasible_record_continues (impl : Impl) (state : ChemicalState)
    (conditions : EquilibriumConditions) (pre : List Visit) (v : Visit) (post : List Visit)
    (hvisits : impl.visits state = pre ++ v :: post)
    (hpre : (impl.query state conditions).noneAccepted pre state = true)
    (hpass : pass_error_test impl.options state.iprimary state.iprimary.length conditions.w
      (conditions.initialComponentAmountsGetOrCompute state) v.record = true)
    (hinfeasible :
      minCoeff (v.record.predictor.predict ((impl.query state conditions).arrive pre state)
          conditions).n
        ≤ impl.options.reltol_negative_amounts
          * sumCoeff (v.record.predictor.predict ((impl.query state conditions).arrive pre state)
              conditions).n) :
    ((impl.predict state conditions).1.result.prediction.accepted = true ↔
      ∃ pre2 v2 post2, post = pre2 ++ v2 :: post2 ∧
        (impl.query state conditions).accepts v2
          ((impl.query state conditions).arrive pre2
            (v.record.predictor.predict ((impl.query state conditions).arrive pre state)
              conditions)) = true) ∧
    ((impl.predict state conditions).1.database = impl.database ∨
      ∃ pre2 v2 post2, post = pre2 ++ v2 :: post2 ∧
        (impl.predict state conditions).1.database
          = impl.database.priorityUpdate (impl.startCluster state) v2.jcluster v2.irecord) ∧
    (∃ search, (impl.predict state conditions).1.log = impl.log ++ Event.predict :: search ∧
      (pre ++ v :: post.take 1).map Visit.pair <+: errorTests search) := by
  have hne : impl.database.clusters ≠ [] :=
    clusters_ne_nil_of_visits impl state (by rw [hvisits]; simp)
  have hskip := flatSearch_skip (impl.query state conditions) pre v post state hpre hpass hinfeasible
  rw [← hvisits] at hskip
  obtain ⟨hfound, _, hlog⟩ := hskip
  refine ⟨?_, ?_, ?_⟩
  · rw [predict_accepted_eq impl state conditions hne, hfound]
    constructor
    · intro h
      cases hf : (flatSearch (impl.query state conditions) post
          ((impl.query state conditions).extrapolate v
            ((impl.query state conditions).arrive pre state))).found with
      | none => simp [hf] at h
      | some p =>
        obtain ⟨pre2, v2, post2, h1, _, h3, _⟩ := flatSearch_some _ _ _ p hf
        exact ⟨pre2, v2, post2, h1, h3⟩
    · rintro ⟨pre2, v2, post2, h1, h2⟩
      cases hf : (flatSearch (impl.query state conditions) post
          ((impl.query state conditions).extrapolate v
            ((impl.query state conditions).arrive pre state))).found with
      | some p => rfl
      | none =>
        have hnone := (flatSearch_found_eq_none_iff _ _ _).1 hf
        have := (noneAccepted_iff _ _ _).1 hnone pre2 v2 post2 h1
        cases this.symm.trans h2
  · cases hf : (flatSearch (impl.query state conditions) post
        ((impl.query state conditions).extrapolate v
          ((impl.query state conditions).arrive pre state))).found with
    | none =>
      left
      exact predict_database_of_none impl state conditions hne (by rw [hfound, hf])
    | some p =>
      right
      obtain ⟨pre2, v2, post2, h1, _, _, h4, _⟩ := flatSearch_some _ _ _ p hf
      refine ⟨pre2, v2, post2, h1, ?_⟩
      rw [predict_database_of_some impl state conditions hne p (by rw [hfound, hf]), h4]
      rfl
  · refine ⟨_, predict_log_eq impl state conditions hne, ?_⟩
    rw [hlog]
    have hhead := flatSearch_errorTests_head (impl.query state conditions) post
      ((impl.query state conditions).extrapolate v ((impl.query state conditions).arrive pre state))
    obtain ⟨t, ht⟩ := hhead
    refine ⟨t, ?_⟩
    rw [← ht]
    simp

/-- C8, at a concrete input: the second stop of the search of `demoLearned` passes
the error test with the infeasible amounts `[-1, 2]`, and the third stop is examined. -/
theorem predict_infeasible_record_continues_witness :
    demoLearned.visits demoState = [demoVisitFar] ++ demoVisitNegative :: [demoVisitNear] ∧
    (∃ search, (demoLearned.predict demoState demoConditions).1.log
        = demoLearned.log ++ Event.predict :: search ∧
      ([demoVisitFar] ++ demoVisitNegative :: [demoVisitNear].take 1).map Visit.pair
        <+: errorTests search) :=
  ⟨rfl,
    (predict_infeasible_record_continues demoLearned demoState demoConditions
      [demoVisitFar] demoVisitNegative [demoVisitNear] rfl
      (by simp [Query.noneAccepted, Query.accepts, demo_passes_far])
      demo_passes_negative
      (by
        simp [minCoeff, sumCoeff, demoVisitNegative, demoRecord, demoPredictorNegative,
          demoLearned, demoImpl, demoOptions]
        norm_num)).2.2⟩

/-- C7, at a concrete input: the search of `demoLearned` accepts, so the first
part of the statement applies. -/
theorem predict_accepts_first_and_updates_three_counts_witness :
    (demoLearned.predict demoState demoConditions).1.result.prediction.accepted = true ∧
      ∃ pre v post, demoLearned.visits demoState = pre ++ v :: post ∧
        (demoLearned.query demoState demoConditions).noneAccepted pre demoState = true ∧
        (demoLearned.query demoState demoConditions).accepts v
          ((demoLearned.query demoState demoConditions).arrive pre demoState) = true ∧
        (demoLearned.predict demoState demoConditions).1.database.clusters
          = demoLearned.database.clusters.modify
              (fun cluster => { cluster with priority := cluster.priority.increment v.irecord })
              v.jcluster ∧
        (demoLearned.predict demoState demoConditions).1.database.connectivity
          = demoLearned.database.connectivity.increment (demoLearned.startCluster demoState)
              v.jcluster ∧
        (demoLearned.predict demoState demoConditions).1.database.priority
          = demoLearned.database.priority.increment v.jcluster :=
  ⟨demo_accepted,
    (predict_accepts_first_and_updates_three_counts demoLearned demoState demoConditions).1
      demo_accepted⟩

/-- C9: when `predict` accepts, the returned state is the extrapolated state of the
accepted record with every amount `< 0` replaced by `options.learning.epsilon` and
every amount `>= 0` left as extrapolated; hence, if that floor value is
non-negative, no amount of the returned state is negative. -/
theorem predict_accepted_state_clamps_negative_amounts (impl : Impl) (state : ChemicalState)
    (conditions : EquilibriumConditions)
    (haccepted : (impl.predict state conditions).1.result.prediction.accepted = true) :
    ∃ pre v post, impl.visits state = pre ++ v :: post ∧
      (impl.query state conditions).noneAccepted pre state = true ∧
      (impl.query state conditions).accepts v ((impl.query state conditions).arrive pre state)
        = true ∧
      (impl.predict state conditions).2
        = { v.record.predictor.predict ((impl.query state conditions).arrive pre state) conditions
            with n :=
              (v.record.predictor.predict ((impl.query state conditions).arrive pre state)
                conditions).n.map (fun x => if x < 0 then impl.options.learning.epsilon else x) } ∧
      (0 ≤ impl.options.learning.epsilon → ∀ x ∈ (impl.predict state conditions).2.n, 0 ≤ x) := by
  obtain ⟨hne, p, hf⟩ := predict_accepted_found impl state conditions haccepted
  obtain ⟨pre, v, post, h1, h2, h3, _, h5, _⟩ := flatSearch_some _ _ _ p hf
  have hstate : (impl.predict state conditions).2
      = { v.record.predictor.predict ((impl.query state conditions).arrive pre state) conditions
          with n :=
            (v.record.predictor.predict ((impl.query state conditions).arrive pre state)
              conditions).n.map (fun x => if x < 0 then impl.options.learning.epsilon else x) } := by
    rw [predict_state_eq impl state conditions hne, h5, clampNegative_eq]
    rfl
  refine ⟨pre, v, post, h1, h2, h3, hstate, ?_⟩
  intro heps x hx
  rw [hstate] at hx
  simp only [List.mem_map] at hx
  obtain ⟨y, _, rfl⟩ := hx
  split_ifs with hy
  · exact heps
  · exact not_lt.mp hy

/-- C9, at a concrete input: the search of `demoLearned` accepts. -/
theorem predict_accepted_state_clamps_negative_amounts_witness :
    (demoLearned.predict demoState demoConditions).1.result.prediction.accepted = true ∧
    ∃ pre v post, demoLearned.visits demoState = pre ++ v :: post ∧
      (demoLearned.query demoState demoConditions).noneAccepted pre demoState = true ∧
      (demoLearned.query demoState demoConditions).accepts v
        ((demoLearned.query demoState demoConditions).arrive pre demoState) = true ∧
      (demoLearned.predict demoState demoConditions).2
        = { v.record.predictor.predict
              ((demoLearned.query demoState demoConditions).arrive pre demoState) demoConditions
            with n :=
              (v.record.predictor.predict
                  ((demoLearned.query demoState demoConditions).arrive pre demoState)
                  demoConditions).n.map
                  (fun x => if x < 0 then demoLearned.options.learning.epsilon else x) } ∧
      (0 ≤ demoLearned.options.learning.epsilon →
        ∀ x ∈ (demoLearned.predict demoState demoConditions).2.n, 0 ≤ x) :=
  ⟨demo_accepted,
    predict_accepted_state_clamps_negative_amounts demoLearned demoState demoConditions
      demo_accepted⟩

/-- C10, as stated, fails: a record that passes the error test and whose
extrapolation has one component at `-1e-12` with the components summing to `1` is
rejected by `predict` when `reltol_negative_amounts = 1e-9`, because
`-1e-12 <= 1e-9 * 1` is the rejection test of line 345. -/
theorem predict_rejects_tiny_negative_at_positive_tolerance :
    pass_error_test (tinyNegativeImpl (1 / 10 ^ 9)).options demoState.iprimary
        demoState.iprimary.length demoConditions.w
        (demoConditions.initialComponentAmountsGetOrCompute demoState)
        (demoRecord tinyNegativePredictor) = true ∧
      ((demoRecord tinyNegativePredictor).predictor.predict demoState demoConditions).n
        = [-1 / 10 ^ 12, 1 + 1 / 10 ^ 12] ∧
      sumCoeff [-1 / 10 ^ 12, 1 + 1 / 10 ^ 12] = 1 ∧
      (tinyNegativeImpl (1 / 10 ^ 9)).options.reltol_negative_amounts = 1 / 10 ^ 9 ∧
      (tinyNegativeImpl (1 / 10 ^ 9)).visits demoState = [tinyNegativeVisit] ∧
      ((tinyNegativeImpl (1 / 10 ^ 9)).predict demoState demoConditions).1.result.prediction.accepted
        = false :=
  ⟨tiny_passes (1 / 10 ^ 9), rfl, by norm_num [sumCoeff], rfl, tiny_visits_positive, tiny_rejected⟩

/-- C10, amended: a stop that the search reaches, whose record passes the error
test and whose extrapolation has one component equal to `-1e-12`, the others
non-negative and the sum within `0.1` of `1`, is accepted by `predict` when
`reltol_negative_amounts = -1e-9`; the returned state is the extrapolated one with
that component set to `options.learning.epsilon`. -/
theorem predict_accepts_tiny_negative_at_negative_tolerance (impl : Impl) (state : ChemicalState)
    (conditions : EquilibriumConditions) (pre : List Visit) (v : Visit) (post : List Visit)
    (a b : List ℚ)
    (hvisits : impl.visits state = pre ++ v :: post)
    (hpre : (impl.query state conditions).noneAccepted pre state = true)
    (hpass : pass_error_test impl.options state.iprimary state.iprimary.length conditions.w
      (conditions.initialComponentAmountsGetOrCompute state) v.record = true)
    (hn : (v.record.predictor.predict ((impl.query state conditions).arrive pre state)
      conditions).n = a ++ (-1 / 10 ^ 12) :: b)
    (hrest : ∀ x ∈ a ++ b, 0 ≤ x)
    (hsum : |sumCoeff (a ++ (-1 / 10 ^ 12) :: b) - 1| ≤ 1 / 10)
    (htol : impl.options.reltol_negative_amounts = -1 / 10 ^ 9) :
    (impl.predict state conditions).1.result.prediction.accepted = true ∧
      (impl.predict state conditions).2
        = { v.record.predictor.predict ((impl.query state conditions).arrive pre state) conditions
            with n := a ++ impl.options.learning.epsilon :: b } ∧
      (impl.predict state conditions).1.database
        = impl.database.priorityUpdate (impl.startCluster state) v.jcluster v.irecord := by
  have hne : impl.database.clusters ≠ [] :=
    clusters_ne_nil_of_visits impl state (by rw [hvisits]; simp)
  have hmin : (-1 / 10 ^ 12 : ℚ) ≤ minCoeff (a ++ (-1 / 10 ^ 12) :: b) := by
    apply minCoeff_lower _ _ (by simp)
    intro x hx
    simp only [List.mem_append, List.mem_cons] at hx
    rcases hx with hx | rfl | hx
    · exact le_trans (by norm_num) (hrest x (List.mem_append.mpr (Or.inl hx)))
    · exact le_rfl
    · exact le_trans (by norm_num) (hrest x (List.mem_append.mpr (Or.inr hx)))
  have hsum2 := abs_le.mp hsum
  have hfeasible : ¬ minCoeff (a ++ (-1 / 10 ^ 12) :: b)
      ≤ impl.options.reltol_negative_amounts * sumCoeff (a ++ (-1 / 10 ^ 12) :: b) := by
    rw [htol]
    intro hle
    have := le_trans hmin hle
    nlinarith [hsum2.1, hsum2.2]
  have haccepts : (impl.query state conditions).accepts v
      ((impl.query state conditions).arrive pre state) = true := by
    simp only [Query.accepts, Query.passes, Query.extrapolate, feasible, Impl.query,
      Bool.and_eq_true, Bool.not_eq_true', decide_eq_false_iff_not]
    refine ⟨hpass, ?_⟩
    have hn2 := hn
    simp only [Impl.query] at hn2
    rw [hn2]
    exact hfeasible
  obtain ⟨hfound, hstate⟩ := flatSearch_first (impl.query state conditions) pre v post state
    hpre haccepts
  rw [← hvisits] at hfound hstate
  refine ⟨?_, ?_, ?_⟩
  · rw [predict_accepted_eq impl state conditions hne, hfound]
    rfl
  · rw [predict_state_eq impl state conditions hne, hstate, clampNegative_eq]
    simp only [Query.extrapolate]
    have hq : (impl.query state conditions).conditions = conditions := rfl
    have hopt : (impl.query state conditions).options = impl.options := rfl
    rw [hq, hopt, hn]
    have ha := map_clamp_of_nonneg impl.options.learning.epsilon a
      (fun x hx => hrest x (List.mem_append.mpr (Or.inl hx)))
    have hb := map_clamp_of_nonneg impl.options.learning.epsilon b
      (fun x hx => hrest x (List.mem_append.mpr (Or.inr hx)))
    have hneg : (-1 / 10 ^ 12 : ℚ) < 0 := by norm_num
    simp only [List.map_append, List.map_cons, ha, hb, hneg, if_true]
  · rw [predict_database_of_some impl state conditions hne _ hfound]
    rfl

/-- C10 amended, at a concrete input: the database of `tinyNegativeImpl` with the
tolerance `-1e-9`. -/
theorem predict_accepts_tiny_negative_at_negative_tolerance_witness :
    (tinyNegativeImpl (-1 / 10 ^ 9)).visits demoState = [] ++ tinyNegativeVisit :: [] ∧
      ((tinyNegativeImpl (-1 / 10 ^ 9)).predict demoState demoConditions).1.result.prediction.accepted
        = true ∧
      ((tinyNegativeImpl (-1 / 10 ^ 9)).predict demoState demoConditions).2
        = { demoState with n := [] ++ (1 / 10 ^ 16 : ℚ) :: [1 + 1 / 10 ^ 12] } :=
  ⟨tiny_visits_negative,
    (predict_accepts_tiny_negative_at_negative_tolerance (tinyNegativeImpl (-1 / 10 ^ 9)) demoState
      demoConditions [] tinyNegativeVisit [] [] [1 + 1 / 10 ^ 12] tiny_visits_negative rfl
      (tiny_passes (-1 / 10 ^ 9)) rfl (by norm_num) (by norm_num [sumCoeff]) rfl).1,
    (predict_accepts_tiny_negative_at_negative_tolerance (tinyNegativeImpl (-1 / 10 ^ 9)) demoState
      demoConditions [] tinyNegativeVisit [] [] [1 + 1 / 10 ^ 12] tiny_visits_negative rfl
      (tiny_passes (-1 / 10 ^ 9)) rfl (by norm_num) (by norm_num [sumCoeff]) rfl).2.1⟩

/-! ## Lemmas on `indexfn`, `learn` and the storage step -/

theorem indexfn_le {α : Type} (xs : List α) (p : α → Bool) : indexfn xs p ≤ xs.length := by
  induction xs with
  | nil => simp [indexfn]
  | cons x xs ih =>
    simp only [indexfn]
    split_ifs
    · simp
    · simpa using ih

theorem indexfn_lt_iff {α : Type} (xs : List α) (p : α → Bool) :
    indexfn xs p < xs.length ↔ ∃ x ∈ xs, p x = true := by
  induction xs with
  | nil => simp [indexfn]
  | cons x xs ih =>
    simp only [indexfn]
    split_ifs with hx
    · simp [hx]
    · simp [hx, ih]

theorem indexfn_eq_length_iff {α : Type} (xs : List α) (p : α → Bool) :
    indexfn xs p = xs.length ↔ ∀ x ∈ xs, p x = false := by
  have hle := indexfn_le xs p
  have hlt := indexfn_lt_iff xs p
  constructor
  · intro h x hx
    by_contra hp
    have : indexfn xs p < xs.length := hlt.2 ⟨x, hx, by simpa using hp⟩
    omega
  · intro h
    by_contra hne
    have : indexfn xs p < xs.length := by omega
    obtain ⟨x, hx, hp⟩ := hlt.1 this
    rw [h x hx] at hp
    cases hp

theorem indexfn_getElem? {α : Type} (xs : List α) (p : α → Bool) (h : indexfn xs p < xs.length) :
    ∃ x, xs[indexfn xs p]? = some x ∧ p x = true ∧
      ∀ j y, j < indexfn xs p → xs[j]? = some y → p y = false := by
  induction xs with
  | nil => simp [indexfn] at h
  | cons x xs ih =>
    simp only [indexfn] at h ⊢
    split_ifs at h ⊢ with hx
    · exact ⟨x, by simp, hx, by intro j y hj; omega⟩
    · obtain ⟨y, h1, h2, h3⟩ := ih (by simpa using h)
      refine ⟨y, by simpa using h1, h2, ?_⟩
      intro j z hj hz
      cases j with
      | zero =>
        simp only [List.getElem?_cons_zero, Option.some.injEq] at hz
        subst hz
        simpa using hx
      | succ j =>
        simp only [List.getElem?_cons_succ] at hz
        exact h3 j z (by omega) hz

theorem indexfn_modify {α : Type} (xs : List α) (p : α → Bool) (f : α → α)
    (hf : ∀ x, p (f x) = p x) (k : Nat) : indexfn (xs.modify f k) p = indexfn xs p := by
  induction xs generalizing k with
  | nil => simp
  | cons x xs ih =>
    cases k with
    | zero => simp [indexfn, hf]
    | succ k =>
      rw [List.modify_succ_cons]
      simp only [indexfn, ih]

theorem indexfn_append_new {α : Type} (xs : List α) (p : α → Bool) (c : α)
    (h : ∀ x ∈ xs, p x = false) (hc : p c = true) : indexfn (xs ++ [c]) p = xs.length := by
  induction xs with
  | nil => simp [indexfn, hc]
  | cons x xs ih =>
    have hx : p x = false := h x (List.mem_cons_self x xs)
    simp [indexfn, hx, ih (fun y hy => h y (List.mem_cons_of_mem x hy))]

theorem learn_of_ok (impl : Impl) (state : ChemicalState) (conditions : EquilibriumConditions)
    (res : EquilibriumResult)
    (h : (impl.solver.solve state impl.sensitivity conditions).result = Except.ok res) :
    impl.learn state conditions =
      (Except.ok (),
        { impl with
          log := impl.log ++ [Event.learn, Event.exactSolve]
          sensitivity := (impl.solver.solve state impl.sensitivity conditions).sensitivity
          result := { impl.result with learning := { solve := res } }
          database := impl.database.store
            (impl.solver.solve state impl.sensitivity conditions).state.iprimary
            (learnedRecord (impl.solver.solve state impl.sensitivity conditions).state conditions
              (impl.solver.solve state impl.sensitivity conditions).sensitivity) },
        (impl.solver.solve state impl.sensitivity conditions).state) := by
  unfold Impl.learn
  simp only [h]
  rfl

theorem learn_of_error (impl : Impl) (state : ChemicalState) (conditions : EquilibriumConditions)
    (e : String)
    (h : (impl.solver.solve state impl.sensitivity conditions).result = Except.error e) :
    impl.learn state conditions =
      (Except.error e,
        { impl with
          log := impl.log ++ [Event.learn, Event.exactSolve]
          sensitivity := (impl.solver.solve state impl.sensitivity conditions).sensitivity },
        (impl.solver.solve state impl.sensitivity conditions).state) := by
  unfold Impl.learn
  simp only [h]

theorem learn_ok_iff (impl : Impl) (state : ChemicalState) (conditions : EquilibriumConditions) :
    (impl.learn state conditions).1 = Except.ok () ↔
      ∃ res, (impl.solver.solve state impl.sensitivity conditions).result = Except.ok res := by
  cases h : (impl.solver.solve state impl.sensitivity conditions).result with
  | error e => simp [learn_of_error impl state conditions e h]
  | ok res => simp [learn_of_ok impl state conditions res h]

theorem learn_state (impl : Impl) (state : ChemicalState) (conditions : EquilibriumConditions) :
    (impl.learn state conditions).2.2
      = (impl.solver.solve state impl.sensitivity conditions).state := by
  cases h : (impl.solver.solve state impl.sensitivity conditions).result with
  | error e => rw [learn_of_error impl state conditions e h]
  | ok res => rw [learn_of_ok impl state conditions res h]

theorem learn_database (impl : Impl) (state : ChemicalState) (conditions : EquilibriumConditions) :
    (impl.learn state conditions).2.1.database = impl.database ∨
      ∃ iprimary record,
        (impl.learn state conditions).2.1.database = impl.database.store iprimary record := by
  cases h : (impl.solver.solve state impl.sensitivity conditions).result with
  | error e => left; rw [learn_of_error impl state conditions e h]
  | ok res => right; rw [learn_of_ok impl state conditions res h]; exact ⟨_, _, rfl⟩

theorem predict_database (impl : Impl) (state : ChemicalState) (conditions : EquilibriumConditions) :
    (impl.predict state conditions).1.database = impl.database ∨
      ∃ icluster jcluster irecord,
        (impl.predict state conditions).1.database
          = impl.database.priorityUpdate icluster jcluster irecord := by
  by_cases hne : impl.database.clusters = []
  · left; rw [predict_of_empty impl state conditions hne]
  · cases hf : (flatSearch (impl.query state conditions) (impl.visits state) state).found with
    | none => left; exact predict_database_of_none impl state conditions hne hf
    | some p => right; exact ⟨_, _, _, predict_database_of_some impl state conditions hne p hf⟩

theorem solve_database (impl : Impl) (state : ChemicalState) (conditions : EquilibriumConditions) :
    (impl.solve state conditions).2.1.database = impl.database ∨
      (impl.solve state conditions).2.1.database
        = (impl.resetResult.predict state conditions).1.database ∨
      (impl.solve state conditions).2.1.database
        = ((impl.resetResult.predict state conditions).1.learn
            (impl.resetResult.predict state conditions).2 conditions).2.1.database := by
  unfold Impl.solve
  by_cases hfin : conditions.allFinite = true
  · simp only [hfin, Bool.not_true, Bool.false_eq_true, if_false]
    by_cases hacc : (impl.resetResult.predict state conditions).1.result.prediction.accepted = true
    · right; left
      simp [hacc]
    · right; right
      simp only [hacc, Bool.not_false, if_true]
      split <;> simp_all
  · left
    simp [hfin, Impl.resetResult]

/-- Induction over the reachable solver objects for a property of the database. -/
theorem Reachable.database_induction (P : Database → Prop) (h0 : P Database.empty)
    (hstore : ∀ db iprimary record, P db → P (db.store iprimary record))
    (hupdate : ∀ db icluster jcluster irecord, P db → P (db.priorityUpdate icluster jcluster irecord))
    (impl : Impl) (h : Reachable impl) : P impl.database := by
  have hlearn : ∀ (i : Impl) s c, P i.database → P (i.learn s c).2.1.database := by
    intro i s c hi
    rcases learn_database i s c with h1 | ⟨ip, r, h1⟩
    · rw [h1]; exact hi
    · rw [h1]; exact hstore _ _ _ hi
  have hpredict : ∀ (i : Impl) s c, P i.database → P (i.predict s c).1.database := by
    intro i s c hi
    rcases predict_database i s c with h1 | ⟨a, b, r, h1⟩
    · rw [h1]; exact hi
    · rw [h1]; exact hupdate _ _ _ _ hi
  induction h with
  | empty impl h => rw [h]; exact h0
  | learn impl s c _ ih => exact hlearn impl s c ih
  | predict impl s c _ ih => exact hpredict impl s c ih
  | solve impl s c _ ih =>
    have hreset : P impl.resetResult.database := ih
    rcases solve_database impl s c with h1 | h1 | h1
    · rw [h1]; exact ih
    · rw [h1]; exact hpredict _ s c hreset
    · rw [h1]; exact hlearn _ _ c (hpredict _ s c hreset)

theorem store_of_found (db : Database) (iprimary : List Nat) (record : Record)
    (h : indexfn db.clusters (fun cluster => decide (cluster.label = detail.hash iprimary))
      < db.clusters.length) :
    db.store iprimary record =
      { db with
        clusters := db.clusters.modify
          (fun cluster =>
            { cluster with records := cluster.records ++ [record], priority := cluster.priority.extend })
          (indexfn db.clusters (fun cluster => decide (cluster.label = detail.hash iprimary))) } := by
  unfold Database.store
  simp only [h, if_true]

theorem store_of_new (db : Database) (iprimary : List Nat) (record : Record)
    (h : ¬ indexfn db.clusters (fun cluster => decide (cluster.label = detail.hash iprimary))
      < db.clusters.length) :
    db.store iprimary record =
      { clusters := db.clusters ++
          [{ iprimary := iprimary, label := detail.hash iprimary, records := [record]
             priority := { priorities := [0] } }]
        connectivity := db.connectivity.extend
        priority := db.priority.extend } := by
  unfold Database.store
  simp only [h, if_false]
  rfl

theorem sum_map_modify {α : Type} (l : List α) (f : α → α) (g : α → Nat) (k : Nat)
    (hk : k < l.length) (hg : ∀ x, g (f x) = g x + 1) :
    ((l.modify f k).map g).sum = (l.map g).sum + 1 := by
  induction l generalizing k with
  | nil => simp at hk
  | cons x xs ih =>
    cases k with
    | zero => simp [hg]; omega
    | succ k =>
      rw [List.modify_succ_cons]
      simp only [List.map_cons, List.sum_cons, ih k (by simpa using hk)]
      omega

theorem store_totalRecords (db : Database) (iprimary : List Nat) (record : Record) :
    (db.store iprimary record).totalRecords = db.totalRecords + 1 := by
  by_cases h : indexfn db.clusters (fun cluster => decide (cluster.label = detail.hash iprimary))
      < db.clusters.length
  · rw [store_of_found db iprimary record h]
    exact sum_map_modify _ _ _ _ h (by intro x; simp)
  · rw [store_of_new db iprimary record h]
    simp [Database.totalRecords]

theorem store_length (db : Database) (iprimary : List Nat) (record : Record) :
    (db.store iprimary record).clusters.length
      = if indexfn db.clusters (fun cluster => decide (cluster.label = detail.hash iprimary))
          < db.clusters.length then db.clusters.length else db.clusters.length + 1 := by
  by_cases h : indexfn db.clusters (fun cluster => decide (cluster.label = detail.hash iprimary))
      < db.clusters.length
  · rw [store_of_found db iprimary record h]
    simp [h]
  · rw [store_of_new db iprimary record h]
    simp [h]

theorem map_label_modify (clusters : List Cluster) (k : Nat) (f : Cluster → Cluster)
    (hf : ∀ c, (f c).label = c.label) :
    (clusters.modify f k).map Cluster.label = clusters.map Cluster.label := by
  induction clusters generalizing k with
  | nil => simp
  | cons x xs ih =>
    cases k with
    | zero => simp [hf]
    | succ k =>
      rw [List.modify_succ_cons]
      simp only [List.map_cons, ih]

theorem store_labels_nodup (db : Database) (iprimary : List Nat) (record : Record)
    (hdb : (db.clusters.map Cluster.label).Nodup) :
    ((db.store iprimary record).clusters.map Cluster.label).Nodup := by
  by_cases h : indexfn db.clusters (fun cluster => decide (cluster.label = detail.hash iprimary))
      < db.clusters.length
  · rw [store_of_found db iprimary record h]
    have hmap := map_label_modify db.clusters
      (indexfn db.clusters (fun cluster => decide (cluster.label = detail.hash iprimary)))
      (fun cluster =>
        { cluster with records := cluster.records ++ [record], priority := cluster.priority.extend })
      (fun c => rfl)
    simp only [hmap]
    exact hdb
  · rw [store_of_new db iprimary record h]
    have hnone := (indexfn_eq_length_iff _ _).1
      (Nat.le_antisymm (indexfn_le _ _) (Nat.not_lt.mp h))
    simp only [List.map_append, List.map_cons, List.map_nil]
    rw [List.nodup_append]
    refine ⟨hdb, List.nodup_singleton _, ?_⟩
    intro a ha hb
    simp only [List.mem_singleton] at hb
    subst hb
    obtain ⟨c, hc, hlabel⟩ := List.mem_map.mp ha
    have := hnone c hc
    simp [hlabel] at this

theorem priorityUpdate_labels (db : Database) (icluster jcluster irecord : Nat) :
    (db.priorityUpdate icluster jcluster irecord).clusters.map Cluster.label
      = db.clusters.map Cluster.label := by
  simp only [Database.priorityUpdate]
  exact map_label_modify db.clusters jcluster
    (fun cluster => { cluster with priority := cluster.priority.increment irecord }) (fun c => rfl)

theorem store_keeps_clusters (db : Database) (iprimary : List Nat) (record : Record) (i : Nat)
    (cluster : Cluster) (hi : db.clusters[i]? = some cluster) :
    ∃ cluster2, (db.store iprimary record).clusters[i]? = some cluster2 ∧
      cluster2.label = cluster.label ∧ cluster2.iprimary = cluster.iprimary ∧
      cluster.records <+: cluster2.records := by
  by_cases h : indexfn db.clusters (fun cluster => decide (cluster.label = detail.hash iprimary))
      < db.clusters.length
  · rw [store_of_found db iprimary record h]
    simp only [List.getElem?_modify, hi, Option.map_eq_map, Option.map_some']
    by_cases hk : indexfn db.clusters
        (fun cluster => decide (cluster.label = detail.hash iprimary)) = i
    · exact ⟨{ cluster with
                records := cluster.records ++ [record], priority := cluster.priority.extend },
        by simp [hk], rfl, rfl, List.prefix_append _ _⟩
    · exact ⟨cluster, by simp [hk], rfl, rfl, List.prefix_refl _⟩
  · rw [store_of_new db iprimary record h]
    have hlt : i < db.clusters.length := by
      by_contra hge
      rw [List.getElem?_eq_none (Nat.not_lt.mp hge)] at hi
      cases hi
    exact ⟨cluster, by simp [List.getElem?_append_left hlt, hi], rfl, rfl, List.prefix_refl _⟩

theorem store_store (db : Database) (iprimary : List Nat) (r1 r2 : Record) :
    ((db.store iprimary r1).store iprimary r2).clusters.length
        = (db.store iprimary r1).clusters.length ∧
      ∃ cluster1 cluster2 old,
        (db.store iprimary r1).clusters[indexfn db.clusters
            (fun cluster => decide (cluster.label = detail.hash iprimary))]? = some cluster1 ∧
        ((db.store iprimary r1).store iprimary r2).clusters[indexfn db.clusters
            (fun cluster => decide (cluster.label = detail.hash iprimary))]? = some cluster2 ∧
        cluster1.records = old ++ [r1] ∧ cluster2.records = old ++ [r1, r2] ∧
        cluster1.label = detail.hash iprimary ∧ cluster2.label = detail.hash iprimary := by
  by_cases h : indexfn db.clusters (fun cluster => decide (cluster.label = detail.hash iprimary))
      < db.clusters.length
  · obtain ⟨c, hc, hp, _⟩ := indexfn_getElem? _ _ h
    have hlabel : c.label = detail.hash iprimary := by simpa using hp
    have h1 := store_of_found db iprimary r1 h
    have hidx : indexfn (db.store iprimary r1).clusters
        (fun cluster => decide (cluster.label = detail.hash iprimary))
        = indexfn db.clusters (fun cluster => decide (cluster.label = detail.hash iprimary)) := by
      rw [h1]
      exact indexfn_modify db.clusters
        (fun cluster => decide (cluster.label = detail.hash iprimary))
        (fun cluster =>
          { cluster with records := cluster.records ++ [r1], priority := cluster.priority.extend })
        (fun x => rfl) _
    have hlen : (db.store iprimary r1).clusters.length = db.clusters.length := by
      rw [h1]; simp
    have h2 := store_of_found (db.store iprimary r1) iprimary r2 (by rw [hidx, hlen]; exact h)
    rw [hidx] at h2
    refine ⟨by rw [h2]; simp, ?_⟩
    have hc1 : (db.store iprimary r1).clusters[indexfn db.clusters
        (fun cluster => decide (cluster.label = detail.hash iprimary))]?
        = some { c with records := c.records ++ [r1], priority := c.priority.extend } := by
      rw [h1]
      simp [List.getElem?_modify, hc]
    refine ⟨{ c with records := c.records ++ [r1], priority := c.priority.extend },
      { c with records := (c.records ++ [r1]) ++ [r2], priority := c.priority.extend.extend },
      c.records, hc1, ?_, rfl, ?_, hlabel, hlabel⟩
    · rw [h2]
      simp only [List.getElem?_modify, hc1, Option.map_eq_map, Option.map_some', if_true]
    · simp
  · have hk : indexfn db.clusters (fun cluster => decide (cluster.label = detail.hash iprimary))
        = db.clusters.length := Nat.le_antisymm (indexfn_le _ _) (Nat.not_lt.mp h)
    have hnone := (indexfn_eq_length_iff _ _).1 hk
    have h1 := store_of_new db iprimary r1 h
    have hidx : indexfn (db.store iprimary r1).clusters
        (fun cluster => decide (cluster.label = detail.hash iprimary)) = db.clusters.length := by
      rw [h1]
      exact indexfn_append_new _ _ _ hnone (by simp)
    have hlen : (db.store iprimary r1).clusters.length = db.clusters.length + 1 := by
      rw [h1]; simp
    have h2 := store_of_found (db.store iprimary r1) iprimary r2 (by rw [hidx, hlen]; omega)
    rw [hidx] at h2
    refine ⟨by rw [h2]; simp, ?_⟩
    rw [hk]
    have hc1 : (db.store iprimary r1).clusters[db.clusters.length]?
        = some { iprimary := iprimary, label := detail.hash iprimary, records := [r1]
                 priority := { priorities := [0] } } := by
      rw [h1]
      simp
    refine ⟨{ iprimary := iprimary, label := detail.hash iprimary, records := [r1]
              priority := { priorities := [0] } },
      { iprimary := iprimary, label := detail.hash iprimary, records := [r1] ++ [r2]
        priority := PriorityQueue.extend { priorities := [0] } },
      [], hc1, ?_, rfl, ?_, rfl, rfl⟩
    · rw [h2]
      simp only [List.getElem?_modify, hc1, Option.map_eq_map, Option.map_some', if_true]
    · simp

theorem map_modify_invariant {α β : Type} (l : List α) (k : Nat) (f : α → α) (g : α → β)
    (h : ∀ x, g (f x) = g x) : (l.modify f k).map g = l.map g := by
  induction l generalizing k with
  | nil => simp
  | cons x xs ih =>
    cases k with
    | zero => simp [h]
    | succ k =>
      rw [List.modify_succ_cons]
      simp only [List.map_cons, ih]

theorem predict_solver (impl : Impl) (state : ChemicalState) (conditions : EquilibriumConditions) :
    (impl.predict state conditions).1.solver = impl.solver ∧
      (impl.predict state conditions).1.sensitivity = impl.sensitivity := by
  by_cases hne : impl.database.clusters = []
  · rw [predict_of_empty impl state conditions hne]
    exact ⟨rfl, rfl⟩
  · rw [predict_eq_flatSearch impl state conditions hne]
    split <;> exact ⟨rfl, rfl⟩

/-! ## The claims on `learn` and on the database -/

/-- C12: after `learn` completes (the exact solver returned), the total number of
records over all clusters is exactly one more than before, and the number of
clusters is unchanged or exactly one more than before. -/
theorem learn_adds_exactly_one_record (impl : Impl) (state : ChemicalState)
    (conditions : EquilibriumConditions)
    (hcompletes : (impl.learn state conditions).1 = Except.ok ()) :
    (impl.learn state conditions).2.1.database.totalRecords = impl.database.totalRecords + 1 ∧
      ((impl.learn state conditions).2.1.database.clusters.length = impl.database.clusters.length ∨
        (impl.learn state conditions).2.1.database.clusters.length
          = impl.database.clusters.length + 1) := by
  obtain ⟨res, hres⟩ := (learn_ok_iff impl state conditions).1 hcompletes
  rw [learn_of_ok impl state conditions res hres]
  refine ⟨store_totalRecords _ _ _, ?_⟩
  simp only [store_length]
  split_ifs
  · exact Or.inl rfl
  · exact Or.inr rfl

/-- C12, at a concrete input: the first `learn` of a solver with the empty database. -/
theorem learn_adds_exactly_one_record_witness :
    (demoImpl.learn demoState demoConditions).1 = Except.ok () ∧
      (demoImpl.learn demoState demoConditions).2.1.database.totalRecords
        = demoImpl.database.totalRecords + 1 :=
  ⟨(learn_ok_iff demoImpl demoState demoConditions).2 ⟨_, rfl⟩,
    (learn_adds_exactly_one_record demoImpl demoState demoConditions
      ((learn_ok_iff demoImpl demoState demoConditions).2 ⟨_, rfl⟩)).1⟩

/-- C13: in every database reachable from the empty database by calls of `learn`,
`predict` and `solve`, no two distinct clusters have the same label. -/
theorem reachable_labels_pairwise_distinct (impl : Impl) (hreachable : Reachable impl) :
    ∀ (i j : Nat) (ci cj : Cluster), impl.database.clusters[i]? = some ci →
      impl.database.clusters[j]? = some cj → i ≠ j → ci.label ≠ cj.label := by
  have hnodup : (impl.database.clusters.map Cluster.label).Nodup :=
    Reachable.database_induction (fun db => (db.clusters.map Cluster.label).Nodup)
      (by simp [Database.empty])
      (fun db ip r h => store_labels_nodup db ip r h)
      (fun db a b r h => by simpa only [priorityUpdate_labels] using h)
      impl hreachable
  intro i j ci cj hi hj hij heq
  have hinj := List.nodup_iff_getElem?_ne_getElem?.1 hnodup
  have hi2 : (impl.database.clusters.map Cluster.label)[i]? = some ci.label := by simp [hi]
  have hj2 : (impl.database.clusters.map Cluster.label)[j]? = some cj.label := by simp [hj]
  have hjlt : j < (impl.database.clusters.map Cluster.label).length := by
    by_contra hge
    rw [List.getElem?_eq_none (Nat.not_lt.mp hge)] at hj2
    cases hj2
  have hilt : i < (impl.database.clusters.map Cluster.label).length := by
    by_contra hge
    rw [List.getElem?_eq_none (Nat.not_lt.mp hge)] at hi2
    cases hi2
  rcases Nat.lt_or_gt_of_ne hij with hlt | hgt
  · exact hinj i j hlt hjlt (by rw [hi2, hj2, heq])
  · exact hinj j i hgt hilt (by rw [hi2, hj2, heq])

/-- C13, at a concrete input: the database after `learn` on a state with the index
set `[1]` and `learn` on a state with the empty index set holds two clusters, and
their labels differ. -/
theorem reachable_labels_pairwise_distinct_witness :
    Reachable ((demoImpl.learn demoState demoConditions).2.1.learn emptyKeyState
        demoConditions).2.1 ∧
      ((demoImpl.learn demoState demoConditions).2.1.learn emptyKeyState
        demoConditions).2.1.database.clusters.map Cluster.iprimary = [[1], []] ∧
      ∀ ci cj : Cluster,
        ((demoImpl.learn demoState demoConditions).2.1.learn emptyKeyState
            demoConditions).2.1.database.clusters[0]? = some ci →
        ((demoImpl.learn demoState demoConditions).2.1.learn emptyKeyState
            demoConditions).2.1.database.clusters[1]? = some cj →
        ci.label ≠ cj.label :=
  ⟨Reachable.learn _ _ _ (Reachable.learn _ _ _ (Reachable.empty demoImpl rfl)), by decide,
    fun ci cj hi hj => reachable_labels_pairwise_distinct _
      (Reachable.learn _ _ _ (Reachable.learn _ _ _ (Reachable.empty demoImpl rfl)))
      0 1 ci cj hi hj (by decide)⟩

/-- C14, as stated, fails: the exact solver returns a result that reports failure,
and `learn` completes, hands that result to the caller and stores a record: the
database, empty before, holds one cluster with one record, and both ranking
structures of the database were extended. -/
theorem learn_stores_record_of_failed_solve :
    (unconvergedImpl.solver.solve demoState unconvergedImpl.sensitivity demoConditions).result
        = Except.ok { succeeded := false, iterations := 100 } ∧
      (unconvergedImpl.learn demoState demoConditions).1 = Except.ok () ∧
      (unconvergedImpl.learn demoState demoConditions).2.1.result.learning.solve.succeeded
        = false ∧
      unconvergedImpl.database.clusters.length = 0 ∧
      unconvergedImpl.database.totalRecords = 0 ∧
      (unconvergedImpl.learn demoState demoConditions).2.1.database.clusters.length = 1 ∧
      (unconvergedImpl.learn demoState demoConditions).2.1.database.totalRecords = 1 ∧
      (unconvergedImpl.learn demoState demoConditions).2.1.database.priority.priorities = [0] ∧
      (unconvergedImpl.learn demoState demoConditions).2.1.database.connectivity.rows = [[0]] :=
  ⟨rfl, rfl, rfl, rfl, rfl, rfl, rfl, rfl, rfl⟩

/-- C14, amended: if the exact solver's `solve` throws inside `learn`, the error is
what `learn` returns and the database is the one held before; when `learn` was
called by `solve` after a rejected prediction, `solve` returns the same error and
the database is still the one held before the call.  When the exact solver
returns, `learn` does not inspect the result: it hands it to the caller in
`result.learning.solve` and stores the record of the returned state, the same
record for every result. -/
theorem learn_propagates_solver_failure (impl : Impl) (state : ChemicalState)
    (conditions : EquilibriumConditions) :
    (∀ e : String,
      (impl.solver.solve state impl.sensitivity conditions).result = Except.error e →
      (impl.learn state conditions).1 = Except.error e ∧
        (impl.learn state conditions).2.1.database = impl.database ∧
        (∀ (query : ChemicalState),
          conditions.allFinite = true →
          (impl.resetResult.predict query conditions).1.result.prediction.accepted = false →
          (impl.resetResult.predict query conditions).2 = state →
          (impl.solve query conditions).1 = Except.error e ∧
            (impl.solve query conditions).2.1.database = impl.database)) ∧
      (∀ res : EquilibriumResult,
        (impl.solver.solve state impl.sensitivity conditions).result = Except.ok res →
        (impl.learn state conditions).1 = Except.ok () ∧
          (impl.learn state conditions).2.1.result.learning.solve = res ∧
          (impl.learn state conditions).2.1.database
            = impl.database.store
                (impl.solver.solve state impl.sensitivity conditions).state.iprimary
                (learnedRecord (impl.solver.solve state impl.sensitivity conditions).state
                  conditions
                  (impl.solver.solve state impl.sensitivity conditions).sensitivity)) := by
  constructor
  · intro e hfails
    refine ⟨by rw [learn_of_error impl state conditions e hfails],
      by rw [learn_of_error impl state conditions e hfails], ?_⟩
    intro query hfin hrej hstate
    have hsolver := predict_solver impl.resetResult query conditions
    have hfails2 : ((impl.resetResult.predict query conditions).1.solver.solve
        (impl.resetResult.predict query conditions).2
        (impl.resetResult.predict query conditions).1.sensitivity conditions).result
        = Except.error e := by
      rw [hsolver.1, hsolver.2, hstate]
      exact hfails
    have hlearn := learn_of_error _ _ conditions e hfails2
    have hdb := predict_rejected_database impl.resetResult query conditions hrej
    unfold Impl.solve
    simp only [hfin, Bool.not_true, Bool.false_eq_true, if_false, hrej, Bool.not_false, if_true,
      hlearn]
    exact ⟨trivial, hdb⟩
  · intro res hres
    rw [learn_of_ok impl state conditions res hres]
    exact ⟨rfl, rfl, rfl⟩

/-- C14 amended, at a concrete input: `learn` with the exact solver that throws. -/
theorem learn_propagates_solver_failure_witness :
    (failingImpl.solver.solve demoState failingImpl.sensitivity demoConditions).result
        = Except.error "no convergence" ∧
      (failingImpl.learn demoState demoConditions).1 = Except.error "no convergence" ∧
      (failingImpl.learn demoState demoConditions).2.1.database = demoDatabase :=
  ⟨rfl,
    ((learn_propagates_solver_failure failingImpl demoState demoConditions).1
      "no convergence" rfl).1,
    ((learn_propagates_solver_failure failingImpl demoState demoConditions).1
      "no convergence" rfl).2.1⟩

/-- C15: two calls of `learn` in succession whose exact solves yield the same
primary-species index sequence append both new records to one and the same
cluster: after the first call the new record is the last record of the cluster at
index `k`, the second call appends its record to that cluster, and it creates no
new cluster. -/
theorem learn_twice_appends_to_same_cluster (impl : Impl) (state1 state2 : ChemicalState)
    (conditions1 conditions2 : EquilibriumConditions)
    (hfirst : (impl.learn state1 conditions1).1 = Except.ok ())
    (hsecond : ((impl.learn state1 conditions1).2.1.learn state2 conditions2).1 = Except.ok ())
    (hsame : ((impl.learn state1 conditions1).2.1.learn state2 conditions2).2.2.iprimary
      = (impl.learn state1 conditions1).2.2.iprimary) :
    ((impl.learn state1 conditions1).2.1.learn state2 conditions2).2.1.database.clusters.length
        = (impl.learn state1 conditions1).2.1.database.clusters.length ∧
      ∃ (k : Nat) (cluster1 cluster2 : Cluster) (old : List Record),
        (impl.learn state1 conditions1).2.1.database.clusters[k]? = some cluster1 ∧
        ((impl.learn state1 conditions1).2.1.learn state2
            conditions2).2.1.database.clusters[k]? = some cluster2 ∧
        cluster1.records
          = old ++ [learnedRecord (impl.learn state1 conditions1).2.2 conditions1
              (impl.learn state1 conditions1).2.1.sensitivity] ∧
        cluster2.records
          = old ++ [learnedRecord (impl.learn state1 conditions1).2.2 conditions1
              (impl.learn state1 conditions1).2.1.sensitivity,
            learnedRecord ((impl.learn state1 conditions1).2.1.learn state2 conditions2).2.2
              conditions2
              ((impl.learn state1 conditions1).2.1.learn state2 conditions2).2.1.sensitivity] ∧
        cluster1.label = detail.hash (impl.learn state1 conditions1).2.2.iprimary ∧
        cluster2.label = cluster1.label := by
  obtain ⟨res1, hres1⟩ := (learn_ok_iff impl state1 conditions1).1 hfirst
  have hl1 := learn_of_ok impl state1 conditions1 res1 hres1
  rw [hl1] at hsecond hsame ⊢
  simp only at hsecond hsame ⊢
  obtain ⟨res2, hres2⟩ := (learn_ok_iff _ state2 conditions2).1 hsecond
  have hl2 := learn_of_ok _ state2 conditions2 res2 hres2
  simp only at hl2
  rw [hl2] at hsame ⊢
  simp only at hsame ⊢
  rw [hsame]
  obtain ⟨hlen, c1, c2, old, h1, h2, h3, h4, h5, h6⟩ := store_store impl.database
    (impl.solver.solve state1 impl.sensitivity conditions1).state.iprimary
    (learnedRecord (impl.solver.solve state1 impl.sensitivity conditions1).state conditions1
      (impl.solver.solve state1 impl.sensitivity conditions1).sensitivity)
    (learnedRecord
      (impl.solver.solve state2 (impl.solver.solve state1 impl.sensitivity conditions1).sensitivity
        conditions2).state conditions2
      (impl.solver.solve state2 (impl.solver.solve state1 impl.sensitivity conditions1).sensitivity
        conditions2).sensitivity)
  exact ⟨hlen, _, c1, c2, old, h1, h2, h3, h4, h5, h6.trans h5.symm⟩

/-- C15, at a concrete input: the same query learned twice by a solver with the
empty database. -/
theorem learn_twice_appends_to_same_cluster_witness :
    (demoImpl.learn demoState demoConditions).1 = Except.ok () ∧
      ((demoImpl.learn demoState demoConditions).2.1.learn demoState demoConditions).1
        = Except.ok () ∧
      ((demoImpl.learn demoState demoConditions).2.1.learn demoState
          demoConditions).2.1.database.clusters.length
        = (demoImpl.learn demoState demoConditions).2.1.database.clusters.length :=
  ⟨(learn_ok_iff demoImpl demoState demoConditions).2 ⟨_, rfl⟩,
    (learn_ok_iff _ demoState demoConditions).2 ⟨_, rfl⟩,
    (learn_twice_appends_to_same_cluster demoImpl demoState demoState demoConditions demoConditions
      ((learn_ok_iff demoImpl demoState demoConditions).2 ⟨_, rfl⟩)
      ((learn_ok_iff _ demoState demoConditions).2 ⟨_, rfl⟩) rfl).1⟩

/-- C16: `learn` keeps every existing cluster at its index with its label, its
index sequence and its records, the old record list being a prefix of the new
one; `predict` changes neither the number, the order, the labels, the index
sequences nor the records of the clusters. -/
theorem learn_and_predict_keep_stored_data (impl : Impl) (state : ChemicalState)
    (conditions : EquilibriumConditions) :
    (∀ (i : Nat) (cluster : Cluster), impl.database.clusters[i]? = some cluster →
      ∃ cluster2, (impl.learn state conditions).2.1.database.clusters[i]? = some cluster2 ∧
        cluster2.label = cluster.label ∧ cluster2.iprimary = cluster.iprimary ∧
        cluster.records <+: cluster2.records) ∧
    (impl.predict state conditions).1.database.clusters.length = impl.database.clusters.length ∧
    (impl.predict state conditions).1.database.clusters.map Cluster.label
      = impl.database.clusters.map Cluster.label ∧
    (impl.predict state conditions).1.database.clusters.map Cluster.iprimary
      = impl.database.clusters.map Cluster.iprimary ∧
    (impl.predict state conditions).1.database.clusters.map Cluster.records
      = impl.database.clusters.map Cluster.records := by
  refine ⟨?_, ?_⟩
  · intro i cluster hi
    rcases learn_database impl state conditions with h | ⟨ip, r, h⟩
    · rw [h]
      exact ⟨cluster, hi, rfl, rfl, List.prefix_refl _⟩
    · rw [h]
      exact store_keeps_clusters impl.database ip r i cluster hi
  · rcases predict_database impl state conditions with h | ⟨a, b, r, h⟩
    · rw [h]
      exact ⟨rfl, rfl, rfl, rfl⟩
    · rw [h]
      simp only [Database.priorityUpdate, List.length_modify]
      exact ⟨trivial,
        map_modify_invariant impl.database.clusters b
          (fun cluster => { cluster with priority := cluster.priority.increment r })
          Cluster.label (fun c => rfl),
        map_modify_invariant impl.database.clusters b
          (fun cluster => { cluster with priority := cluster.priority.increment r })
          Cluster.iprimary (fun c => rfl),
        map_modify_invariant impl.database.clusters b
          (fun cluster => { cluster with priority := cluster.priority.increment r })
          Cluster.records (fun c => rfl)⟩

/-! ## The claims on the classification key -/

/-- C17: the key depends on the order of the indices, against the lookups of
`learn` and `predict`, which look for the cluster "with the same set of primary
species".  The sequences `[0, 1]` and `[1, 0]` list the same two indices and get
different keys; `learn` on a state with `[0, 1]` and then on a state with `[1, 0]`
ends with two clusters for the one set, and after the first `learn` the starting
cluster of a query with `[1, 0]` is the number of clusters: no cluster is found. -/
theorem learn_splits_one_index_set_by_order :
    [0, 1].Perm [1, 0] ∧ [0, 1].Nodup ∧ detail.hash [0, 1] = 175247760691 ∧
      detail.hash [1, 0] = 175247760511 ∧ detail.hash [0, 1] ≠ detail.hash [1, 0] ∧
      ((demoImpl.learn pairState demoConditions).2.1.learn pairStateSwapped
        demoConditions).2.1.database.clusters.map Cluster.iprimary = [[0, 1], [1, 0]] ∧
      (demoImpl.learn pairState demoConditions).2.1.database.clusters.map Cluster.iprimary
        = [[0, 1]] ∧
      (demoImpl.learn pairState demoConditions).2.1.startCluster pairStateSwapped = 1 := by
  decide

theorem mod_collision (x : Nat) (hlt : x < 18446744073709551616) :
    1 = (x + 2654435769 + 64) % 18446744073709551616 ↔ x = 18446744071055115784 := by
  constructor
  · intro h
    rcases Nat.lt_or_ge (x + 2654435769 + 64) 18446744073709551616 with hc | hc
    · rw [Nat.mod_eq_of_lt hc] at h
      omega
    · have hsub : (x + 2654435769 + 64) % 18446744073709551616
          = x + 2654435769 + 64 - 18446744073709551616 := by
        rw [Nat.mod_eq_sub_mod hc, Nat.mod_eq_of_lt (by omega)]
      rw [hsub] at h
      omega
  · intro h
    subst h
    norm_num

theorem hash_singleton (i : Nat) : detail.hash [i] = detail.combine 1 i := by
  unfold detail.hash
  rw [List.foldl_cons, List.foldl_nil, List.length_singleton,
    Nat.mod_eq_of_lt (by norm_num : 1 < 2 ^ 64)]

theorem hash_singleton_zero (i : Nat) :
    detail.hash [i] = 0 ↔ i % 2 ^ 64 = 18446744071055115784 := by
  rw [hash_singleton]
  unfold detail.combine detail.hasher
  rw [Nat.xor_eq_zero, Nat.shiftLeft_eq, Nat.shiftRight_eq_div_pow]
  have e1 : (1 : Nat) * 2 ^ 6 = 64 := by norm_num
  have e2 : (1 : Nat) / 2 ^ 2 = 0 := by norm_num
  have e3 : (2 : Nat) ^ 64 = 18446744073709551616 := by norm_num
  rw [e1, e2, e3, Nat.add_zero]
  exact mod_collision _ (Nat.mod_lt _ (by norm_num))

theorem xor_le_add (a : Nat) : ∀ b : Nat, a ^^^ b ≤ a + b := by
  induction a using Nat.strong_induction_on with
  | _ a ih =>
    intro b
    rcases Nat.eq_zero_or_pos a with h0 | hpos
    · subst h0
      simp
    · have hrec := ih (a / 2) (Nat.div_lt_self hpos (by norm_num)) (b / 2)
      have hdiv : (a ^^^ b) / 2 = a / 2 ^^^ b / 2 := Nat.xor_div_two
      have hmod : (a ^^^ b) % 2 = (a + b) % 2 := Nat.xor_mod_two_eq
      omega

theorem seedBound_no_wrap (k : Nat) (hk : k ≤ 5) :
    2 ^ 31 + 2654435769 + seedBound k * 64 + seedBound k / 4 < 2 ^ 64 := by
  interval_cases k <;> norm_num [seedBound]

theorem combine_seedBound (s i k : Nat) (hi : i < 2 ^ 31) (hs : s ≤ seedBound k) (hk : k ≤ 5) :
    detail.combine s i ≤ seedBound (k + 1) ∧ detail.combine s i ≠ 0 := by
  have hwrap := seedBound_no_wrap k hk
  have hterm : i + 2654435769 + s * 64 + s / 4 < 2 ^ 64 := by
    have h4 : s / 4 ≤ seedBound k / 4 := Nat.div_le_div_right hs
    omega
  have hmod : (i % 2 ^ 64 + 2654435769 + s * 2 ^ 6 + s / 2 ^ 2) % 2 ^ 64
      = i + 2654435769 + s * 64 + s / 4 := by
    have hi64 : i % 2 ^ 64 = i := Nat.mod_eq_of_lt (lt_trans hi (by norm_num))
    rw [hi64]
    exact Nat.mod_eq_of_lt hterm
  simp only [detail.combine, detail.hasher, Nat.shiftLeft_eq, Nat.shiftRight_eq_div_pow]
  rw [hmod]
  constructor
  · have hx := xor_le_add s (i + 2654435769 + s * 64 + s / 4)
    have h4 : s / 4 ≤ seedBound k / 4 := Nat.div_le_div_right hs
    simp only [seedBound]
    omega
  · intro hzero
    have := Nat.xor_eq_zero.mp hzero
    omega

theorem foldl_combine_seedBound (rest : List Nat) :
    ∀ (s k : Nat), (∀ i ∈ rest, i < 2 ^ 31) → s ≤ seedBound k → s ≠ 0 →
      k + rest.length ≤ 6 → rest.foldl detail.combine s ≠ 0 := by
  induction rest with
  | nil => intro s k _ _ hs0 _; simpa using hs0
  | cons i rest ih =>
    intro s k hall hs _ hlen
    simp only [List.length_cons] at hlen
    obtain ⟨h1, h2⟩ := combine_seedBound s i k (hall i (List.mem_cons_self i rest)) hs (by omega)
    simp only [List.foldl_cons]
    exact ih (detail.combine s i) (k + 1) (fun j hj => hall j (List.mem_cons_of_mem i hj)) h1 h2
      (by omega)

/-- C18, as stated, fails: the sequence of the eleven distinct indices
`42, 33, 55, 29, 15, 36, 40, 17, 6, 7, 32`, all below `56`, has the key `0` of the
empty sequence. -/
theorem hash_collides_with_empty_key :
    [42, 33, 55, 29, 15, 36, 40, 17, 6, 7, 32] ≠ ([] : List Nat) ∧
      [42, 33, 55, 29, 15, 36, 40, 17, 6, 7, 32].Nodup ∧
      (∀ i ∈ [42, 33, 55, 29, 15, 36, 40, 17, 6, 7, 32], i < 56) ∧
      detail.hash [] = 0 ∧
      detail.hash [42, 33, 55, 29, 15, 36, 40, 17, 6, 7, 32] = detail.hash [] := by
  decide

/-- C18, amended: `detail::hash` of the empty sequence is `0`, the initial seed
`vec.size()`; every non-empty sequence of at most six indices below `2 ^ 31` has a
key different from `0`, and a one-element sequence `[i]` has the key `0` exactly
when `i = 18446744071055115784` modulo `2 ^ 64`. -/
theorem hash_empty_key (l : List Nat) (i : Nat) :
    detail.hash [] = 0 ∧
      (detail.hash [i] = 0 ↔ i % 2 ^ 64 = 18446744071055115784) ∧
      (l ≠ [] → l.length ≤ 6 → (∀ j ∈ l, j < 2 ^ 31) → detail.hash l ≠ 0) := by
  refine ⟨rfl, ?_, ?_⟩
  · exact hash_singleton_zero i
  · intro hne hlen hall
    cases l with
    | nil => exact absurd rfl hne
    | cons j rest =>
      simp only [List.length_cons] at hlen
      have hseed : (j :: rest).length % 2 ^ 64 = rest.length + 1 := by
        simp only [List.length_cons]
        exact Nat.mod_eq_of_lt (lt_of_le_of_lt hlen (by norm_num))
      unfold detail.hash
      rw [hseed]
      exact foldl_combine_seedBound (j :: rest) (rest.length + 1) 0 hall
        (by simp only [seedBound]; omega) (by omega) (by simp only [List.length_cons]; omega)

/-! ## The claims on determinism and on the starting cluster -/

/-- C19: `predict` is a function of the database, the options, the input state and
the query: two solver objects that hold the same database and options (whatever
their earlier results, logs or other members) return, for the same state and
conditions, the same accepted flag, the same output state and the same updated
database. -/
theorem predict_deterministic (impl1 impl2 : Impl) (state : ChemicalState)
    (conditions : EquilibriumConditions) (hdatabase : impl1.database = impl2.database)
    (hoptions : impl1.options = impl2.options) :
    (impl1.predict state conditions).1.result.prediction.accepted
        = (impl2.predict state conditions).1.result.prediction.accepted ∧
      (impl1.predict state conditions).2 = (impl2.predict state conditions).2 ∧
      (impl1.predict state conditions).1.database = (impl2.predict state conditions).1.database := by
  by_cases hne : impl1.database.clusters = []
  · have hne2 : impl2.database.clusters = [] := by rw [← hdatabase]; exact hne
    rw [predict_of_empty impl1 state conditions hne, predict_of_empty impl2 state conditions hne2]
    exact ⟨rfl, rfl, hdatabase⟩
  · have hne2 : impl2.database.clusters ≠ [] := by rw [← hdatabase]; exact hne
    have hq : impl1.query state conditions = impl2.query state conditions := by
      simp [Impl.query, hoptions]
    have hv : impl1.visits state = impl2.visits state := by
      simp [Impl.visits, Impl.startCluster, hdatabase]
    have hs : impl1.startCluster state = impl2.startCluster state := by
      simp [Impl.startCluster, hdatabase]
    refine ⟨?_, ?_, ?_⟩
    · rw [predict_accepted_eq impl1 state conditions hne,
        predict_accepted_eq impl2 state conditions hne2, hq, hv]
    · rw [predict_state_eq impl1 state conditions hne,
        predict_state_eq impl2 state conditions hne2, hq, hv]
    · cases hf : (flatSearch (impl2.query state conditions) (impl2.visits state) state).found with
      | none =>
        rw [predict_database_of_none impl1 state conditions hne (by rw [hq, hv]; exact hf),
          predict_database_of_none impl2 state conditions hne2 hf]
        exact hdatabase
      | some p =>
        rw [predict_database_of_some impl1 state conditions hne p (by rw [hq, hv]; exact hf),
          predict_database_of_some impl2 state conditions hne2 p hf, hs, hdatabase]

/-- C19, at a concrete input: the same database held with different results and logs. -/
theorem predict_deterministic_witness :
    demoLearned.database = demoLearnedLater.database ∧
      demoLearned.options = demoLearnedLater.options ∧
      (demoLearned.predict demoState demoConditions).1.result.prediction.accepted
        = (demoLearnedLater.predict demoState demoConditions).1.result.prediction.accepted ∧
      (demoLearned.predict demoState demoConditions).2
        = (demoLearnedLater.predict demoState demoConditions).2 ∧
      (demoLearned.predict demoState demoConditions).1.database
        = (demoLearnedLater.predict demoState demoConditions).1.database :=
  ⟨rfl, rfl, predict_deterministic demoLearned demoLearnedLater demoState demoConditions rfl rfl⟩

theorem scan_none (clusters : List Cluster) (label : Nat) (order : List Nat)
    (h : ∀ k ∈ order, ∀ c, clusters[k]? = some c → c.label ≠ label) :
    scanStartingCluster clusters label order = none := by
  induction order with
  | nil => rfl
  | cons k rest ih =>
    have hrest := ih (fun j hj => h j (List.mem_cons_of_mem k hj))
    unfold scanStartingCluster
    cases hk : clusters[k]? with
    | none => exact hrest
    | some c =>
      have := h k (List.mem_cons_self k rest) c hk
      simp [this, hrest]

theorem scan_first (clusters : List Cluster) (label : Nat) (pre : List Nat) (i : Nat)
    (post : List Nat) (cluster : Cluster)
    (hpre : ∀ k ∈ pre, ∀ c, clusters[k]? = some c → c.label ≠ label)
    (hi : clusters[i]? = some cluster) (hlabel : cluster.label = label) :
    scanStartingCluster clusters label (pre ++ i :: post) = some i := by
  induction pre with
  | nil =>
    rw [List.nil_append]
    unfold scanStartingCluster
    simp [hi, hlabel]
  | cons k rest ih =>
    have hrest := ih (fun j hj => hpre j (List.mem_cons_of_mem k hj))
    rw [List.cons_append]
    unfold scanStartingCluster
    cases hk : clusters[k]? with
    | none => exact hrest
    | some c =>
      have := hpre k (List.mem_cons_self k rest) c hk
      simp [this, hrest]

/-- C20: the starting-cluster lookup returns the sentinel `database.clusters.size()`
when the query's index set is empty, whatever the labels of the clusters;
otherwise it returns the first index of the database priority order whose cluster
has the label `hash(iprimary)`; and it returns the sentinel when no cluster has
that label. -/
theorem index_starting_cluster_lookup (database : Database) (iprimary : List Nat) :
    (iprimary = [] →
      index_starting_cluster database iprimary (detail.hash iprimary) = database.clusters.length) ∧
    (iprimary ≠ [] →
      ∀ (pre : List Nat) (i : Nat) (post : List Nat) (cluster : Cluster),
        database.priority.order = pre ++ i :: post →
        database.clusters[i]? = some cluster → cluster.label = detail.hash iprimary →
        (∀ k ∈ pre, ∀ c, database.clusters[k]? = some c → c.label ≠ detail.hash iprimary) →
        index_starting_cluster database iprimary (detail.hash iprimary) = i) ∧
    (iprimary ≠ [] →
      (∀ c ∈ database.clusters, c.label ≠ detail.hash iprimary) →
      index_starting_cluster database iprimary (detail.hash iprimary) = database.clusters.length) := by
  refine ⟨?_, ?_, ?_⟩
  · intro h
    simp [index_starting_cluster, h]
  · intro h pre i post cluster horder hi hlabel hpre
    have hlen : ¬ iprimary.length = 0 := by simpa using h
    unfold index_starting_cluster
    simp only [hlen, if_false, horder, scan_first database.clusters _ pre i post cluster hpre hi hlabel]
  · intro h hnone
    have hlen : ¬ iprimary.length = 0 := by simpa using h
    unfold index_starting_cluster
    have hscan := scan_none database.clusters (detail.hash iprimary) database.priority.order
      (fun k _ c hc => hnone c (List.getElem?_mem hc))
    simp only [hlen, if_false, hscan]

/-- C20, at a concrete input: a database whose one cluster has the label of the
empty index set; the lookup for the empty index set returns the sentinel. -/
theorem index_starting_cluster_lookup_witness :
    (∃ c ∈ (Database.single [] (detail.hash []) refRecord 0 0 0 0).clusters,
        c.label = detail.hash []) ∧
      index_starting_cluster (Database.single [] (detail.hash []) refRecord 0 0 0 0) []
          (detail.hash [])
        = (Database.single [] (detail.hash []) refRecord 0 0 0 0).clusters.length :=
  ⟨⟨_, List.mem_singleton.mpr rfl, rfl⟩,
    (index_starting_cluster_lookup (Database.single [] (detail.hash []) refRecord 0 0 0 0) []).1
      rfl⟩

/-! ## The claim on a query at the reference point of a record -/

theorem vsub_self (w : List ℚ) : vsub w w = List.replicate w.length 0 := by
  induction w with
  | nil => rfl
  | cons x xs ih =>
    simp only [vsub, List.zipWith_cons_cons, sub_self, List.length_cons, List.replicate_succ]
    exact congrArg _ ih

theorem dot_replicate_zero (row : List ℚ) (k : Nat) : dot row (List.replicate k 0) = 0 := by
  induction row generalizing k with
  | nil => simp [dot]
  | cons x xs ih =>
    cases k with
    | zero => simp [dot]
    | succ k =>
      have := ih k
      simp only [dot] at this ⊢
      simp [List.replicate_succ, this]

theorem matVec_replicate_zero (m : List (List ℚ)) (k : Nat) :
    matVec m (List.replicate k 0) = List.replicate m.length 0 := by
  induction m with
  | nil => rfl
  | cons row rows ih =>
    simp only [matVec, dot_replicate_zero] at ih ⊢
    simp only [List.map_cons, List.length_cons, List.replicate_succ, ih]

theorem vadd_replicate_zero (n : List ℚ) (k : Nat) (h : n.length ≤ k) :
    vadd n (List.replicate k 0) = n := by
  induction n generalizing k with
  | nil => simp [vadd]
  | cons x xs ih =>
    cases k with
    | zero => simp at h
    | succ k =>
      have := ih k (by simpa using h)
      simp only [vadd] at this ⊢
      simp [List.replicate_succ, this]

theorem rankByCount_singleton (x : Nat) : rankByCount [x] = [0] := rfl

theorem single_visits (impl : Impl) (state : ChemicalState) (iprimary : List Nat) (label : Nat)
    (record : Record) (k a b m : Nat)
    (hdb : impl.database = Database.single iprimary label record k a b m) :
    impl.visits state = [] ++ { jcluster := 0, irecord := 0, record := record } :: [] := by
  have horder : ∀ o, (Database.single iprimary label record k a b m).connectivity.order o = [0] := by
    intro o
    cases o with
    | zero => rfl
    | succ o => rfl
  unfold Impl.visits
  rw [hdb, horder]
  rfl

theorem pass_error_test_eq_true_iff (options : SmartEquilibriumOptions) (l : List Nat)
    (w c : List ℚ) (record : Record) :
    pass_error_test options l l.length w c record = true ↔
      ∀ i ∈ l, withinTolerance options w c record i := by
  unfold pass_error_test
  simp only [errorLoop_iff, withinTolerance]
  constructor
  · intro h i hi
    obtain ⟨j, hj, rfl⟩ := List.mem_iff_getElem.mp hi
    have := h j hj
    simpa [List.getD_eq_getElem?_getD, List.getElem?_eq_getElem hj] using this
  · intro h j hj
    have := h l[j] (List.getElem_mem hj)
    simpa [List.getD_eq_getElem?_getD, List.getElem?_eq_getElem hj] using this

theorem create_predicted_at_reference (state0 : ChemicalState) (sensitivity0 : EquilibriumSensitivity)
    (i : Nat) :
    (EquilibriumPredictor.create state0 sensitivity0).speciesChemicalPotentialPredicted i
        (vsub state0.w state0.w) (vsub state0.c state0.c)
      = (EquilibriumPredictor.create state0 sensitivity0).speciesChemicalPotentialReference i := by
  simp [EquilibriumPredictor.create, vsub_self, dot_replicate_zero]

theorem create_predict_at_reference (state0 : ChemicalState) (sensitivity0 : EquilibriumSensitivity)
    (state : ChemicalState) (conditions : EquilibriumConditions)
    (hw : conditions.w = state0.w)
    (hc : conditions.initialComponentAmountsGetOrCompute state = state0.c)
    (hdim : state0.n.length ≤ sensitivity0.dndw.length ∧ state0.n.length ≤ sensitivity0.dndc.length ∧
      state0.u.length ≤ sensitivity0.dudw.length ∧ state0.u.length ≤ sensitivity0.dudc.length) :
    (EquilibriumPredictor.create state0 sensitivity0).predict state conditions = state0 := by
  obtain ⟨h1, h2, h3, h4⟩ := hdim
  simp only [EquilibriumPredictor.create, hw, hc, vsub_self, matVec_replicate_zero,
    vadd_replicate_zero _ _ h1, vadd_replicate_zero _ _ h2, vadd_replicate_zero _ _ h3,
    vadd_replicate_zero _ _ h4]

theorem ref_visits (reltol abstol : ℚ) :
    (refImpl reltol abstol).visits refState = [] ++ refVisit :: [] :=
  single_visits (refImpl reltol abstol) refState [1] (detail.hash [1]) refRecord 0 0 0 0 rfl

theorem ref_fails_at_zero_tolerance :
    pass_error_test (refImpl 0 0).options refState.iprimary refState.iprimary.length demoConditions.w
      (demoConditions.initialComponentAmountsGetOrCompute refState) refRecord = false := by
  have hw : demoConditions.w = refState.w := rfl
  have hc : demoConditions.initialComponentAmountsGetOrCompute refState = refState.c := rfl
  have hpred := create_predicted_at_reference refState refSensitivity 1
  rw [hw, hc]
  simp only [pass_error_test, refRecord, learnedRecord]
  have hip : refState.iprimary = [1] := rfl
  rw [hip]
  simp only [List.length_singleton, errorLoop, List.getD_cons_zero, hpred]
  simp [refImpl, optionsWithTolerances]

theorem ref_rejected_at_zero_tolerance :
    ((refImpl 0 0).predict refState demoConditions).1.result.prediction.accepted = false := by
  have hne : (refImpl 0 0).database.clusters ≠ [] := by simp [refImpl, Database.single]
  have hpass : ((refImpl 0 0).query refState demoConditions).passes refVisit = false :=
    ref_fails_at_zero_tolerance
  have hnone : ((refImpl 0 0).query refState demoConditions).noneAccepted [refVisit] refState
      = true := by
    simp [Query.noneAccepted, Query.accepts, hpass]
  rw [predict_accepted_eq _ refState demoConditions hne, ref_visits, List.nil_append,
    (flatSearch_found_eq_none_iff _ _ _).2 hnone]
  rfl

/-- C11, as stated, fails: the database holds one cluster with the one record
learned at `refState`, the query is that reference point (`w = w0`, `c = c0`), and
with the tolerances `reltol = 0` and `abstol = 0` the error test fails (the
difference `0` is not below the tolerance `0`) and `predict` rejects. -/
theorem predict_rejects_reference_query_at_zero_tolerance :
    (refImpl 0 0).database = Database.single [1] (detail.hash [1]) refRecord 0 0 0 0 ∧
      demoConditions.w = refRecord.state.w ∧
      demoConditions.initialComponentAmountsGetOrCompute refState = refRecord.state.c ∧
      pass_error_test (refImpl 0 0).options refState.iprimary refState.iprimary.length
        demoConditions.w (demoConditions.initialComponentAmountsGetOrCompute refState) refRecord
        = false ∧
      ((refImpl 0 0).predict refState demoConditions).1.result.prediction.accepted = false :=
  ⟨rfl, rfl, rfl, ref_fails_at_zero_tolerance, ref_rejected_at_zero_tolerance⟩

/-- C11, amended: the database holds one cluster with a single record, the query
equals the record's reference inputs (`w = w0` and `c = c0`), and the record's
predictor is a first-order Taylor predictor: at `dw = dc = 0` its predicted value
is its reference value and its extrapolated state is the reference state.  If the
tolerance `reltol * |mu0(i)| + abstol` is positive for every primary species `i` of
the query state, the error test passes for that record; if moreover the reference
amounts pass the feasibility test, `predict` returns `accepted = true` and the
returned state is the reference state with every negative amount set to the floor
value, hence the reference state itself when no reference amount is negative. -/
theorem predict_single_record_at_reference (impl : Impl) (state : ChemicalState)
    (conditions : EquilibriumConditions) (record : Record)
    (iprimary0 : List Nat) (label k a b m : Nat)
    (hdb : impl.database = Database.single iprimary0 label record k a b m)
    (hw : conditions.w = record.state.w)
    (hc : conditions.initialComponentAmountsGetOrCompute state = record.state.c)
    (hmu : ∀ i ∈ state.iprimary,
      record.predictor.speciesChemicalPotentialPredicted i (vsub record.state.w record.state.w)
          (vsub record.state.c record.state.c)
        = record.predictor.speciesChemicalPotentialReference i)
    (hpredict : record.predictor.predict state conditions = record.state)
    (htol : ∀ i ∈ state.iprimary,
      0 < impl.options.reltol * |record.predictor.speciesChemicalPotentialReference i|
        + impl.options.abstol)
    (hfeasible : impl.options.reltol_negative_amounts * sumCoeff record.state.n
      < minCoeff record.state.n) :
    pass_error_test impl.options state.iprimary state.iprimary.length conditions.w
        (conditions.initialComponentAmountsGetOrCompute state) record = true ∧
      (impl.predict state conditions).1.result.prediction.accepted = true ∧
      (impl.predict state conditions).2
        = { record.state with
            n := record.state.n.map
              (fun x => if x < 0 then impl.options.learning.epsilon else x) } ∧
      ((∀ x ∈ record.state.n, 0 ≤ x) → (impl.predict state conditions).2 = record.state) := by
  have hne : impl.database.clusters ≠ [] := by rw [hdb]; simp [Database.single]
  have hvisits := single_visits impl state iprimary0 label record k a b m hdb
  have hpass : pass_error_test impl.options state.iprimary state.iprimary.length conditions.w
      (conditions.initialComponentAmountsGetOrCompute state) record = true := by
    rw [pass_error_test_eq_true_iff]
    intro i hi
    simp only [withinTolerance, hw, hc, hmu i hi, sub_self, abs_zero]
    exact htol i hi
  have hextrapolate : (impl.query state conditions).extrapolate
      { jcluster := 0, irecord := 0, record := record }
      ((impl.query state conditions).arrive [] state) = record.state := hpredict
  have haccepts : (impl.query state conditions).accepts
      { jcluster := 0, irecord := 0, record := record }
      ((impl.query state conditions).arrive [] state) = true := by
    simp only [Query.accepts, hextrapolate, Bool.and_eq_true, feasible, Bool.not_eq_true',
      decide_eq_false_iff_not, not_le]
    exact ⟨hpass, hfeasible⟩
  obtain ⟨hfound, hstate⟩ := flatSearch_first (impl.query state conditions) []
    { jcluster := 0, irecord := 0, record := record } [] state rfl haccepts
  rw [← hvisits] at hfound hstate
  have hresult : (impl.predict state conditions).2
      = { record.state with
          n := record.state.n.map
            (fun x => if x < 0 then impl.options.learning.epsilon else x) } := by
    rw [predict_state_eq impl state conditions hne, hstate, hextrapolate, clampNegative_eq]
    rfl
  refine ⟨hpass, ?_, hresult, ?_⟩
  · rw [predict_accepted_eq impl state conditions hne, hfound]
    rfl
  · intro hnonneg
    rw [hresult, map_clamp_of_nonneg _ _ hnonneg]

/-- C11 amended, at a concrete input: the record that `learn` stores for `refState`,
with the Taylor predictor built from `refState` and `refSensitivity`, queried at its
reference point with the tolerances `reltol = 0` and `abstol = 1`. -/
theorem predict_single_record_at_reference_witness :
    (refImpl 0 1).database = Database.single [1] (detail.hash [1]) refRecord 0 0 0 0 ∧
      ((refImpl 0 1).predict refState demoConditions).1.result.prediction.accepted = true ∧
      ((refImpl 0 1).predict refState demoConditions).2 = refState :=
  ⟨rfl,
    (predict_single_record_at_reference (refImpl 0 1) refState demoConditions refRecord
      [1] (detail.hash [1]) 0 0 0 0 rfl rfl rfl
      (fun i _ => create_predicted_at_reference refState refSensitivity i)
      (create_predict_at_reference refState refSensitivity refState demoConditions rfl rfl
        (by decide))
      (by intro i _; simp [refImpl, optionsWithTolerances])
      (by norm_num [refImpl, optionsWithTolerances, sumCoeff, minCoeff, refState, refRecord,
        learnedRecord])).2.1,
    (predict_single_record_at_reference (refImpl 0 1) refState demoConditions refRecord
      [1] (detail.hash [1]) 0 0 0 0 rfl rfl rfl
      (fun i _ => create_predicted_at_reference refState refSensitivity i)
      (create_predict_at_reference refState refSensitivity refState demoConditions rfl rfl
        (by decide))
      (by intro i _; simp [refImpl, optionsWithTolerances])
      (by norm_num [refImpl, optionsWithTolerances, sumCoeff, minCoeff, refState, refRecord,
        learnedRecord])).2.2.2
      (by simp [refState, refRecord, learnedRecord])⟩

/-! ## Sizes of the ranking structures of the database -/

theorem mem_modify {α : Type} (l : List α) (f : α → α) (k : Nat) (x : α)
    (h : x ∈ l.modify f k) : x ∈ l ∨ ∃ y ∈ l, x = f y := by
  induction l generalizing k with
  | nil => simp at h
  | cons a as ih =>
    cases k with
    | zero =>
      simp only [List.modify_zero_cons, List.mem_cons] at h
      rcases h with h | h
      · exact Or.inr ⟨a, List.mem_cons_self _ _, h⟩
      · exact Or.inl (List.mem_cons_of_mem _ h)
    | succ k =>
      rw [List.modify_succ_cons] at h
      rcases List.mem_cons.1 h with h | h
      · exact Or.inl (h ▸ List.mem_cons_self _ _)
      · rcases ih k h with h | ⟨y, hy, hxy⟩
        · exact Or.inl (List.mem_cons_of_mem _ h)
        · exact Or.inr ⟨y, List.mem_cons_of_mem _ hy, hxy⟩

theorem connectivity_extend_hasSize (g : ClusterConnectivity) (n : Nat) (h : g.hasSize n) :
    g.extend.hasSize (n + 1) := by
  obtain ⟨hrows, hsentinel, hrow⟩ := h
  refine ⟨?_, ?_, ?_⟩
  · simp [ClusterConnectivity.extend, hrows]
  · simp [ClusterConnectivity.extend, hsentinel]
  · intro row hmem
    simp only [ClusterConnectivity.extend, List.mem_append, List.mem_map,
      List.mem_singleton] at hmem
    rcases hmem with ⟨old, hold, rfl⟩ | rfl
    · simp [hrow old hold]
    · simp [hrows]

theorem connectivity_increment_hasSize (g : ClusterConnectivity) (n origin dest : Nat)
    (h : g.hasSize n) : (g.increment origin dest).hasSize n := by
  obtain ⟨hrows, hsentinel, hrow⟩ := h
  unfold ClusterConnectivity.increment
  split_ifs with hlt
  · refine ⟨by simp [hrows], hsentinel, ?_⟩
    intro row hmem
    rcases mem_modify _ _ _ _ hmem with hold | ⟨old, hold, rfl⟩
    · exact hrow row hold
    · rw [bump_length]
      exact hrow old hold
  · exact ⟨hrows, by simp [bump_length, hsentinel], hrow⟩

theorem store_sizesAgree (db : Database) (iprimary : List Nat) (record : Record)
    (h : db.sizesAgree) : (db.store iprimary record).sizesAgree := by
  by_cases hfound : indexfn db.clusters
      (fun cluster => decide (cluster.label = detail.hash iprimary)) < db.clusters.length
  · rw [store_of_found db iprimary record hfound]
    simpa [Database.sizesAgree] using h
  · rw [store_of_new db iprimary record hfound]
    obtain ⟨hp, hc⟩ := h
    refine ⟨by simp [PriorityQueue.extend, hp], ?_⟩
    simpa using connectivity_extend_hasSize _ _ hc

theorem priorityUpdate_sizesAgree (db : Database) (icluster jcluster irecord : Nat)
    (h : db.sizesAgree) : (db.priorityUpdate icluster jcluster irecord).sizesAgree := by
  obtain ⟨hp, hc⟩ := h
  refine ⟨by simp [Database.priorityUpdate, PriorityQueue.increment, bump_length, hp], ?_⟩
  simpa [Database.priorityUpdate] using connectivity_increment_hasSize _ _ icluster jcluster hc

theorem connectivity_increment_lengths (g : ClusterConnectivity) (origin dest : Nat) :
    (g.increment origin dest).rows.length = g.rows.length ∧
      (g.increment origin dest).sentinel.length = g.sentinel.length := by
  unfold ClusterConnectivity.increment
  split_ifs with hlt
  · exact ⟨by simp, rfl⟩
  · exact ⟨rfl, by simp [bump_length]⟩

/-- C21: in every database reachable from the empty database by calls of `learn`,
`predict` and `solve`, the priority ranking of the database and its connectivity
graph have the size of the list of clusters, the size of a ranking structure being
the number of `extend` calls made on it.  A `learn` that completes leaves both
structures as they are when a cluster with the label exists, and extends each of
them once when it appends a new cluster; `predict` changes the size of neither. -/
theorem reachable_database_sizes (impl : Impl) (hreachable : Reachable impl) :
    impl.database.sizesAgree ∧
      (∀ (state : ChemicalState) (conditions : EquilibriumConditions),
        (impl.learn state conditions).1 = Except.ok () →
          (indexfn impl.database.clusters (fun cluster =>
              decide (cluster.label = detail.hash (impl.learn state conditions).2.2.iprimary))
              < impl.database.clusters.length →
            (impl.learn state conditions).2.1.database.clusters.length
                = impl.database.clusters.length ∧
              (impl.learn state conditions).2.1.database.priority = impl.database.priority ∧
              (impl.learn state conditions).2.1.database.connectivity
                = impl.database.connectivity) ∧
          (¬ indexfn impl.database.clusters (fun cluster =>
              decide (cluster.label = detail.hash (impl.learn state conditions).2.2.iprimary))
              < impl.database.clusters.length →
            (impl.learn state conditions).2.1.database.clusters.length
                = impl.database.clusters.length + 1 ∧
              (impl.learn state conditions).2.1.database.priority
                = impl.database.priority.extend ∧
              (impl.learn state conditions).2.1.database.connectivity
                = impl.database.connectivity.extend)) ∧
      (∀ (state : ChemicalState) (conditions : EquilibriumConditions),
        (impl.predict state conditions).1.database.clusters.length
            = impl.database.clusters.length ∧
          (impl.predict state conditions).1.database.priority.priorities.length
            = impl.database.priority.priorities.length ∧
          (impl.predict state conditions).1.database.connectivity.rows.length
            = impl.database.connectivity.rows.length ∧
          (impl.predict state conditions).1.database.connectivity.sentinel.length
            = impl.database.connectivity.sentinel.length) := by
  refine ⟨?_, ?_, ?_⟩
  · exact Reachable.database_induction (fun db => db.sizesAgree)
      ⟨rfl, rfl, rfl, fun row hrow => by simp [Database.empty] at hrow⟩
      (fun db ip r h => store_sizesAgree db ip r h)
      (fun db a b r h => priorityUpdate_sizesAgree db a b r h)
      impl hreachable
  · intro state conditions hok
    obtain ⟨res, hres⟩ := (learn_ok_iff impl state conditions).1 hok
    rw [learn_of_ok impl state conditions res hres]
    constructor
    · intro hfound
      simp only [store_of_found _ _ _ hfound, List.length_modify]
      exact ⟨trivial, trivial, trivial⟩
    · intro hnew
      simp only [store_of_new _ _ _ hnew, List.length_append, List.length_singleton]
      exact ⟨trivial, trivial, trivial⟩
  · intro state conditions
    rcases predict_database impl state conditions with h | ⟨a, b, r, h⟩
    · rw [h]
      exact ⟨rfl, rfl, rfl, rfl⟩
    · rw [h]
      refine ⟨by simp [Database.priorityUpdate], ?_, ?_, ?_⟩
      · simp [Database.priorityUpdate, PriorityQueue.increment, bump_length]
      · exact (connectivity_increment_lengths _ a b).1
      · exact (connectivity_increment_lengths _ a b).2

/-- C21, at a concrete input: the database after two calls of `learn`. -/
theorem reachable_database_sizes_witness :
    Reachable ((demoImpl.learn demoState demoConditions).2.1.learn refState demoConditions).2.1 ∧
      ((demoImpl.learn demoState demoConditions).2.1.learn refState
        demoConditions).2.1.database.sizesAgree :=
  ⟨Reachable.learn _ _ _ (Reachable.learn _ _ _ (Reachable.empty demoImpl rfl)),
    (reachable_database_sizes _
      (Reachable.learn _ _ _ (Reachable.learn _ _ _ (Reachable.empty demoImpl rfl)))).1⟩

/-! ## Sizes of the priority rankings of the clusters -/

theorem rankByCount_perm (counts : List Nat) :
    (rankByCount counts).Perm (List.range counts.length) :=
  List.perm_insertionSort _ _

theorem mem_rankByCount (counts : List Nat) (i : Nat) :
    i ∈ rankByCount counts ↔ i < counts.length := by
  rw [(rankByCount_perm counts).mem_iff, List.mem_range]

theorem store_recordSizesAgree (db : Database) (iprimary : List Nat) (record : Record)
    (h : db.recordSizesAgree) : (db.store iprimary record).recordSizesAgree := by
  by_cases hfound : indexfn db.clusters
      (fun cluster => decide (cluster.label = detail.hash iprimary)) < db.clusters.length
  · rw [store_of_found db iprimary record hfound]
    intro cluster hmem
    rcases mem_modify _ _ _ _ hmem with hold | ⟨old, hold, rfl⟩
    · exact h cluster hold
    · simp [PriorityQueue.extend, h old hold]
  · rw [store_of_new db iprimary record hfound]
    intro cluster hmem
    rcases List.mem_append.1 hmem with hold | hnew
    · exact h cluster hold
    · rw [List.mem_singleton] at hnew
      subst hnew
      rfl

theorem priorityUpdate_recordSizesAgree (db : Database) (icluster jcluster irecord : Nat)
    (h : db.recordSizesAgree) : (db.priorityUpdate icluster jcluster irecord).recordSizesAgree := by
  intro cluster hmem
  rcases mem_modify _ _ _ _ hmem with hold | ⟨old, hold, rfl⟩
  · exact h cluster hold
  · simp [PriorityQueue.increment, bump_length, h old hold]

/-- C22: in every database reachable from the empty database by calls of `learn`,
`predict` and `solve`, the priority ranking of each cluster holds one count per
record of the cluster, so the indices it orders are exactly the indices of the
records.  A `learn` that completes extends the ranking of the cluster that receives
the record once, where it appends the record: in the cluster found with the label,
and in the new cluster, which starts empty. -/
theorem reachable_cluster_sizes (impl : Impl) (hreachable : Reachable impl) :
    (∀ cluster ∈ impl.database.clusters,
      cluster.priority.priorities.length = cluster.records.length ∧
        cluster.priority.order.Perm (List.range cluster.records.length) ∧
        ∀ i : Nat, i ∈ cluster.priority.order ↔ i < cluster.records.length) ∧
      ∀ (state : ChemicalState) (conditions : EquilibriumConditions),
        (impl.learn state conditions).1 = Except.ok () →
          (∀ cluster : Cluster,
            impl.database.clusters[indexfn impl.database.clusters (fun cluster =>
              decide (cluster.label
                = detail.hash (impl.learn state conditions).2.2.iprimary))]? = some cluster →
            (impl.learn state conditions).2.1.database.clusters[indexfn impl.database.clusters
              (fun cluster => decide (cluster.label
                = detail.hash (impl.learn state conditions).2.2.iprimary))]?
              = some { cluster with
                  records := cluster.records ++
                    [learnedRecord (impl.learn state conditions).2.2 conditions
                      (impl.learn state conditions).2.1.sensitivity]
                  priority := cluster.priority.extend }) ∧
          (¬ indexfn impl.database.clusters (fun cluster =>
              decide (cluster.label = detail.hash (impl.learn state conditions).2.2.iprimary))
              < impl.database.clusters.length →
            (impl.learn state conditions).2.1.database.clusters[impl.database.clusters.length]?
              = some { iprimary := (impl.learn state conditions).2.2.iprimary
                       label := detail.hash (impl.learn state conditions).2.2.iprimary
                       records := Cluster.empty.records ++
                         [learnedRecord (impl.learn state conditions).2.2 conditions
                           (impl.learn state conditions).2.1.sensitivity]
                       priority := Cluster.empty.priority.extend }) := by
  have hsizes : impl.database.recordSizesAgree :=
    Reachable.database_induction (fun db => db.recordSizesAgree)
      (fun cluster hmem => by simp [Database.empty] at hmem)
      (fun db ip r h => store_recordSizesAgree db ip r h)
      (fun db a b r h => priorityUpdate_recordSizesAgree db a b r h)
      impl hreachable
  refine ⟨?_, ?_⟩
  · intro cluster hmem
    have hlen := hsizes cluster hmem
    refine ⟨hlen, ?_, ?_⟩
    · rw [← hlen]
      exact rankByCount_perm _
    · intro i
      rw [← hlen]
      exact mem_rankByCount _ i
  · intro state conditions hok
    obtain ⟨res, hres⟩ := (learn_ok_iff impl state conditions).1 hok
    rw [learn_of_ok impl state conditions res hres]
    constructor
    · intro cluster hcluster
      have hfound : indexfn impl.database.clusters (fun cluster => decide (cluster.label
          = detail.hash (impl.solver.solve state impl.sensitivity conditions).state.iprimary))
          < impl.database.clusters.length := by
        by_contra hge
        rw [List.getElem?_eq_none (Nat.not_lt.mp hge)] at hcluster
        cases hcluster
      simp only [store_of_found _ _ _ hfound, List.getElem?_modify_eq, hcluster]
      rfl
    · intro hnew
      simp only [store_of_new _ _ _ hnew]
      rw [List.getElem?_append_right (Nat.le_refl _)]
      simp [Cluster.empty, PriorityQueue.extend]

/-- C22, at a concrete input: the database after two calls of `learn`. -/
theorem reachable_cluster_sizes_witness :
    Reachable ((demoImpl.learn demoState demoConditions).2.1.learn refState demoConditions).2.1 ∧
      ∀ cluster ∈ ((demoImpl.learn demoState demoConditions).2.1.learn refState
          demoConditions).2.1.database.clusters,
        cluster.priority.priorities.length = cluster.records.length :=
  ⟨Reachable.learn _ _ _ (Reachable.learn _ _ _ (Reachable.empty demoImpl rfl)),
    fun cluster hmem => ((reachable_cluster_sizes _
      (Reachable.learn _ _ _ (Reachable.learn _ _ _ (Reachable.empty demoImpl rfl)))).1
        cluster hmem).1⟩

/-! ## The starting cluster and the insertion-order scan -/

theorem labels_index_unique (clusters : List Cluster)
    (hnodup : (clusters.map Cluster.label).Nodup) (i j : Nat) (ci cj : Cluster)
    (hi : clusters[i]? = some ci) (hj : clusters[j]? = some cj) (heq : ci.label = cj.label) :
    i = j := by
  by_contra hij
  have hinj := List.nodup_iff_getElem?_ne_getElem?.1 hnodup
  have hi2 : (clusters.map Cluster.label)[i]? = some ci.label := by simp [hi]
  have hj2 : (clusters.map Cluster.label)[j]? = some cj.label := by simp [hj]
  have hjlt : j < (clusters.map Cluster.label).length := by
    by_contra hge
    rw [List.getElem?_eq_none (Nat.not_lt.mp hge)] at hj2
    cases hj2
  have hilt : i < (clusters.map Cluster.label).length := by
    by_contra hge
    rw [List.getElem?_eq_none (Nat.not_lt.mp hge)] at hi2
    cases hi2
  rcases Nat.lt_or_gt_of_ne hij with hlt | hgt
  · exact hinj i j hlt hjlt (by rw [hi2, hj2, heq])
  · exact hinj j i hgt hilt (by rw [hi2, hj2, heq])

theorem start_eq_indexfn (database : Database) (iprimary : List Nat) (label : Nat)
    (hnodup : (database.clusters.map Cluster.label).Nodup)
    (hperm : database.priority.order.Perm (List.range database.clusters.length))
    (hne : iprimary ≠ []) :
    index_starting_cluster database iprimary label
      = indexfn database.clusters (fun cluster => decide (cluster.label = label)) := by
  have hlen : ¬ iprimary.length = 0 := by simpa using hne
  unfold index_starting_cluster
  simp only [hlen, if_false]
  by_cases hfound : indexfn database.clusters (fun cluster => decide (cluster.label = label))
      < database.clusters.length
  · obtain ⟨c, hc, hp, _⟩ := indexfn_getElem? _ _ hfound
    have hlabel : c.label = label := of_decide_eq_true hp
    have hmem : indexfn database.clusters (fun cluster => decide (cluster.label = label))
        ∈ database.priority.order := hperm.mem_iff.2 (List.mem_range.2 hfound)
    obtain ⟨pre, post, horder, hnotin⟩ := List.eq_append_cons_of_mem hmem
    have hpre : ∀ k ∈ pre, ∀ c2, database.clusters[k]? = some c2 → c2.label ≠ label := by
      intro k hk c2 hc2 heq
      have hku := labels_index_unique database.clusters hnodup k _ c2 c hc2 hc
        (heq.trans hlabel.symm)
      exact hnotin (hku ▸ hk)
    rw [horder, scan_first database.clusters label pre _ post c hpre hc hlabel]
  · have hall := (indexfn_eq_length_iff database.clusters
      (fun cluster => decide (cluster.label = label))).1
      (Nat.le_antisymm (indexfn_le _ _) (Nat.not_lt.mp hfound))
    have hscan := scan_none database.clusters label database.priority.order
      (fun k _ c hc heq => by
        have := hall c (List.getElem?_mem hc)
        simp [heq] at this)
    rw [hscan]
    exact (Nat.le_antisymm (indexfn_le _ _) (Nat.not_lt.mp hfound)).symm

/-- C23: for a database whose cluster labels are pairwise distinct and whose
priority order is a permutation of the cluster indices, and a query with a
non-empty index set, the starting cluster of `predict` is the index that the
insertion-order scan `indexfn` of `learn` finds for the same label: the index of
the cluster with the label, or the number of clusters when there is none.  It is
the same for every priority ranking whose order is a permutation of the indices. -/
theorem index_starting_cluster_eq_indexfn (database : Database) (iprimary : List Nat)
    (hdistinct : (database.clusters.map Cluster.label).Nodup)
    (hperm : database.priority.order.Perm (List.range database.clusters.length))
    (hne : iprimary ≠ []) :
    index_starting_cluster database iprimary (detail.hash iprimary)
        = indexfn database.clusters
            (fun cluster => decide (cluster.label = detail.hash iprimary)) ∧
      (∀ (i : Nat) (cluster : Cluster), database.clusters[i]? = some cluster →
        cluster.label = detail.hash iprimary →
        index_starting_cluster database iprimary (detail.hash iprimary) = i) ∧
      ((∀ cluster ∈ database.clusters, cluster.label ≠ detail.hash iprimary) →
        index_starting_cluster database iprimary (detail.hash iprimary)
          = database.clusters.length) ∧
      ∀ other : PriorityQueue, other.order.Perm (List.range database.clusters.length) →
        index_starting_cluster { database with priority := other } iprimary
            (detail.hash iprimary)
          = index_starting_cluster database iprimary (detail.hash iprimary) := by
  have hstart := start_eq_indexfn database iprimary (detail.hash iprimary) hdistinct hperm hne
  refine ⟨hstart, ?_, ?_, ?_⟩
  · intro i cluster hi hlabel
    have hfound : indexfn database.clusters
        (fun cluster => decide (cluster.label = detail.hash iprimary))
        < database.clusters.length :=
      (indexfn_lt_iff _ _).2 ⟨cluster, List.getElem?_mem hi, decide_eq_true hlabel⟩
    obtain ⟨c, hc, hp, _⟩ := indexfn_getElem? _ _ hfound
    rw [hstart]
    exact labels_index_unique database.clusters hdistinct _ i c cluster hc hi
      ((of_decide_eq_true hp).trans hlabel.symm)
  · intro hnone
    rw [hstart]
    exact (indexfn_eq_length_iff _ _).2 (fun c hc => decide_eq_false (hnone c hc))
  · intro other hother
    rw [hstart]
    exact start_eq_indexfn { database with priority := other } iprimary (detail.hash iprimary)
      hdistinct hother hne

/-- C23, at a concrete input: the priority order of `demoReranked` lists the second
cluster first, and the lookup of the label of the first cluster returns the index
found by the insertion-order scan. -/
theorem index_starting_cluster_eq_indexfn_witness :
    (demoReranked.clusters.map Cluster.label).Nodup ∧
      demoReranked.priority.order = [1, 0] ∧
      index_starting_cluster demoReranked [1] (detail.hash [1])
        = indexfn demoReranked.clusters (fun cluster => decide (cluster.label = detail.hash [1])) :=
  ⟨by decide, by decide,
    (index_starting_cluster_eq_indexfn demoReranked [1] (by decide)
      (rankByCount_perm [0, 3]) (by decide)).1⟩

/-! ## A search in which no record passes the error test -/

theorem arrive_of_none_pass (q : Query) (vs : List Visit) (state : ChemicalState)
    (h : ∀ v ∈ vs, q.passes v = false) :
    q.noneAccepted vs state = true ∧ q.arrive vs state = state := by
  induction vs generalizing state with
  | nil => exact ⟨rfl, rfl⟩
  | cons v vs ih =>
    have hv : q.passes v = false := h v (List.mem_cons_self _ _)
    have hstep : q.step state v = state := by simp [Query.step, hv]
    have hrest := ih state (fun u hu => h u (List.mem_cons_of_mem _ hu))
    constructor
    · simp only [Query.noneAccepted, Query.accepts, hv, hstep, hrest.1]
      rfl
    · rw [arrive_cons, hstep]
      exact hrest.2

/-- C24: when no record that `predict` visits passes the error test, `predict`
returns with `accepted = false` and the state on exit is the state on entry. -/
theorem predict_keeps_state_when_no_record_passes (impl : Impl) (state : ChemicalState)
    (conditions : EquilibriumConditions)
    (hnone : ∀ v ∈ impl.visits state,
      pass_error_test impl.options state.iprimary state.iprimary.length conditions.w
        (conditions.initialComponentAmountsGetOrCompute state) v.record = false) :
    (impl.predict state conditions).1.result.prediction.accepted = false ∧
      (impl.predict state conditions).2 = state := by
  by_cases hempty : impl.database.clusters = []
  · rw [predict_of_empty impl state conditions hempty]
    exact ⟨rfl, rfl⟩
  · have hq := arrive_of_none_pass (impl.query state conditions) (impl.visits state) state hnone
    have hfound := (flatSearch_found_eq_none_iff _ _ _).2 hq.1
    rw [predict_accepted_eq impl state conditions hempty,
      predict_state_eq impl state conditions hempty, hfound,
      (flatSearch_none _ _ _ hfound).2.1]
    exact ⟨rfl, hq.2⟩

/-- C24, at a concrete input: with both tolerances zero the one record of `refImpl`
fails the error test for the query at its reference point, and the state returns
as it was given. -/
theorem predict_keeps_state_when_no_record_passes_witness :
    (∀ v ∈ (refImpl 0 0).visits refState,
      pass_error_test (refImpl 0 0).options refState.iprimary refState.iprimary.length
        demoConditions.w (demoConditions.initialComponentAmountsGetOrCompute refState)
        v.record = false) ∧
      ((refImpl 0 0).predict refState demoConditions).1.result.prediction.accepted = false ∧
      ((refImpl 0 0).predict refState demoConditions).2 = refState := by
  have h : ∀ v ∈ (refImpl 0 0).visits refState,
      pass_error_test (refImpl 0 0).options refState.iprimary refState.iprimary.length
        demoConditions.w (demoConditions.initialComponentAmountsGetOrCompute refState)
        v.record = false := by
    intro v hv
    rw [ref_visits, List.nil_append, List.mem_singleton] at hv
    rw [hv]
    exact ref_fails_at_zero_tolerance
  exact ⟨h, predict_keeps_state_when_no_record_passes (refImpl 0 0) refState demoConditions h⟩

/-! ## A query with the empty index set -/

theorem arrive_of_all_pass (q : Query) (vs : List Visit) (state : ChemicalState)
    (h : ∀ v, q.passes v = true) :
    q.arrive vs state = vs.foldl (fun s v => v.record.predictor.predict s q.conditions) state := by
  induction vs generalizing state with
  | nil => rfl
  | cons v vs ih =>
    rw [arrive_cons, ih, List.foldl_cons]
    simp [Query.step, h v, Query.extrapolate]

theorem noneAccepted_eq_false_iff (q : Query) (vs : List Visit) (state : ChemicalState) :
    q.noneAccepted vs state = false ↔
      ∃ pre v post, vs = pre ++ v :: post ∧ q.accepts v (q.arrive pre state) = true := by
  rw [← Bool.not_eq_true, noneAccepted_iff]
  constructor
  · intro h
    by_contra hno
    apply h
    intro pre v post hsplit
    by_contra hacc
    exact hno ⟨pre, v, post, hsplit, by simpa using hacc⟩
  · rintro ⟨pre, v, post, hsplit, hacc⟩ h
    rw [h pre v post hsplit] at hacc
    cases hacc

/-- C26: when the index set of the query state is empty, the error test passes for
every record, whatever the tolerances, the inputs and the component amounts of the
query: the loop of the test runs zero times.  The state then goes through the
extrapolation of every record visited, and `predict` accepts exactly when the
extrapolation of some visited record passes the feasibility test. -/
theorem predict_empty_index_set (impl : Impl) (state : ChemicalState)
    (conditions : EquilibriumConditions) (hempty : state.iprimary = []) :
    (∀ (options : SmartEquilibriumOptions) (w c : List ℚ) (record : Record),
      pass_error_test options state.iprimary state.iprimary.length w c record = true) ∧
      ((impl.predict state conditions).1.result.prediction.accepted = true ↔
        ∃ pre v post, impl.visits state = pre ++ v :: post ∧
          feasible impl.options
            (v.record.predictor.predict
              (pre.foldl (fun s u => u.record.predictor.predict s conditions) state)
              conditions).n = true) := by
  have hpass : ∀ (options : SmartEquilibriumOptions) (w c : List ℚ) (record : Record),
      pass_error_test options state.iprimary state.iprimary.length w c record = true := by
    intro options w c record
    rw [hempty]
    rfl
  refine ⟨hpass, ?_⟩
  have hq : ∀ v, (impl.query state conditions).passes v = true := fun v => hpass _ _ _ _
  by_cases hnil : impl.database.clusters = []
  · rw [predict_of_empty impl state conditions hnil]
    constructor
    · intro h
      cases h
    · rintro ⟨pre, v, post, hsplit, _⟩
      have hvisits : impl.visits state = [] := by
        unfold Impl.visits
        rw [hnil]
        exact clusterVisits_nil _
      rw [hvisits] at hsplit
      simp at hsplit
  · rw [predict_accepted_eq impl state conditions hnil]
    have hiff : (flatSearch (impl.query state conditions) (impl.visits state) state).found.isSome
        = true ↔ (impl.query state conditions).noneAccepted (impl.visits state) state = false := by
      rw [← Bool.not_eq_true, ← flatSearch_found_eq_none_iff]
      cases (flatSearch (impl.query state conditions) (impl.visits state) state).found <;> simp
    rw [hiff, noneAccepted_eq_false_iff]
    constructor
    · rintro ⟨pre, v, post, hsplit, hacc⟩
      refine ⟨pre, v, post, hsplit, ?_⟩
      rw [arrive_of_all_pass _ _ _ hq] at hacc
      simp only [Query.accepts, hq v, Bool.true_and] at hacc
      exact hacc
    · rintro ⟨pre, v, post, hsplit, hfeasible⟩
      refine ⟨pre, v, post, hsplit, ?_⟩
      rw [arrive_of_all_pass _ _ _ hq]
      simp only [Query.accepts, hq v, Bool.true_and]
      exact hfeasible

/-! ## The indices used by `predict` -/

/-- C26, at a concrete input: the state `emptyKeyState`, whose index set is empty. -/
theorem predict_empty_index_set_witness :
    emptyKeyState.iprimary = [] ∧
      ∀ (options : SmartEquilibriumOptions) (w c : List ℚ) (record : Record),
        pass_error_test options emptyKeyState.iprimary emptyKeyState.iprimary.length w c record
          = true :=
  ⟨rfl, (predict_empty_index_set demoLearned emptyKeyState demoConditions rfl).1⟩

/-! ## The search of `predict` over the arithmetic of `double` -/

theorem fp_errorLoop_iff {F : Type} (A : Fp.Arithmetic F) (options : Fp.SmartEquilibriumOptions F)
    (predictor : Fp.EquilibriumPredictor F) (iprimary : List Nat) (dw dc : List F) (k : Nat) :
    Fp.errorLoop A options predictor iprimary dw dc k = true ↔
      ∀ j < k,
        A.ge
          (A.abs (A.sub (predictor.speciesChemicalPotentialPredicted (iprimary.getD j 0) dw dc)
            (predictor.speciesChemicalPotentialReference (iprimary.getD j 0))))
          (A.add (A.mul options.reltol
            (A.abs (predictor.speciesChemicalPotentialReference (iprimary.getD j 0))))
            options.abstol) = false := by
  induction k with
  | zero => simp [Fp.errorLoop]
  | succ k ih =>
    simp only [Fp.errorLoop]
    split_ifs with hge
    · simp only [Bool.false_eq_true, false_iff, not_forall]
      exact ⟨k, Nat.lt_succ_self k, by rw [hge]; exact Bool.noConfusion⟩
    · rw [ih]
      constructor
      · intro h j hj
        rcases Nat.lt_succ_iff_lt_or_eq.mp hj with hlt | rfl
        · exact h j hlt
        · exact Bool.eq_false_iff.mpr hge
      · intro h j hj
        exact h j (Nat.lt_succ_of_lt hj)

theorem fp_pass_error_test_iff {F : Type} (A : Fp.Arithmetic F)
    (options : Fp.SmartEquilibriumOptions F) (l : List Nat) (w c : List F)
    (record : Fp.Record F) :
    Fp.pass_error_test A options l l.length w c record = true ↔
      ∀ i ∈ l, Fp.exceeds A options w c record i = false := by
  unfold Fp.pass_error_test
  simp only [fp_errorLoop_iff, Fp.exceeds]
  constructor
  · intro h i hi
    obtain ⟨j, hj, rfl⟩ := List.mem_iff_getElem.mp hi
    have := h j hj
    simpa [List.getD_eq_getElem?_getD, List.getElem?_eq_getElem hj] using this
  · intro h j hj
    have := h l[j] (List.getElem_mem hj)
    simpa [List.getD_eq_getElem?_getD, List.getElem?_eq_getElem hj] using this

theorem fp_recordsLoop_eq_flatSearch {F : Type} (A : Fp.Arithmetic F) (q : Fp.Query F)
    (jcluster : Nat) (records : List (Fp.Record F)) (ordering : List Nat)
    (state : Fp.ChemicalState F) :
    Fp.recordsLoop A q.options q.iprimary q.iprimary.length q.w q.c q.conditions jcluster records
        ordering state
      = Fp.flatSearch A q (Fp.recordVisits jcluster records ordering) state := by
  induction ordering generalizing state with
  | nil => rfl
  | cons irecord rest ih =>
    unfold Fp.recordsLoop Fp.recordVisits
    cases hrec : records[irecord]? with
    | none => exact ih state
    | some record =>
      simp only [Fp.flatSearch, Fp.Query.passes, Fp.Query.extrapolate, Fp.Query.continues, ih]

theorem fp_flatSearch_append {F : Type} (A : Fp.Arithmetic F) (q : Fp.Query F)
    (a b : List (Fp.Visit F)) (state : Fp.ChemicalState F) :
    Fp.flatSearch A q (a ++ b) state =
      match (Fp.flatSearch A q a state).found with
      | some _ => Fp.flatSearch A q a state
      | none => Fp.flatSearch A q b (Fp.flatSearch A q a state).state := by
  induction a generalizing state with
  | nil => simp [Fp.flatSearch]
  | cons v rest ih =>
    rw [List.cons_append]
    simp only [Fp.flatSearch]
    split_ifs
    · rw [ih]
    · rfl
    · rw [ih]

theorem fp_clustersLoop_eq_flatSearch {F : Type} (A : Fp.Arithmetic F) (q : Fp.Query F)
    (clusters : List (Fp.Cluster F)) (ordering : List Nat) (state : Fp.ChemicalState F) :
    Fp.clustersLoop A q.options q.iprimary q.iprimary.length q.w q.c q.conditions clusters ordering
        state
      = Fp.flatSearch A q (Fp.clusterVisits clusters ordering) state := by
  induction ordering generalizing state with
  | nil => rfl
  | cons jcluster rest ih =>
    unfold Fp.clustersLoop Fp.clusterVisits
    cases hcl : clusters[jcluster]? with
    | none => exact ih state
    | some cluster =>
      simp only [fp_recordsLoop_eq_flatSearch, fp_flatSearch_append, ih]

theorem fp_flatSearch_found_iff {F : Type} (A : Fp.Arithmetic F) (q : Fp.Query F)
    (vs : List (Fp.Visit F)) (state : Fp.ChemicalState F) :
    (Fp.flatSearch A q vs state).found.isSome = true ↔
      ∃ pre v post, vs = pre ++ v :: post ∧ q.passes A v = true ∧
        q.continues A (q.extrapolate v (q.arrive A pre state)).n = false := by
  induction vs generalizing state with
  | nil => simp [Fp.flatSearch]
  | cons u rest ih =>
    have hstep : ∀ pre : List (Fp.Visit F),
        q.arrive A (u :: pre) state = q.arrive A pre (q.step A state u) := fun _ => rfl
    constructor
    · intro h
      simp only [Fp.flatSearch] at h
      split_ifs at h with hp hc
      · obtain ⟨pre, v, post, h1, h2, h3⟩ := (ih _).1 h
        refine ⟨u :: pre, v, post, by rw [h1]; rfl, h2, ?_⟩
        rw [hstep]
        simpa [Fp.Query.step, hp] using h3
      · exact ⟨[], u, rest, rfl, hp, by simpa [Fp.Query.arrive] using hc⟩
      · obtain ⟨pre, v, post, h1, h2, h3⟩ := (ih _).1 h
        refine ⟨u :: pre, v, post, by rw [h1]; rfl, h2, ?_⟩
        rw [hstep]
        simpa [Fp.Query.step, hp] using h3
    · rintro ⟨pre, v, post, h1, h2, h3⟩
      simp only [Fp.flatSearch]
      cases pre with
      | nil =>
        simp only [List.nil_append, List.cons.injEq] at h1
        obtain ⟨rfl, rfl⟩ := h1
        have hc : q.continues A (q.extrapolate u state).n = false := by
          simpa [Fp.Query.arrive] using h3
        simp [h2, hc]
      | cons x pre =>
        simp only [List.cons_append, List.cons.injEq] at h1
        obtain ⟨rfl, rfl⟩ := h1
        rw [hstep] at h3
        split_ifs with hp hc
        · apply (ih _).2
          refine ⟨pre, v, post, rfl, h2, ?_⟩
          simpa [Fp.Query.step, hp] using h3
        · rfl
        · apply (ih _).2
          refine ⟨pre, v, post, rfl, h2, ?_⟩
          simpa [Fp.Query.step, hp] using h3

theorem fp_predict_accepted_eq {F : Type} (A : Fp.Arithmetic F) (impl : Fp.Impl F)
    (state : Fp.ChemicalState F) (conditions : Fp.EquilibriumConditions F)
    (hne : impl.database.clusters ≠ []) :
    (Fp.Impl.predict A impl state conditions).1.result.prediction.accepted
      = (Fp.flatSearch A (impl.query state conditions) (impl.visits state) state).found.isSome := by
  have hloop := fp_clustersLoop_eq_flatSearch A (impl.query state conditions)
    impl.database.clusters (impl.database.connectivity.order (impl.startCluster state)) state
  unfold Fp.Impl.predict
  simp only [List.isEmpty_iff, hne, if_false, Fp.Impl.visits, Fp.Impl.query,
    Fp.Impl.startCluster] at hloop ⊢
  simp only [hloop]
  cases (Fp.flatSearch _ _ _ state).found <;> simp

theorem fp_mem_recordVisits {F : Type} (jcluster : Nat) (records : List (Fp.Record F))
    (ordering : List Nat) (v : Fp.Visit F) :
    v ∈ Fp.recordVisits jcluster records ordering ↔
      v.jcluster = jcluster ∧ v.irecord ∈ ordering ∧ records[v.irecord]? = some v.record := by
  induction ordering with
  | nil => simp [Fp.recordVisits]
  | cons irecord rest ih =>
    unfold Fp.recordVisits
    cases hrec : records[irecord]? with
    | none =>
      simp only [ih, List.mem_cons]
      constructor
      · rintro ⟨h1, h2, h3⟩
        exact ⟨h1, Or.inr h2, h3⟩
      · rintro ⟨h1, h2 | h2, h3⟩
        · rw [h2, hrec] at h3
          cases h3
        · exact ⟨h1, h2, h3⟩
    | some record =>
      simp only [List.mem_cons, ih]
      constructor
      · rintro (h | ⟨h1, h2, h3⟩)
        · subst h
          exact ⟨rfl, Or.inl rfl, hrec⟩
        · exact ⟨h1, Or.inr h2, h3⟩
      · rintro ⟨h1, h2 | h2, h3⟩
        · left
          cases v with
          | mk j r rec =>
            simp only at h1 h2 h3
            subst h1 h2
            rw [hrec] at h3
            cases h3
            rfl
        · exact Or.inr ⟨h1, h2, h3⟩

theorem fp_mem_clusterVisits {F : Type} (clusters : List (Fp.Cluster F)) (ordering : List Nat)
    (v : Fp.Visit F) :
    v ∈ Fp.clusterVisits clusters ordering ↔
      v.jcluster ∈ ordering ∧ ∃ cluster, clusters[v.jcluster]? = some cluster ∧
        v.irecord ∈ cluster.priority.order ∧ cluster.records[v.irecord]? = some v.record := by
  induction ordering with
  | nil => simp [Fp.clusterVisits]
  | cons jcluster rest ih =>
    unfold Fp.clusterVisits
    cases hcl : clusters[jcluster]? with
    | none =>
      simp only [ih, List.mem_cons]
      constructor
      · rintro ⟨h1, h2⟩
        exact ⟨Or.inr h1, h2⟩
      · rintro ⟨h1 | h1, cluster, h2, h3⟩
        · rw [h1, hcl] at h2
          cases h2
        · exact ⟨h1, cluster, h2, h3⟩
    | some cluster =>
      simp only [List.mem_append, fp_mem_recordVisits, ih, List.mem_cons]
      constructor
      · rintro (⟨h1, h2, h3⟩ | ⟨h1, h2⟩)
        · exact ⟨Or.inl h1, cluster, by rw [h1, hcl], h2, h3⟩
        · exact ⟨Or.inr h1, h2⟩
      · rintro ⟨h1 | h1, cl, h2, h3, h4⟩
        · left
          rw [h1, hcl] at h2
          cases h2
          exact ⟨h1, h3, h4⟩
        · exact Or.inr ⟨h1, cl, h2, h3, h4⟩

/-! ## The claims on the two tests of `predict` -/

/-- C5, as stated, fails: the predicted chemical potential of the record is NaN,
the comparison of line 265 is false, and the error test returns true for the
index set `[0]`, although the strict inequality does not hold for the element `0`. -/
theorem pass_error_test_passes_nan_potential :
    Fp.nanState.iprimary = [0] ∧
      Fp.pass_error_test Fp.withNaN Fp.nanOptions Fp.nanState.iprimary
        Fp.nanState.iprimary.length Fp.nanConditions.inputValues
        (Fp.nanConditions.initialComponentAmountsGetOrCompute Fp.nanState)
        Fp.nanPotentialRecord = true ∧
      Fp.within Fp.withNaN Fp.nanOptions Fp.nanConditions.inputValues
        (Fp.nanConditions.initialComponentAmountsGetOrCompute Fp.nanState)
        Fp.nanPotentialRecord 0 = false := by
  decide

/-- C5, amended: in every arithmetic of `double`, the error test of a record
returns true if and only if, for every element `i` of the query state's
primary-species index set, the comparison
`abs(mu1(i) - mu0(i)) >= reltol * abs(mu0(i)) + abstol` of line 265 is false; hence
the answer is the same for every reordering of the index set.  On values that are
not NaN the comparison is false exactly when the strict inequality `<` holds, and
it is false whenever one of its sides is NaN. -/
theorem pass_error_test_iff_no_comparison_holds {F : Type} (A : Fp.Arithmetic F)
    (options : Fp.SmartEquilibriumOptions F) (iprimary : List Nat) (w c : List F)
    (record : Fp.Record F) :
    (Fp.pass_error_test A options iprimary iprimary.length w c record = true ↔
        ∀ i ∈ iprimary, Fp.exceeds A options w c record i = false) ∧
      (∀ reordered : List Nat, reordered.Perm iprimary →
        Fp.pass_error_test A options reordered reordered.length w c record
          = Fp.pass_error_test A options iprimary iprimary.length w c record) ∧
      (∀ a b : Option Int, Fp.withNaN.ge a b = false ↔
        a = none ∨ b = none ∨ Fp.withNaN.lt a b = true) ∧
      (∀ a b : ℚ, Fp.rational.ge a b = false ↔ Fp.rational.lt a b = true) := by
  refine ⟨fp_pass_error_test_iff A options iprimary w c record, ?_, ?_, ?_⟩
  · intro reordered hperm
    rw [Bool.eq_iff_iff, fp_pass_error_test_iff, fp_pass_error_test_iff]
    constructor
    · intro h i hi
      exact h i (hperm.mem_iff.mpr hi)
    · intro h i hi
      exact h i (hperm.mem_iff.mp hi)
  · intro a b
    cases a with
    | none => simp [Fp.withNaN, Fp.nanCompare]
    | some x =>
      cases b with
      | none => simp [Fp.withNaN, Fp.nanCompare]
      | some y => simp [Fp.withNaN, Fp.nanCompare]
  · intro a b
    simp [Fp.rational]

theorem fp_flatSearch_none_state {F : Type} (A : Fp.Arithmetic F) (q : Fp.Query F)
    (vs : List (Fp.Visit F)) (state : Fp.ChemicalState F)
    (h : (Fp.flatSearch A q vs state).found = none) :
    (Fp.flatSearch A q vs state).state = q.arrive A vs state := by
  induction vs generalizing state with
  | nil => rfl
  | cons u rest ih =>
    have hstep : q.arrive A (u :: rest) state = q.arrive A rest (q.step A state u) := rfl
    simp only [Fp.flatSearch] at h ⊢
    rw [hstep]
    split_ifs at h ⊢ with hp hc
    · rw [ih _ h]
      simp [Fp.Query.step, hp]
    · rw [ih _ h]
      simp [Fp.Query.step, hp]

theorem fp_predict_state_eq {F : Type} (A : Fp.Arithmetic F) (impl : Fp.Impl F)
    (state : Fp.ChemicalState F) (conditions : Fp.EquilibriumConditions F)
    (hne : impl.database.clusters ≠ []) :
    (Fp.Impl.predict A impl state conditions).2
      = (Fp.flatSearch A (impl.query state conditions) (impl.visits state) state).state := by
  have hloop := fp_clustersLoop_eq_flatSearch A (impl.query state conditions)
    impl.database.clusters (impl.database.connectivity.order (impl.startCluster state)) state
  unfold Fp.Impl.predict
  simp only [List.isEmpty_iff, hne, if_false, Fp.Impl.visits, Fp.Impl.query,
    Fp.Impl.startCluster] at hloop ⊢
  simp only [hloop]
  cases (Fp.flatSearch _ _ _ state).found <;> simp

/-- C6, as stated, fails: the database holds one record, whose extrapolation has a
NaN amount.  The record passes the error test, the sum of the extrapolated amounts
is NaN, the comparison `nmin <= reltol_negative_amounts * nsum` of line 345 is
false, and `predict` accepts and returns the NaN amount; yet for no record is
`min > reltol_negative_amounts * sum`, whatever the minimum is taken to be. -/
theorem predict_accepts_nan_amounts :
    (Fp.singleImpl Fp.nanAmountRecord).database.clusters ≠ [] ∧
      (Fp.Impl.predict Fp.withNaN (Fp.singleImpl Fp.nanAmountRecord) Fp.nanState
        Fp.nanConditions).1.result.prediction.accepted = true ∧
      (Fp.Impl.predict Fp.withNaN (Fp.singleImpl Fp.nanAmountRecord) Fp.nanState
        Fp.nanConditions).2.n = [none, some 1] ∧
      ((Fp.singleImpl Fp.nanAmountRecord).visits Fp.nanState).map
        (fun v => (v.jcluster, v.irecord)) = [(0, 0)] ∧
      (∀ v ∈ (Fp.singleImpl Fp.nanAmountRecord).visits Fp.nanState,
        ∀ (s : Fp.ChemicalState (Option Int)) (m : Option Int),
          Fp.withNaN.sum (v.record.predictor.predict s Fp.nanConditions).n = none ∧
          Fp.withNaN.lt
            (Fp.withNaN.mul (Fp.singleImpl Fp.nanAmountRecord).options.reltol_negative_amounts
              (Fp.withNaN.sum (v.record.predictor.predict s Fp.nanConditions).n)) m = false) := by
  refine ⟨by simp [Fp.singleImpl], by decide, by decide, by decide, ?_⟩
  intro v hv s m
  have hvisits : (Fp.singleImpl Fp.nanAmountRecord).visits Fp.nanState
      = [{ jcluster := 0, irecord := 0, record := Fp.nanAmountRecord }] := rfl
  rw [hvisits, List.mem_singleton] at hv
  subst hv
  exact ⟨rfl, rfl⟩

/-- C6, amended: in every arithmetic of `double`, on a database with at least one
cluster, `predict` returns `accepted = true` if and only if some stop of the
visitation order (a record at some position of the priority order of some cluster
listed by `connectivity.order(startCluster)`) passes the error test and the
comparison `nmin <= reltol_negative_amounts * nsum` of line 345 is false for its
extrapolated state, the extrapolation being the one the Taylor step produces when
the search reaches the stop; otherwise `predict` returns `accepted = false` with the
state as every stop of the visitation order in turn has left it.  On
values that are not NaN the comparison is false exactly when
`reltol_negative_amounts * nsum < nmin`, and it is false whenever one of its sides
is NaN. -/
theorem predict_accepts_iff_some_visit_passes_tests {F : Type} (A : Fp.Arithmetic F)
    (impl : Fp.Impl F) (state : Fp.ChemicalState F) (conditions : Fp.EquilibriumConditions F)
    (hne : impl.database.clusters ≠ []) :
    ((Fp.Impl.predict A impl state conditions).1.result.prediction.accepted = true ↔
      ∃ pre v post, impl.visits state = pre ++ v :: post ∧
        Fp.pass_error_test A impl.options state.iprimary state.iprimary.length
          conditions.inputValues (conditions.initialComponentAmountsGetOrCompute state)
          v.record = true ∧
        A.le
          (A.minCoeff (v.record.predictor.predict
            ((impl.query state conditions).arrive A pre state) conditions).n)
          (A.mul impl.options.reltol_negative_amounts
            (A.sum (v.record.predictor.predict
              ((impl.query state conditions).arrive A pre state) conditions).n)) = false) ∧
      (∀ v, v ∈ impl.visits state ↔
        v.jcluster ∈ impl.database.connectivity.order (impl.startCluster state) ∧
          ∃ cluster, impl.database.clusters[v.jcluster]? = some cluster ∧
            v.irecord ∈ cluster.priority.order ∧
            cluster.records[v.irecord]? = some v.record) ∧
      ((Fp.Impl.predict A impl state conditions).1.result.prediction.accepted = false →
        (Fp.Impl.predict A impl state conditions).2
          = (impl.query state conditions).arrive A (impl.visits state) state) ∧
      (∀ a b : Option Int, Fp.withNaN.le a b = false ↔
        a = none ∨ b = none ∨ Fp.withNaN.lt b a = true) ∧
      (∀ a b : ℚ, Fp.rational.le a b = false ↔ Fp.rational.lt b a = true) := by
  refine ⟨?_, ?_, ?_, ?_, ?_⟩
  · rw [fp_predict_accepted_eq A impl state conditions hne, fp_flatSearch_found_iff]
    rfl
  · intro v
    exact fp_mem_clusterVisits _ _ v
  · intro hrej
    rw [fp_predict_accepted_eq A impl state conditions hne] at hrej
    rw [fp_predict_state_eq A impl state conditions hne]
    apply fp_flatSearch_none_state
    cases hf : (Fp.flatSearch A (impl.query state conditions) (impl.visits state) state).found with
    | none => rfl
    | some p => simp [hf] at hrej
  · intro a b
    cases a with
    | none => simp [Fp.withNaN, Fp.nanCompare]
    | some x =>
      cases b with
      | none => simp [Fp.withNaN, Fp.nanCompare]
      | some y => simp [Fp.withNaN, Fp.nanCompare]
  · intro a b
    simp [Fp.rational]

/-- C6 amended, at a concrete input: the database holds one record, whose
extrapolation has the amounts `1` and `2`; `predict` accepts. -/
theorem predict_accepts_iff_some_visit_passes_tests_witness :
    (Fp.singleImpl Fp.finiteRecord).database.clusters ≠ [] ∧
      (Fp.Impl.predict Fp.withNaN (Fp.singleImpl Fp.finiteRecord) Fp.nanState
        Fp.nanConditions).1.result.prediction.accepted = true :=
  ⟨by simp [Fp.singleImpl],
    (predict_accepts_iff_some_visit_passes_tests Fp.withNaN (Fp.singleImpl Fp.finiteRecord)
      Fp.nanState Fp.nanConditions (by simp [Fp.singleImpl])).1.2
      ⟨[], { jcluster := 0, irecord := 0, record := Fp.finiteRecord }, [], rfl, by decide,
        by decide⟩⟩

end Reaktoro
